import Mathlib

/-!
ProceduralMeshes: the cylinder generator of `SimpleCylinderActor.cpp`.

A shallow embedding of `ASimpleCylinderActor` (`SetupMeshBuffers`, `GenerateMesh`,
`GenerateCylinder`, `OnConstruction`, `BeginPlay`) and theorems about it.

Conventions of the embedding

* `float` is an arbitrary field `α` (ordered where the code compares); the theorems about
  geometry instantiate it with `ℝ`, the counting theorems hold for every `α`, and the
  definitions evaluate on `ℚ`.
* The engine functions the file calls but does not define (`FMath::Cos`, `FMath::Sin`, `PI`,
  `FVector::GetSafeNormal`, the `FPackedNormal` conversion) are the fields of `Engine`.
* `int32` is `Int` (the cursors, which start at `0` and are only incremented, are `Nat`).
  The embedding describes the runs in which no `int32` operation overflows: the theorems about
  what `SetupMeshBuffers` allocates carry the hypothesis that the counts are at most
  `INT32_MAX`, or a buffer that long; `wrapInt32` and the two `...Int32` counts are the
  wrapped arithmetic, which agrees with `Int` under that hypothesis.
* `TArray` is `List`; `operator[]` outside the bounds is the engine's range-check failure and
  is `none`. `AddUninitialized` appends slots whose content is whatever `Uninit` says.
* `CylinderRun.CapTriangles` is a ghost counter, and `CylinderRun.frame`, `Framed` and the
  lists of the section on closed forms are devices of the proofs; none of them is in the code.
  `CylinderRun.capTriangleCount` counts the cap triangles in the buffers a run returns.
-/

namespace ProceduralMeshes

/-- The engine's `FVector`: three `float` components. -/
structure FVector (α : Type) where
  X : α
  Y : α
  Z : α
deriving DecidableEq, Repr

/-- The engine's `FVector2D`. -/
structure FVector2D (α : Type) where
  X : α
  Y : α
deriving DecidableEq, Repr

namespace FVector

variable {α : Type} [Field α]

/-- `FVector::operator+`. -/
def add (A B : FVector α) : FVector α := ⟨A.X + B.X, A.Y + B.Y, A.Z + B.Z⟩

/-- `FVector::operator-`. -/
def sub (A B : FVector α) : FVector α := ⟨A.X - B.X, A.Y - B.Y, A.Z - B.Z⟩

/-- `FVector::operator/(float)`: multiplies by the reciprocal of the scale. -/
def divScalar (A : FVector α) (Scale : α) : FVector α :=
  ⟨A.X * (1 / Scale), A.Y * (1 / Scale), A.Z * (1 / Scale)⟩

/-- `FVector::CrossProduct`. -/
def CrossProduct (A B : FVector α) : FVector α :=
  ⟨A.Y * B.Z - A.Z * B.Y, A.Z * B.X - A.X * B.Z, A.X * B.Y - A.Y * B.X⟩

/-- `FVector::DotProduct`. -/
def DotProduct (A B : FVector α) : α := A.X * B.X + A.Y * B.Y + A.Z * B.Z

instance : Add (FVector α) := ⟨add⟩

instance : Sub (FVector α) := ⟨sub⟩

end FVector

/-- The engine functions `GenerateCylinder` calls: `FMath::Cos`, `FMath::Sin`, the constant
`PI`, `FVector::GetSafeNormal`, and the conversion `FPackedNormal(FVector)` (seen through the
vector it stores). None of them is defined in the repository, so they are parameters. -/
structure Engine (α : Type) where
  Cos : α → α
  Sin : α → α
  PI : α
  GetSafeNormal : FVector α → FVector α
  FPackedNormal : FVector α → FVector α

/-- Modelled from the spec: the vertex record `FRuntimeMeshVertexSimple`, whose declaration is
in a header outside the sources; the spec gives a vertex a position, a UV coordinate, a normal
and a tangent. -/
structure FRuntimeMeshVertexSimple (α : Type) where
  Position : FVector α
  UV0 : FVector2D α
  Normal : FVector α
  Tangent : FVector α
deriving DecidableEq, Repr

/-- `Array[Index].Field = ...`: the slot at `i` is replaced by `f` of itself; `none` when `i`
is out of bounds. -/
def writeAt {β : Type} : List β → Nat → (β → β) → Option (List β)
  | [], _, _ => none
  | a :: l, 0, f => some (f a :: l)
  | a :: l, i + 1, f => (writeAt l i f).map (fun l => a :: l)

/-- `Array[Index]` read: `none` when `i` is out of bounds. -/
def readAt {β : Type} (l : List β) (i : Nat) : Option β := l.get? i

/-- The locals of one run of `GenerateCylinder`: the two buffers (passed by reference), the two
cursors, and a ghost counter `CapTriangles` of the index triples written inside the
`if (QuadIndex != 0 && bInCapEnds)` block (the code has no such variable). -/
structure CylinderRun (α : Type) where
  Vertices : List (FRuntimeMeshVertexSimple α)
  Triangles : List Int
  VertexIndex : Nat
  TriangleIndex : Nat
  CapTriangles : Nat
deriving DecidableEq, Repr

namespace CylinderRun

variable {α : Type}

/-- `Vertices[i].Position = p`. -/
def setPosition (s : CylinderRun α) (i : Nat) (p : FVector α) : Option (CylinderRun α) :=
  (writeAt s.Vertices i (fun v => { v with Position := p })).map
    (fun V => { s with Vertices := V })

/-- `Vertices[i].UV0 = uv`. -/
def setUV0 (s : CylinderRun α) (i : Nat) (uv : FVector2D α) : Option (CylinderRun α) :=
  (writeAt s.Vertices i (fun v => { v with UV0 := uv })).map
    (fun V => { s with Vertices := V })

/-- `Vertices[i].Normal = n`. -/
def setNormal (s : CylinderRun α) (i : Nat) (n : FVector α) : Option (CylinderRun α) :=
  (writeAt s.Vertices i (fun v => { v with Normal := n })).map
    (fun V => { s with Vertices := V })

/-- `Vertices[i].Tangent = t`. -/
def setTangent (s : CylinderRun α) (i : Nat) (t : FVector α) : Option (CylinderRun α) :=
  (writeAt s.Vertices i (fun v => { v with Tangent := t })).map
    (fun V => { s with Vertices := V })

/-- `Vertices[i].Position` read back from the buffer. -/
def position (s : CylinderRun α) (i : Nat) : Option (FVector α) :=
  (readAt s.Vertices i).map (fun v => v.Position)

/-- `VertexIndex++`: the old value and the run with the cursor advanced. -/
def nextVertex (s : CylinderRun α) : Nat × CylinderRun α :=
  (s.VertexIndex, { s with VertexIndex := s.VertexIndex + 1 })

/-- `Triangles[TriangleIndex++] = v`. -/
def pushTriangle (s : CylinderRun α) (v : Nat) : Option (CylinderRun α) :=
  (writeAt s.Triangles s.TriangleIndex (fun _ => (v : Int))).map
    (fun T => { s with Triangles := T, TriangleIndex := s.TriangleIndex + 1 })

/-- Ghost step: one more triangle written by the cap block. -/
def countCapTriangle (s : CylinderRun α) : Option (CylinderRun α) :=
  some { s with CapTriangles := s.CapTriangles + 1 }

/-- The run `s`, which works on buffers of its own, seen inside larger buffers: `pre` and
`Tpre` are the slots below its buffers and `c` the cap triangles counted before it. -/
def frame (pre : List (FRuntimeMeshVertexSimple α)) (Tpre : List Int) (c : Nat)
    (s : CylinderRun α) : CylinderRun α :=
  ⟨pre ++ s.Vertices, Tpre ++ s.Triangles, pre.length + s.VertexIndex,
    Tpre.length + s.TriangleIndex, c + s.CapTriangles⟩

/-- A block of statements run in order, stopping at the first failure. -/
def run (stmts : List (CylinderRun α → Option (CylinderRun α))) (s : CylinderRun α) :
    Option (CylinderRun α) :=
  stmts.foldlM (fun s stmt => stmt s) s

end CylinderRun

section Generator

variable {α : Type} [Field α]

/-- The point of the circle at `Angle`:
`FVector(FMath::Cos(Angle) * InWidth, FMath::Sin(Angle) * InWidth, 0.f)`. -/
def circlePoint (E : Engine α) (InWidth Angle : α) : FVector α :=
  ⟨E.Cos Angle * InWidth, E.Sin Angle * InWidth, 0⟩

/-- Lines 109-173 of `GenerateCylinder`: the primary side quad of one segment. Returns the run
and `NormalCurrent`, which the double-sided block reuses. A chained assignment
`a = b = c = d = x` stores `x` into `d`, `c`, `b`, `a` in that order. -/
def sideQuad (E : Engine α) (InWidth AngleBetweenQuads VMapPerQuad : α)
    (bInSmoothNormals : Bool) (QuadIndex : Int) (p0 p1 p2 p3 : FVector α)
    (s : CylinderRun α) : Option (CylinderRun α × FVector α) := do
  let (VertIndex1, s) := s.nextVertex
  let (VertIndex2, s) := s.nextVertex
  let (VertIndex3, s) := s.nextVertex
  let (VertIndex4, s) := s.nextVertex
  let s ← CylinderRun.run [
    (·.setPosition VertIndex1 p0),
    (·.setPosition VertIndex2 p1),
    (·.setPosition VertIndex3 p2),
    (·.setPosition VertIndex4 p3),
    (·.pushTriangle VertIndex4),
    (·.pushTriangle VertIndex3),
    (·.pushTriangle VertIndex1),
    (·.pushTriangle VertIndex3),
    (·.pushTriangle VertIndex2),
    (·.pushTriangle VertIndex1),
    (·.setUV0 VertIndex1 ⟨1 - VMapPerQuad * (QuadIndex : α), 1⟩),
    (·.setUV0 VertIndex2 ⟨1 - VMapPerQuad * ((QuadIndex + 1 : Int) : α), 1⟩),
    (·.setUV0 VertIndex3 ⟨1 - VMapPerQuad * ((QuadIndex + 1 : Int) : α), 0⟩),
    (·.setUV0 VertIndex4 ⟨1 - VMapPerQuad * (QuadIndex : α), 0⟩)] s
  let q1 ← s.position VertIndex1
  let q3 ← s.position VertIndex3
  let q2 ← s.position VertIndex2
  let q3b ← s.position VertIndex3
  let NormalCurrent := E.GetSafeNormal (FVector.CrossProduct (q1 - q3) (q2 - q3b))
  let s ←
    if bInSmoothNormals then
      let NextNextAngle : α := ((QuadIndex + 2 : Int) : α) * AngleBetweenQuads
      let p4 := circlePoint E InWidth NextNextAngle
      let NormalNext := E.GetSafeNormal (FVector.CrossProduct (p1 - p2) (p4 - p2))
      let AverageNormalRight := (NormalCurrent + NormalNext).divScalar 2
      let AverageNormalRight := E.GetSafeNormal AverageNormalRight
      let PreviousAngle : α := ((QuadIndex - 1 : Int) : α) * AngleBetweenQuads
      let pMinus1 := circlePoint E InWidth PreviousAngle
      let NormalPrevious := E.GetSafeNormal (FVector.CrossProduct (p0 - pMinus1) (p3 - pMinus1))
      let AverageNormalLeft := (NormalCurrent + NormalPrevious).divScalar 2
      let AverageNormalLeft := E.GetSafeNormal AverageNormalLeft
      CylinderRun.run [
        (·.setNormal VertIndex1 (E.FPackedNormal AverageNormalLeft)),
        (·.setNormal VertIndex2 (E.FPackedNormal AverageNormalRight)),
        (·.setNormal VertIndex3 (E.FPackedNormal AverageNormalRight)),
        (·.setNormal VertIndex4 (E.FPackedNormal AverageNormalLeft))] s
    else
      CylinderRun.run [
        (·.setNormal VertIndex4 (E.FPackedNormal NormalCurrent)),
        (·.setNormal VertIndex3 (E.FPackedNormal NormalCurrent)),
        (·.setNormal VertIndex2 (E.FPackedNormal NormalCurrent)),
        (·.setNormal VertIndex1 (E.FPackedNormal NormalCurrent))] s
  let SurfaceTangent := p0 - p1
  let SurfaceTangent := E.GetSafeNormal SurfaceTangent
  let s ← CylinderRun.run [
    (·.setTangent VertIndex4 (E.FPackedNormal SurfaceTangent)),
    (·.setTangent VertIndex3 (E.FPackedNormal SurfaceTangent)),
    (·.setTangent VertIndex2 (E.FPackedNormal SurfaceTangent)),
    (·.setTangent VertIndex1 (E.FPackedNormal SurfaceTangent))] s
  pure (s, NormalCurrent)

/-- Lines 179-210 of `GenerateCylinder`: the mirrored quad of a double-sided cylinder. -/
def doubleSidedQuad (E : Engine α) (VMapPerQuad : α) (QuadIndex : Int)
    (p0 p1 p2 p3 NormalCurrent : FVector α) (s : CylinderRun α) : Option (CylinderRun α) :=
  let (VertIndex1, s) := s.nextVertex
  let (VertIndex2, s) := s.nextVertex
  let (VertIndex3, s) := s.nextVertex
  let (VertIndex4, s) := s.nextVertex
  let SurfaceTangent := p0 - p1
  let SurfaceTangent := E.GetSafeNormal SurfaceTangent
  CylinderRun.run [
    (·.setPosition VertIndex1 p0),
    (·.setPosition VertIndex2 p1),
    (·.setPosition VertIndex3 p2),
    (·.setPosition VertIndex4 p3),
    (·.pushTriangle VertIndex4),
    (·.pushTriangle VertIndex1),
    (·.pushTriangle VertIndex3),
    (·.pushTriangle VertIndex3),
    (·.pushTriangle VertIndex1),
    (·.pushTriangle VertIndex2),
    (·.setUV0 VertIndex1 ⟨1 - VMapPerQuad * (QuadIndex : α), 1⟩),
    (·.setUV0 VertIndex2 ⟨1 - VMapPerQuad * ((QuadIndex + 1 : Int) : α), 1⟩),
    (·.setUV0 VertIndex3 ⟨1 - VMapPerQuad * ((QuadIndex + 1 : Int) : α), 0⟩),
    (·.setUV0 VertIndex4 ⟨1 - VMapPerQuad * (QuadIndex : α), 0⟩),
    (·.setNormal VertIndex4 (E.FPackedNormal NormalCurrent)),
    (·.setNormal VertIndex3 (E.FPackedNormal NormalCurrent)),
    (·.setNormal VertIndex2 (E.FPackedNormal NormalCurrent)),
    (·.setNormal VertIndex1 (E.FPackedNormal NormalCurrent)),
    (·.setTangent VertIndex4 (E.FPackedNormal SurfaceTangent)),
    (·.setTangent VertIndex3 (E.FPackedNormal SurfaceTangent)),
    (·.setTangent VertIndex2 (E.FPackedNormal SurfaceTangent)),
    (·.setTangent VertIndex1 (E.FPackedNormal SurfaceTangent))] s

/-- Lines 223-244 of `GenerateCylinder`: the bottom cap triangle of one segment. -/
def bottomCap (E : Engine α) (Angle NextAngle : α)
    (p0 p1 capVertex0 capVertex1 capVertex2 : FVector α)
    (s : CylinderRun α) : Option (CylinderRun α) := do
  let (VertIndex1, s) := s.nextVertex
  let (VertIndex2, s) := s.nextVertex
  let (VertIndex3, s) := s.nextVertex
  let s ← CylinderRun.run [
    (·.setPosition VertIndex1 capVertex0),
    (·.setPosition VertIndex2 capVertex1),
    (·.setPosition VertIndex3 capVertex2),
    (·.pushTriangle VertIndex1),
    (·.pushTriangle VertIndex2),
    (·.pushTriangle VertIndex3),
    (·.countCapTriangle),
    (·.setUV0 VertIndex1 ⟨1 / 2 - E.Cos 0 / 2, 1 / 2 - E.Sin 0 / 2⟩),
    (·.setUV0 VertIndex2 ⟨1 / 2 - E.Cos (-Angle) / 2, 1 / 2 - E.Sin (-Angle) / 2⟩),
    (·.setUV0 VertIndex3 ⟨1 / 2 - E.Cos (-NextAngle) / 2, 1 / 2 - E.Sin (-NextAngle) / 2⟩)] s
  let q1 ← s.position VertIndex1
  let q3 ← s.position VertIndex3
  let q2 ← s.position VertIndex2
  let q3b ← s.position VertIndex3
  let NormalCurrent := E.GetSafeNormal (FVector.CrossProduct (q1 - q3) (q2 - q3b))
  let SurfaceTangent := p0 - p1
  let SurfaceTangent := E.GetSafeNormal SurfaceTangent
  CylinderRun.run [
    (·.setNormal VertIndex3 (E.FPackedNormal NormalCurrent)),
    (·.setNormal VertIndex2 (E.FPackedNormal NormalCurrent)),
    (·.setNormal VertIndex1 (E.FPackedNormal NormalCurrent)),
    (·.setTangent VertIndex3 (E.FPackedNormal SurfaceTangent)),
    (·.setTangent VertIndex2 (E.FPackedNormal SurfaceTangent)),
    (·.setTangent VertIndex1 (E.FPackedNormal SurfaceTangent))] s

/-- Lines 251-272 of `GenerateCylinder`: the top cap triangle of one segment; the three cap
vertices arrive already raised by `Offset` (lines 247-249). -/
def topCap (E : Engine α) (Angle NextAngle : α)
    (p0 p1 capVertex0 capVertex1 capVertex2 : FVector α)
    (s : CylinderRun α) : Option (CylinderRun α) := do
  let (VertIndex1, s) := s.nextVertex
  let (VertIndex2, s) := s.nextVertex
  let (VertIndex3, s) := s.nextVertex
  let s ← CylinderRun.run [
    (·.setPosition VertIndex1 capVertex0),
    (·.setPosition VertIndex2 capVertex1),
    (·.setPosition VertIndex3 capVertex2),
    (·.pushTriangle VertIndex3),
    (·.pushTriangle VertIndex2),
    (·.pushTriangle VertIndex1),
    (·.countCapTriangle),
    (·.setUV0 VertIndex1 ⟨1 / 2 - E.Cos 0 / 2, 1 / 2 - E.Sin 0 / 2⟩),
    (·.setUV0 VertIndex2 ⟨1 / 2 - E.Cos Angle / 2, 1 / 2 - E.Sin Angle / 2⟩),
    (·.setUV0 VertIndex3 ⟨1 / 2 - E.Cos NextAngle / 2, 1 / 2 - E.Sin NextAngle / 2⟩)] s
  let q1 ← s.position VertIndex1
  let q3 ← s.position VertIndex3
  let q2 ← s.position VertIndex2
  let q3b ← s.position VertIndex3
  let NormalCurrent := E.GetSafeNormal (FVector.CrossProduct (q1 - q3) (q2 - q3b))
  let SurfaceTangent := p0 - p1
  let SurfaceTangent := E.GetSafeNormal SurfaceTangent
  CylinderRun.run [
    (·.setNormal VertIndex3 (E.FPackedNormal NormalCurrent)),
    (·.setNormal VertIndex2 (E.FPackedNormal NormalCurrent)),
    (·.setNormal VertIndex1 (E.FPackedNormal NormalCurrent)),
    (·.setTangent VertIndex3 (E.FPackedNormal SurfaceTangent)),
    (·.setTangent VertIndex2 (E.FPackedNormal SurfaceTangent)),
    (·.setTangent VertIndex1 (E.FPackedNormal SurfaceTangent))] s

/-- The body of the `for` loop of `GenerateCylinder` (lines 98-274) for one `QuadIndex`. -/
def quadIteration (E : Engine α) (InWidth AngleBetweenQuads VMapPerQuad : α) (Offset : FVector α)
    (bInCapEnds bInDoubleSided bInSmoothNormals : Bool)
    (s : CylinderRun α) (QuadIndex : Int) : Option (CylinderRun α) := do
  let Angle : α := (QuadIndex : α) * AngleBetweenQuads
  let NextAngle : α := ((QuadIndex + 1 : Int) : α) * AngleBetweenQuads
  let p0 := circlePoint E InWidth Angle
  let p1 := circlePoint E InWidth NextAngle
  let p2 := p1 + Offset
  let p3 := p0 + Offset
  let (s, NormalCurrent) ←
    sideQuad E InWidth AngleBetweenQuads VMapPerQuad bInSmoothNormals QuadIndex p0 p1 p2 p3 s
  let s ←
    if bInDoubleSided then doubleSidedQuad E VMapPerQuad QuadIndex p0 p1 p2 p3 NormalCurrent s
    else pure s
  if QuadIndex ≠ 0 ∧ bInCapEnds = true then do
    let capVertex0 := circlePoint E InWidth 0
    let capVertex1 := circlePoint E InWidth Angle
    let capVertex2 := circlePoint E InWidth NextAngle
    let s ← bottomCap E Angle NextAngle p0 p1 capVertex0 capVertex1 capVertex2 s
    let capVertex0 := capVertex0 + Offset
    let capVertex1 := capVertex1 + Offset
    let capVertex2 := capVertex2 + Offset
    topCap E Angle NextAngle p0 p1 capVertex0 capVertex1 capVertex2 s
  else pure s

/-- `ASimpleCylinderActor::GenerateCylinder`: fills the two buffers in place; `none` when a
write falls outside a buffer. The `for` loop runs `QuadIndex` over `0 .. InCrossSectionCount-1`. -/
def GenerateCylinder (E : Engine α) (Vertices : List (FRuntimeMeshVertexSimple α))
    (Triangles : List Int) (InHeight InWidth : α) (InCrossSectionCount : Int)
    (bInCapEnds bInDoubleSided bInSmoothNormals : Bool) : Option (CylinderRun α) :=
  let AngleBetweenQuads : α := (2 / (InCrossSectionCount : α)) * E.PI
  let VMapPerQuad : α := 1 / (InCrossSectionCount : α)
  let Offset : FVector α := ⟨0, 0, InHeight⟩
  (List.range InCrossSectionCount.toNat).foldlM
    (fun s (QuadIndex : Nat) =>
      quadIteration E InWidth AngleBetweenQuads VMapPerQuad Offset
        bInCapEnds bInDoubleSided bInSmoothNormals s (QuadIndex : Int))
    ⟨Vertices, Triangles, 0, 0, 0⟩

end Generator

section Actor

variable {α : Type}

/-- The engine's `FBox`: two corner points. -/
structure FBox (α : Type) where
  Min : FVector α
  Max : FVector α
deriving DecidableEq, Repr

/-- Modelled from the spec: what the rendering sink receives from `CreateMeshSection`: the
vertex array, the index array, the bounding box and the collision flag (the sink,
`URuntimeMeshComponent`, is outside the sources). -/
structure FMeshSection (α : Type) where
  Vertices : List (FRuntimeMeshVertexSimple α)
  Triangles : List Int
  BoundingBox : FBox α
  bCreateCollision : Bool
deriving DecidableEq, Repr

/-- Modelled from the spec: the rendering sink `URuntimeMeshComponent` as the mesh sections
and materials it holds, each keyed by its section index; a material is an opaque handle. -/
structure URuntimeMeshComponent (α : Type) where
  Sections : List (Nat × FMeshSection α)
  Materials : List (Nat × Nat)
deriving DecidableEq, Repr

namespace URuntimeMeshComponent

/-- Modelled from the spec: `ClearAllMeshSections` leaves the sink without mesh sections. -/
def ClearAllMeshSections (M : URuntimeMeshComponent α) : URuntimeMeshComponent α :=
  { M with Sections := [] }

/-- Modelled from the spec: `CreateMeshSection` stores the section under its index, replacing
one already there. -/
def CreateMeshSection (M : URuntimeMeshComponent α) (SectionIndex : Nat)
    (Section : FMeshSection α) : URuntimeMeshComponent α :=
  { M with Sections := (SectionIndex, Section) :: M.Sections.filter (fun p => p.1 ≠ SectionIndex) }

/-- Modelled from the spec: `SetMaterial` binds a material handle to a section index. -/
def SetMaterial (M : URuntimeMeshComponent α) (ElementIndex : Nat) (Material : Nat) :
    URuntimeMeshComponent α :=
  { M with Materials := (ElementIndex, Material) :: M.Materials.filter (fun p => p.1 ≠ ElementIndex) }

end URuntimeMeshComponent

/-- The content of the slots `AddUninitialized` appends: indeterminate in C++, so any function
of the slot number. -/
structure Uninit (α : Type) where
  vertex : Nat → FRuntimeMeshVertexSimple α
  index : Nat → Int

/-- `TArray::AddUninitialized(Count)`: appends `Count` slots of indeterminate content; a
negative `Count` fails the engine's check. -/
def AddUninitialized {β : Type} (l : List β) (Count : Int) (content : Nat → β) :
    Option (List β) :=
  if 0 ≤ Count then some (l ++ (List.range Count.toNat).map (fun k => content (l.length + k)))
  else none

/-- The members of `ASimpleCylinderActor` the source file reads or writes. -/
structure ASimpleCylinderActor (α : Type) where
  Height : α
  Radius : α
  RadialSegmentCount : Int
  bCapEnds : Bool
  bDoubleSided : Bool
  bSmoothNormals : Bool
  Material : Nat
  MeshComponent : URuntimeMeshComponent α
  Vertices : List (FRuntimeMeshVertexSimple α)
  Triangles : List Int
  bHaveBuffersBeenInitialized : Bool
deriving DecidableEq, Repr

/-- The local `VertexCount` of `SetupMeshBuffers` at the two `AddUninitialized` calls
(lines 37-54), computed on `Int`: the value of the `int32` as long as no operation leaves the
range of `int32`, which is so when the result is at most `INT32_MAX` and there is at least one
segment (`VertexCountInt32_eq`). -/
def SetupMeshBuffers.VertexCount (RadialSegmentCount : Int) (bCapEnds bDoubleSided : Bool) : Int :=
  let VertexCount := RadialSegmentCount * 4
  let VertexCount := if bDoubleSided then VertexCount * 2 else VertexCount
  let VertexCount := if bCapEnds then VertexCount + 2 * (RadialSegmentCount - 1) * 3 else VertexCount
  VertexCount

/-- The local `TriangleCount` of `SetupMeshBuffers` at the two `AddUninitialized` calls
(lines 38-54): the number of indices, three per triangle. Computed on `Int`: the value of the
`int32` as long as no operation leaves the range of `int32`, which is so when the result is at
most `INT32_MAX` and there is at least one segment (`TriangleCountInt32_eq`). -/
def SetupMeshBuffers.TriangleCount (RadialSegmentCount : Int) (bCapEnds bDoubleSided : Bool) : Int :=
  let TriangleCount := RadialSegmentCount * 2 * 3
  let TriangleCount := if bDoubleSided then TriangleCount * 2 else TriangleCount
  let TriangleCount :=
    if bCapEnds then TriangleCount + 2 * (RadialSegmentCount - 1) * 3 else TriangleCount
  TriangleCount

/-- The largest value of an `int32` (`MAX_int32`). -/
def INT32_MAX : Int := 2147483647

/-- The value an `int32` holds after an operation whose exact result is `x`, on a two's-complement
machine: `x` reduced into `-2^31 .. 2^31 - 1`. -/
def wrapInt32 (x : Int) : Int := (x + 2147483648) % 4294967296 - 2147483648

/-- The local `VertexCount` of `SetupMeshBuffers` at the two `AddUninitialized` calls
(lines 37-54) as `int32` arithmetic computes it: every operation is wrapped. -/
def SetupMeshBuffers.VertexCountInt32 (RadialSegmentCount : Int) (bCapEnds bDoubleSided : Bool) :
    Int :=
  let VertexCount := wrapInt32 (RadialSegmentCount * 4)
  let VertexCount := if bDoubleSided then wrapInt32 (VertexCount * 2) else VertexCount
  let VertexCount :=
    if bCapEnds then
      wrapInt32 (VertexCount + wrapInt32 (wrapInt32 (2 * wrapInt32 (RadialSegmentCount - 1)) * 3))
    else VertexCount
  VertexCount

/-- The local `TriangleCount` of `SetupMeshBuffers` at the two `AddUninitialized` calls
(lines 38-54) as `int32` arithmetic computes it: every operation is wrapped. -/
def SetupMeshBuffers.TriangleCountInt32 (RadialSegmentCount : Int) (bCapEnds bDoubleSided : Bool) :
    Int :=
  let TriangleCount := wrapInt32 (wrapInt32 (RadialSegmentCount * 2) * 3)
  let TriangleCount := if bDoubleSided then wrapInt32 (TriangleCount * 2) else TriangleCount
  let TriangleCount :=
    if bCapEnds then
      wrapInt32 (TriangleCount + wrapInt32 (wrapInt32 (2 * wrapInt32 (RadialSegmentCount - 1)) * 3))
    else TriangleCount
  TriangleCount

/-- `ASimpleCylinderActor::SetupMeshBuffers`. -/
def SetupMeshBuffers (U : Uninit α) (A : ASimpleCylinderActor α) :
    Option (ASimpleCylinderActor α) := do
  let VertexCount := SetupMeshBuffers.VertexCount A.RadialSegmentCount A.bCapEnds A.bDoubleSided
  let TriangleCount :=
    SetupMeshBuffers.TriangleCount A.RadialSegmentCount A.bCapEnds A.bDoubleSided
  let V ← AddUninitialized A.Vertices VertexCount U.vertex
  let T ← AddUninitialized A.Triangles TriangleCount U.index
  pure { A with Vertices := V, Triangles := T }

variable [LinearOrderedField α]

/-- The bounding box `GenerateMesh` builds (line 75). -/
def BoundingBox (Radius Height : α) : FBox α :=
  ⟨⟨-Radius, -Radius, 0⟩, ⟨Radius, Radius, Height⟩⟩

/-- `ASimpleCylinderActor::GenerateMesh`. -/
def GenerateMesh (E : Engine α) (U : Uninit α) (A : ASimpleCylinderActor α) :
    Option (ASimpleCylinderActor α) :=
  if A.Height ≤ 0 then
    some { A with MeshComponent := A.MeshComponent.ClearAllMeshSections }
  else do
    let A ←
      if ¬ A.bHaveBuffersBeenInitialized then do
        let A ← SetupMeshBuffers U A
        pure { A with bHaveBuffersBeenInitialized := true }
      else pure A
    let Box := BoundingBox A.Radius A.Height
    let r ← GenerateCylinder E A.Vertices A.Triangles A.Height A.Radius A.RadialSegmentCount
      A.bCapEnds A.bDoubleSided A.bSmoothNormals
    let A := { A with Vertices := r.Vertices, Triangles := r.Triangles }
    let M := A.MeshComponent.ClearAllMeshSections
    let M := M.CreateMeshSection 0 ⟨A.Vertices, A.Triangles, Box, false⟩
    let M := M.SetMaterial 0 A.Material
    pure { A with MeshComponent := M }

/-- `ASimpleCylinderActor::OnConstruction` (editor builds). -/
def OnConstruction (E : Engine α) (U : Uninit α) (A : ASimpleCylinderActor α) :
    Option (ASimpleCylinderActor α) := do
  let A := { A with Vertices := [] }
  let A := { A with Triangles := [] }
  let A ← SetupMeshBuffers U A
  GenerateMesh E U A

/-- `ASimpleCylinderActor::BeginPlay`. -/
def BeginPlay (E : Engine α) (U : Uninit α) (A : ASimpleCylinderActor α) :
    Option (ASimpleCylinderActor α) :=
  GenerateMesh E U A

/-- The state right after the constructor as far as this file shows it: empty buffers, the flag
clear, an empty sink; the configuration is whatever the editor set. -/
def ASimpleCylinderActor.fresh (Height Radius : α) (RadialSegmentCount : Int)
    (bCapEnds bDoubleSided bSmoothNormals : Bool) (Material : Nat) : ASimpleCylinderActor α :=
  { Height := Height, Radius := Radius, RadialSegmentCount := RadialSegmentCount,
    bCapEnds := bCapEnds, bDoubleSided := bDoubleSided, bSmoothNormals := bSmoothNormals,
    Material := Material, MeshComponent := ⟨[], []⟩, Vertices := [], Triangles := [],
    bHaveBuffersBeenInitialized := false }

end Actor

/-! ## What one run writes, in closed form

The lists below are what the blocks of the loop body store, slot by slot; the theorems of the
next section prove that `GenerateCylinder` overwrites its buffers with exactly these lists. -/

section Emitted

variable {α : Type} [Field α]

/-- `NormalCurrent` of a triangle or quad whose slots 1, 2, 3 hold `q1`, `q2`, `q3`
(lines 136, 238 and 266). -/
def NormalCurrent (E : Engine α) (q1 q2 q3 : FVector α) : FVector α :=
  E.GetSafeNormal (FVector.CrossProduct (q1 - q3) (q2 - q3))

/-- `NormalNext` of the smooth-normals branch (lines 143-147). -/
def NormalNext (E : Engine α) (InWidth AngleBetweenQuads : α) (QuadIndex : Int)
    (p1 p2 : FVector α) : FVector α :=
  E.GetSafeNormal (FVector.CrossProduct (p1 - p2)
    (circlePoint E InWidth (((QuadIndex + 2 : Int) : α) * AngleBetweenQuads) - p2))

/-- `NormalPrevious` of the smooth-normals branch (lines 151-155). -/
def NormalPrevious (E : Engine α) (InWidth AngleBetweenQuads : α) (QuadIndex : Int)
    (p0 p3 : FVector α) : FVector α :=
  E.GetSafeNormal (FVector.CrossProduct
    (p0 - circlePoint E InWidth (((QuadIndex - 1 : Int) : α) * AngleBetweenQuads))
    (p3 - circlePoint E InWidth (((QuadIndex - 1 : Int) : α) * AngleBetweenQuads)))

/-- The normal stored on the leading-edge vertices `p0`, `p3` of the primary quad. -/
def leftNormal (E : Engine α) (InWidth AngleBetweenQuads : α) (bInSmoothNormals : Bool)
    (QuadIndex : Int) (p0 p1 p2 p3 : FVector α) : FVector α :=
  if bInSmoothNormals then
    E.FPackedNormal (E.GetSafeNormal ((NormalCurrent E p0 p1 p2 +
      NormalPrevious E InWidth AngleBetweenQuads QuadIndex p0 p3).divScalar 2))
  else E.FPackedNormal (NormalCurrent E p0 p1 p2)

/-- The normal stored on the trailing-edge vertices `p1`, `p2` of the primary quad. -/
def rightNormal (E : Engine α) (InWidth AngleBetweenQuads : α) (bInSmoothNormals : Bool)
    (QuadIndex : Int) (p0 p1 p2 : FVector α) : FVector α :=
  if bInSmoothNormals then
    E.FPackedNormal (E.GetSafeNormal ((NormalCurrent E p0 p1 p2 +
      NormalNext E InWidth AngleBetweenQuads QuadIndex p1 p2).divScalar 2))
  else E.FPackedNormal (NormalCurrent E p0 p1 p2)

/-- The tangent stored on every vertex of a segment (lines 171-173 and their copies). -/
def SurfaceTangent (E : Engine α) (p0 p1 : FVector α) : FVector α :=
  E.FPackedNormal (E.GetSafeNormal (p0 - p1))

/-- The four vertices the primary side quad stores, in slot order. -/
def sideQuadVertices (E : Engine α) (InWidth AngleBetweenQuads VMapPerQuad : α)
    (bInSmoothNormals : Bool) (QuadIndex : Int) (p0 p1 p2 p3 : FVector α) :
    List (FRuntimeMeshVertexSimple α) :=
  [⟨p0, ⟨1 - VMapPerQuad * (QuadIndex : α), 1⟩,
      leftNormal E InWidth AngleBetweenQuads bInSmoothNormals QuadIndex p0 p1 p2 p3,
      SurfaceTangent E p0 p1⟩,
   ⟨p1, ⟨1 - VMapPerQuad * ((QuadIndex + 1 : Int) : α), 1⟩,
      rightNormal E InWidth AngleBetweenQuads bInSmoothNormals QuadIndex p0 p1 p2,
      SurfaceTangent E p0 p1⟩,
   ⟨p2, ⟨1 - VMapPerQuad * ((QuadIndex + 1 : Int) : α), 0⟩,
      rightNormal E InWidth AngleBetweenQuads bInSmoothNormals QuadIndex p0 p1 p2,
      SurfaceTangent E p0 p1⟩,
   ⟨p3, ⟨1 - VMapPerQuad * (QuadIndex : α), 0⟩,
      leftNormal E InWidth AngleBetweenQuads bInSmoothNormals QuadIndex p0 p1 p2 p3,
      SurfaceTangent E p0 p1⟩]

/-- The six indices the primary side quad stores when its first vertex slot is `v`. -/
def sideQuadIndices (v : Nat) : List Int :=
  [((v + 3 : Nat) : Int), ((v + 2 : Nat) : Int), (v : Int),
   ((v + 2 : Nat) : Int), ((v + 1 : Nat) : Int), (v : Int)]

/-- The four vertices the mirrored quad stores, in slot order. -/
def doubleSidedVertices (E : Engine α) (VMapPerQuad : α) (QuadIndex : Int)
    (p0 p1 p2 p3 : FVector α) : List (FRuntimeMeshVertexSimple α) :=
  [⟨p0, ⟨1 - VMapPerQuad * (QuadIndex : α), 1⟩,
      E.FPackedNormal (NormalCurrent E p0 p1 p2), SurfaceTangent E p0 p1⟩,
   ⟨p1, ⟨1 - VMapPerQuad * ((QuadIndex + 1 : Int) : α), 1⟩,
      E.FPackedNormal (NormalCurrent E p0 p1 p2), SurfaceTangent E p0 p1⟩,
   ⟨p2, ⟨1 - VMapPerQuad * ((QuadIndex + 1 : Int) : α), 0⟩,
      E.FPackedNormal (NormalCurrent E p0 p1 p2), SurfaceTangent E p0 p1⟩,
   ⟨p3, ⟨1 - VMapPerQuad * (QuadIndex : α), 0⟩,
      E.FPackedNormal (NormalCurrent E p0 p1 p2), SurfaceTangent E p0 p1⟩]

/-- The six indices the mirrored quad stores when its first vertex slot is `v`. -/
def doubleSidedIndices (v : Nat) : List Int :=
  [((v + 3 : Nat) : Int), (v : Int), ((v + 2 : Nat) : Int),
   ((v + 2 : Nat) : Int), (v : Int), ((v + 1 : Nat) : Int)]

/-- The cap UV of lines 234-236 and 262-264 at the angle `t`. -/
def capUV (E : Engine α) (t : α) : FVector2D α :=
  ⟨1 / 2 - E.Cos t / 2, 1 / 2 - E.Sin t / 2⟩

/-- The three vertices the bottom cap triangle stores, in slot order. -/
def bottomCapVertices (E : Engine α) (Angle NextAngle : α)
    (p0 p1 capVertex0 capVertex1 capVertex2 : FVector α) : List (FRuntimeMeshVertexSimple α) :=
  [⟨capVertex0, capUV E 0,
      E.FPackedNormal (NormalCurrent E capVertex0 capVertex1 capVertex2), SurfaceTangent E p0 p1⟩,
   ⟨capVertex1, capUV E (-Angle),
      E.FPackedNormal (NormalCurrent E capVertex0 capVertex1 capVertex2), SurfaceTangent E p0 p1⟩,
   ⟨capVertex2, capUV E (-NextAngle),
      E.FPackedNormal (NormalCurrent E capVertex0 capVertex1 capVertex2), SurfaceTangent E p0 p1⟩]

/-- The three vertices the top cap triangle stores, in slot order. -/
def topCapVertices (E : Engine α) (Angle NextAngle : α)
    (p0 p1 capVertex0 capVertex1 capVertex2 : FVector α) : List (FRuntimeMeshVertexSimple α) :=
  [⟨capVertex0, capUV E 0,
      E.FPackedNormal (NormalCurrent E capVertex0 capVertex1 capVertex2), SurfaceTangent E p0 p1⟩,
   ⟨capVertex1, capUV E Angle,
      E.FPackedNormal (NormalCurrent E capVertex0 capVertex1 capVertex2), SurfaceTangent E p0 p1⟩,
   ⟨capVertex2, capUV E NextAngle,
      E.FPackedNormal (NormalCurrent E capVertex0 capVertex1 capVertex2), SurfaceTangent E p0 p1⟩]

/-- The indices of the bottom cap triangle when its first vertex slot is `v`. -/
def bottomCapIndices (v : Nat) : List Int :=
  [(v : Int), ((v + 1 : Nat) : Int), ((v + 2 : Nat) : Int)]

/-- The indices of the top cap triangle when its first vertex slot is `v`. -/
def topCapIndices (v : Nat) : List Int :=
  [((v + 2 : Nat) : Int), ((v + 1 : Nat) : Int), (v : Int)]

/-- Whether the loop body enters the cap block: `QuadIndex != 0 && bInCapEnds`. -/
def emitsCaps (bInCapEnds : Bool) (QuadIndex : Int) : Bool :=
  decide (QuadIndex ≠ 0) && bInCapEnds

/-- All vertices one iteration of the loop stores, in slot order. -/
def segmentVertices (E : Engine α) (InWidth AngleBetweenQuads VMapPerQuad : α)
    (Offset : FVector α) (bInCapEnds bInDoubleSided bInSmoothNormals : Bool) (QuadIndex : Int) :
    List (FRuntimeMeshVertexSimple α) :=
  let Angle : α := (QuadIndex : α) * AngleBetweenQuads
  let NextAngle : α := ((QuadIndex + 1 : Int) : α) * AngleBetweenQuads
  let p0 := circlePoint E InWidth Angle
  let p1 := circlePoint E InWidth NextAngle
  let p2 := p1 + Offset
  let p3 := p0 + Offset
  sideQuadVertices E InWidth AngleBetweenQuads VMapPerQuad bInSmoothNormals QuadIndex p0 p1 p2 p3
  ++ (if bInDoubleSided then doubleSidedVertices E VMapPerQuad QuadIndex p0 p1 p2 p3 else [])
  ++ (if emitsCaps bInCapEnds QuadIndex then
        bottomCapVertices E Angle NextAngle p0 p1
          (circlePoint E InWidth 0) (circlePoint E InWidth Angle) (circlePoint E InWidth NextAngle)
        ++ topCapVertices E Angle NextAngle p0 p1
          (circlePoint E InWidth 0 + Offset) (circlePoint E InWidth Angle + Offset)
          (circlePoint E InWidth NextAngle + Offset)
      else [])

/-- All indices one iteration of the loop stores when its first vertex slot is `v`. -/
def segmentIndices (bInCapEnds bInDoubleSided : Bool) (QuadIndex : Int) (v : Nat) : List Int :=
  sideQuadIndices v
  ++ (if bInDoubleSided then doubleSidedIndices (v + 4) else [])
  ++ (if emitsCaps bInCapEnds QuadIndex then
        bottomCapIndices (v + 4 + (if bInDoubleSided then 4 else 0))
        ++ topCapIndices (v + 4 + (if bInDoubleSided then 4 else 0) + 3)
      else [])

/-- The number of vertices one iteration stores. -/
def segmentVertexCount (bInCapEnds bInDoubleSided : Bool) (QuadIndex : Int) : Nat :=
  4 + (if bInDoubleSided then 4 else 0) + (if emitsCaps bInCapEnds QuadIndex then 6 else 0)

/-- The number of indices one iteration stores. -/
def segmentIndexCount (bInCapEnds bInDoubleSided : Bool) (QuadIndex : Int) : Nat :=
  6 + (if bInDoubleSided then 6 else 0) + (if emitsCaps bInCapEnds QuadIndex then 6 else 0)

/-- The value of the cursor `VertexIndex` when iteration `n` starts: the first vertex slot of the
primary side quad of segment `n`. -/
def vertexCursor (bInCapEnds bInDoubleSided : Bool) : Nat → Nat
  | 0 => 0
  | n + 1 => vertexCursor bInCapEnds bInDoubleSided n
      + segmentVertexCount bInCapEnds bInDoubleSided (n : Int)

/-- The value of the cursor `TriangleIndex` when iteration `n` starts. -/
def triangleCursor (bInCapEnds bInDoubleSided : Bool) : Nat → Nat
  | 0 => 0
  | n + 1 => triangleCursor bInCapEnds bInDoubleSided n
      + segmentIndexCount bInCapEnds bInDoubleSided (n : Int)

/-- The value of the ghost counter when iteration `n` starts. -/
def capTriangleCursor (bInCapEnds : Bool) : Nat → Nat
  | 0 => 0
  | n + 1 => capTriangleCursor bInCapEnds n + (if emitsCaps bInCapEnds (n : Int) then 2 else 0)

/-- The vertices the first `n` iterations store, in slot order. -/
def emittedVertices (E : Engine α) (InWidth AngleBetweenQuads VMapPerQuad : α)
    (Offset : FVector α) (bInCapEnds bInDoubleSided bInSmoothNormals : Bool) :
    Nat → List (FRuntimeMeshVertexSimple α)
  | 0 => []
  | n + 1 =>
      emittedVertices E InWidth AngleBetweenQuads VMapPerQuad Offset
        bInCapEnds bInDoubleSided bInSmoothNormals n
      ++ segmentVertices E InWidth AngleBetweenQuads VMapPerQuad Offset
        bInCapEnds bInDoubleSided bInSmoothNormals (n : Int)

/-- The indices the first `n` iterations store, in slot order. -/
def emittedIndices (bInCapEnds bInDoubleSided : Bool) : Nat → List Int
  | 0 => []
  | n + 1 =>
      emittedIndices bInCapEnds bInDoubleSided n
      ++ segmentIndices bInCapEnds bInDoubleSided (n : Int)
        (vertexCursor bInCapEnds bInDoubleSided n)

/-- The vertices a whole run of `GenerateCylinder` stores. -/
def cylinderVertices (E : Engine α) (InHeight InWidth : α) (InCrossSectionCount : Int)
    (bInCapEnds bInDoubleSided bInSmoothNormals : Bool) : List (FRuntimeMeshVertexSimple α) :=
  emittedVertices E InWidth ((2 / (InCrossSectionCount : α)) * E.PI)
    (1 / (InCrossSectionCount : α)) ⟨0, 0, InHeight⟩
    bInCapEnds bInDoubleSided bInSmoothNormals InCrossSectionCount.toNat

/-- The indices a whole run of `GenerateCylinder` stores. -/
def cylinderIndices (InCrossSectionCount : Int) (bInCapEnds bInDoubleSided : Bool) : List Int :=
  emittedIndices bInCapEnds bInDoubleSided InCrossSectionCount.toNat

end Emitted

section ProofDevices

variable {α : Type}

/-- The statement `A`, run inside the larger buffers, does what `L` does on the buffers of
the framed run. -/
def Framed (pre : List (FRuntimeMeshVertexSimple α)) (Tpre : List Int) (c : Nat)
    (A L : CylinderRun α → Option (CylinderRun α)) : Prop :=
  ∀ s, A (CylinderRun.frame pre Tpre c s) = (L s).map (CylinderRun.frame pre Tpre c)

end ProofDevices

section Closed

/-- The actor after `GenerateMesh` has generated on buffers that are long enough: the closed
form of the buffers and of the sink. -/
def ASimpleCylinderActor.generated {α : Type} [LinearOrderedField α] (E : Engine α)
    (A : ASimpleCylinderActor α) : ASimpleCylinderActor α :=
  { A with
    Vertices := cylinderVertices E A.Height A.Radius A.RadialSegmentCount A.bCapEnds
        A.bDoubleSided A.bSmoothNormals
      ++ A.Vertices.drop (vertexCursor A.bCapEnds A.bDoubleSided A.RadialSegmentCount.toNat),
    Triangles := cylinderIndices A.RadialSegmentCount A.bCapEnds A.bDoubleSided
      ++ A.Triangles.drop (triangleCursor A.bCapEnds A.bDoubleSided A.RadialSegmentCount.toNat),
    MeshComponent := ⟨[(0, ⟨cylinderVertices E A.Height A.Radius A.RadialSegmentCount
          A.bCapEnds A.bDoubleSided A.bSmoothNormals
        ++ A.Vertices.drop (vertexCursor A.bCapEnds A.bDoubleSided A.RadialSegmentCount.toNat),
        cylinderIndices A.RadialSegmentCount A.bCapEnds A.bDoubleSided
        ++ A.Triangles.drop
          (triangleCursor A.bCapEnds A.bDoubleSided A.RadialSegmentCount.toNat),
        BoundingBox A.Radius A.Height, false⟩)],
      (0, A.Material) :: A.MeshComponent.Materials.filter (fun p => p.1 ≠ 0)⟩ }

/-- The actor after `SetupMeshBuffers` has appended its slots and `GenerateMesh` has set the
flag. -/
def ASimpleCylinderActor.allocated {α : Type} (U : Uninit α) (A : ASimpleCylinderActor α) :
    ASimpleCylinderActor α :=
  { A with
    Vertices := A.Vertices ++ (List.range
      (vertexCursor A.bCapEnds A.bDoubleSided A.RadialSegmentCount.toNat)).map
        (fun k => U.vertex (A.Vertices.length + k)),
    Triangles := A.Triangles ++ (List.range
      (triangleCursor A.bCapEnds A.bDoubleSided A.RadialSegmentCount.toNat)).map
        (fun k => U.index (A.Triangles.length + k)),
    bHaveBuffersBeenInitialized := true }

/-- `FBox::IsInsideOrOn`: the point lies in the box, its faces included. -/
def FBox.IsInsideOrOn {α : Type} [LinearOrderedField α] (Box : FBox α) (In : FVector α) : Prop :=
  Box.Min.X ≤ In.X ∧ In.X ≤ Box.Max.X ∧ Box.Min.Y ≤ In.Y ∧ In.Y ≤ Box.Max.Y ∧
    Box.Min.Z ≤ In.Z ∧ In.Z ≤ Box.Max.Z

instance {α : Type} [LinearOrderedField α] (Box : FBox α) (In : FVector α) :
    Decidable (Box.IsInsideOrOn In) := by
  unfold FBox.IsInsideOrOn
  infer_instance

end Closed

section Measures

variable {α : Type}

/-- The vertex an entry of the index buffer refers to; `none` when the entry is no index into
the vertex buffer. -/
def vertexOfIndex (Vertices : List (FRuntimeMeshVertexSimple α)) (Index : Int) :
    Option (FRuntimeMeshVertexSimple α) :=
  if 0 ≤ Index then Vertices[Index.toNat]? else none

/-- Whether the triangle with the corner indices `a`, `b`, `c` is level: its three corners
exist and lie at one height `Z`. On a cylinder of non-zero height these are the triangles that
close an end; the two triangles of a side quad have corners on both rims. -/
def isLevelTriangle [DecidableEq α] (Vertices : List (FRuntimeMeshVertexSimple α))
    (a b c : Int) : Bool :=
  match vertexOfIndex Vertices a, vertexOfIndex Vertices b, vertexOfIndex Vertices c with
  | some x, some y, some z =>
      decide (x.Position.Z = y.Position.Z) && decide (y.Position.Z = z.Position.Z)
  | _, _, _ => false

/-- The number of level triangles among the index triples of a list, read three entries at a
time. -/
def countLevelTriangles [DecidableEq α] (Vertices : List (FRuntimeMeshVertexSimple α)) :
    List Int → Nat
  | a :: b :: c :: rest =>
      (if isLevelTriangle Vertices a b c then 1 else 0) + countLevelTriangles Vertices rest
  | _ => 0

/-- The number of cap triangles in the output of a run, read from its buffers: the level
triangles among the index triples written below the final `TriangleIndex`. -/
def CylinderRun.capTriangleCount [DecidableEq α] (r : CylinderRun α) : Nat :=
  countLevelTriangles r.Vertices (r.Triangles.take r.TriangleIndex)

end Measures

section Samples

/-- A stand-in engine over `ℚ` on which the definitions evaluate: a second-order cosine, a
first-order sine, `PI` cut to `3`, and no rescaling in `GetSafeNormal` and `FPackedNormal`. -/
def sampleEngine : Engine ℚ :=
  ⟨fun x => 1 - x * x / 2, fun x => x, 3, fun v => v, fun v => v⟩

/-- One possible content of uninitialised slots. -/
def sampleUninit : Uninit ℚ :=
  ⟨fun _ => ⟨⟨9, 9, 9⟩, ⟨9, 9⟩, ⟨9, 9, 9⟩, ⟨9, 9, 9⟩⟩, fun k => -1 - (k : Int)⟩

/-- Another possible content of uninitialised slots. -/
def otherUninit : Uninit ℚ :=
  ⟨fun k => ⟨⟨k, 0, 0⟩, ⟨0, k⟩, ⟨0, 0, 0⟩, ⟨1, 1, 1⟩⟩, fun k => 1000 + (k : Int)⟩

end Samples

/-! ## The run in closed form

Every block of the loop body is run on its own window of the buffers; the windows are glued
back by `CylinderRun.frame`. -/

section Buffers

variable {β : Type}

theorem writeAt_append_add (pre l : List β) (k : Nat) (f : β → β) :
    writeAt (pre ++ l) (pre.length + k) f = (writeAt l k f).map (fun x => pre ++ x) := by
  induction pre with
  | nil => simp
  | cons a pre ih =>
    have h : (a :: pre).length + k = (pre.length + k) + 1 := by simp; omega
    rw [h, List.cons_append, writeAt, ih]
    cases writeAt l k f <;> simp

theorem readAt_append_add (pre l : List β) (k : Nat) :
    readAt (pre ++ l) (pre.length + k) = readAt l k := by
  simp [readAt, List.getElem?_append_right]

theorem writeAt_length {l l2 : List β} {k : Nat} {f : β → β} (h : writeAt l k f = some l2) :
    l2.length = l.length := by
  induction l generalizing k l2 with
  | nil => simp [writeAt] at h
  | cons a l ih =>
    cases k with
    | zero => simp [writeAt] at h; subst h; simp
    | succ k =>
      simp only [writeAt, Option.map_eq_some'] at h
      obtain ⟨x, hx, rfl⟩ := h
      simp [ih hx]

end Buffers

section Frame

variable {α : Type}

theorem obind_map {β γ δ : Type} (f : β → γ) (x : Option β) (g : γ → Option δ) :
    (Option.map f x).bind g = x.bind (fun a => g (f a)) := by
  cases x <;> rfl

namespace CylinderRun

variable (pre : List (FRuntimeMeshVertexSimple α)) (Tpre : List Int) (c : Nat)

theorem frame_nextVertex (s : CylinderRun α) :
    (frame pre Tpre c s).nextVertex
      = (pre.length + s.nextVertex.1, frame pre Tpre c s.nextVertex.2) := rfl

theorem frame_setPosition (s : CylinderRun α) (i : Nat) (p : FVector α) :
    (frame pre Tpre c s).setPosition (pre.length + i) p
      = (s.setPosition i p).map (frame pre Tpre c) := by
  simp only [setPosition, frame, writeAt_append_add]
  cases writeAt s.Vertices i _ <;> rfl

theorem frame_setUV0 (s : CylinderRun α) (i : Nat) (p : FVector2D α) :
    (frame pre Tpre c s).setUV0 (pre.length + i) p
      = (s.setUV0 i p).map (frame pre Tpre c) := by
  simp only [setUV0, frame, writeAt_append_add]
  cases writeAt s.Vertices i _ <;> rfl

theorem frame_setNormal (s : CylinderRun α) (i : Nat) (p : FVector α) :
    (frame pre Tpre c s).setNormal (pre.length + i) p
      = (s.setNormal i p).map (frame pre Tpre c) := by
  simp only [setNormal, frame, writeAt_append_add]
  cases writeAt s.Vertices i _ <;> rfl

theorem frame_setTangent (s : CylinderRun α) (i : Nat) (p : FVector α) :
    (frame pre Tpre c s).setTangent (pre.length + i) p
      = (s.setTangent i p).map (frame pre Tpre c) := by
  simp only [setTangent, frame, writeAt_append_add]
  cases writeAt s.Vertices i _ <;> rfl

theorem frame_position (s : CylinderRun α) (i : Nat) :
    (frame pre Tpre c s).position (pre.length + i) = s.position i := by
  simp only [position, frame, readAt_append_add]

theorem frame_pushTriangle (s : CylinderRun α) (v : Nat) :
    (frame pre Tpre c s).pushTriangle v = (s.pushTriangle v).map (frame pre Tpre c) := by
  simp only [pushTriangle, frame, writeAt_append_add]
  cases writeAt s.Triangles s.TriangleIndex _ <;> rfl

theorem frame_countCapTriangle (s : CylinderRun α) :
    (frame pre Tpre c s).countCapTriangle = (s.countCapTriangle).map (frame pre Tpre c) := rfl

theorem run_nil (s : CylinderRun α) : run [] s = some s := rfl

theorem run_cons (st : CylinderRun α → Option (CylinderRun α))
    (sts : List (CylinderRun α → Option (CylinderRun α))) (s : CylinderRun α) :
    run (st :: sts) s = (st s).bind (run sts) := rfl

end CylinderRun

end Frame

section FramedStatements

variable {α : Type} {γ : Type}

theorem bind_eq_of_eq_some {β : Type} {x : Option β} {a : β} {f : β → Option γ} {r : Option γ}
    (h1 : x = some a) (h2 : f a = r) : x >>= f = r := by
  subst h1; exact h2

variable (pre : List (FRuntimeMeshVertexSimple α)) (Tpre : List Int) (c : Nat)

open CylinderRun

theorem framed_setPosition (i : Nat) (p : FVector α) :
    Framed pre Tpre c (fun s => s.setPosition (pre.length + i) p) (fun s => s.setPosition i p) :=
  fun s => frame_setPosition pre Tpre c s i p

theorem framed_setUV0 (i : Nat) (p : FVector2D α) :
    Framed pre Tpre c (fun s => s.setUV0 (pre.length + i) p) (fun s => s.setUV0 i p) :=
  fun s => frame_setUV0 pre Tpre c s i p

theorem framed_setNormal (i : Nat) (p : FVector α) :
    Framed pre Tpre c (fun s => s.setNormal (pre.length + i) p) (fun s => s.setNormal i p) :=
  fun s => frame_setNormal pre Tpre c s i p

theorem framed_setTangent (i : Nat) (p : FVector α) :
    Framed pre Tpre c (fun s => s.setTangent (pre.length + i) p) (fun s => s.setTangent i p) :=
  fun s => frame_setTangent pre Tpre c s i p

theorem framed_pushTriangle (v : Nat) :
    Framed pre Tpre c (fun s => s.pushTriangle v) (fun s => s.pushTriangle v) :=
  fun s => frame_pushTriangle pre Tpre c s v

theorem framed_countCapTriangle :
    Framed pre Tpre c (fun s => s.countCapTriangle) (fun s => s.countCapTriangle) :=
  fun s => frame_countCapTriangle pre Tpre c s

theorem run_frame_eq {abs loc : List (CylinderRun α → Option (CylinderRun α))}
    (h : List.Forall₂ (Framed pre Tpre c) abs loc) (s : CylinderRun α) :
    run abs (frame pre Tpre c s) = (run loc s).map (frame pre Tpre c) := by
  induction h generalizing s with
  | nil => rfl
  | @cons A L _ _ hA _ ih =>
    rw [run_cons, run_cons, hA s]
    cases L s with
    | none => rfl
    | some s1 => exact ih s1

theorem run_frame_some (abs loc : List (CylinderRun α → Option (CylinderRun α)))
    (s s1 : CylinderRun α) (h : List.Forall₂ (Framed pre Tpre c) abs loc)
    (h1 : run loc s = some s1) :
    run abs (frame pre Tpre c s) = some (frame pre Tpre c s1) := by
  rw [run_frame_eq pre Tpre c h, h1]; rfl

theorem position_frame_some {s : CylinderRun α} {i : Nat} {q : FVector α}
    (h : s.position i = some q) : (frame pre Tpre c s).position (pre.length + i) = some q := by
  rw [frame_position, h]

end FramedStatements

theorem length_eq_three_cases {β : Type} (l : List β) (h : l.length = 3) :
    ∃ a b c, l = [a, b, c] := by
  rcases l with _ | ⟨a, _ | ⟨b, _ | ⟨c, _ | ⟨d, l⟩⟩⟩⟩ <;> simp at h
  exact ⟨a, b, c, rfl⟩

theorem length_eq_four_cases {β : Type} (l : List β) (h : l.length = 4) :
    ∃ a b c d, l = [a, b, c, d] := by
  rcases l with _ | ⟨a, l⟩
  · simp at h
  · obtain ⟨b, c, d, rfl⟩ := length_eq_three_cases l (by simpa using h)
    exact ⟨a, b, c, d, rfl⟩

theorem length_eq_six_cases {β : Type} (l : List β) (h : l.length = 6) :
    ∃ a b c d e f, l = [a, b, c, d, e, f] := by
  rcases l with _ | ⟨a, _ | ⟨b, _ | ⟨c, l⟩⟩⟩ <;> simp at h
  obtain ⟨d, e, f, rfl⟩ := length_eq_three_cases l (by omega)
  exact ⟨a, b, c, d, e, f, rfl⟩

section Blocks

variable {α : Type} [Field α]

open CylinderRun

theorem sideQuad_frame (E : Engine α) (InWidth AngleBetweenQuads VMapPerQuad : α)
    (bInSmoothNormals : Bool) (QuadIndex : Int) (p0 p1 p2 p3 : FVector α)
    (pre post : List (FRuntimeMeshVertexSimple α)) (Tpre Tpost : List Int) (cnt : Nat)
    (a b c d : FRuntimeMeshVertexSimple α) (t1 t2 t3 t4 t5 t6 : Int) :
    sideQuad E InWidth AngleBetweenQuads VMapPerQuad bInSmoothNormals QuadIndex p0 p1 p2 p3
        (frame pre Tpre cnt ⟨a :: b :: c :: d :: post, t1 :: t2 :: t3 :: t4 :: t5 :: t6 :: Tpost, 0, 0, 0⟩)
      = some (frame pre Tpre cnt ⟨sideQuadVertices E InWidth AngleBetweenQuads VMapPerQuad
                  bInSmoothNormals QuadIndex p0 p1 p2 p3 ++ post,
                sideQuadIndices pre.length ++ Tpost, 4, 6, 0⟩,
              NormalCurrent E p0 p1 p2) := by
  unfold sideQuad
  dsimp only [frame_nextVertex]
  refine bind_eq_of_eq_some (run_frame_some pre Tpre cnt _ _ _ _ (by
      repeat' (first
        | exact framed_setPosition pre Tpre cnt _ _ | exact framed_setUV0 pre Tpre cnt _ _
        | exact framed_setNormal pre Tpre cnt _ _ | exact framed_setTangent pre Tpre cnt _ _
        | exact framed_pushTriangle pre Tpre cnt _ | exact framed_countCapTriangle pre Tpre cnt
        | exact List.Forall₂.nil | apply List.Forall₂.cons)) (by rfl)) ?_
  refine bind_eq_of_eq_some (position_frame_some pre Tpre cnt (by rfl)) ?_
  refine bind_eq_of_eq_some (position_frame_some pre Tpre cnt (by rfl)) ?_
  refine bind_eq_of_eq_some (position_frame_some pre Tpre cnt (by rfl)) ?_
  refine bind_eq_of_eq_some (position_frame_some pre Tpre cnt (by rfl)) ?_
  cases bInSmoothNormals
  · refine (if_neg Bool.false_ne_true).trans ?_
    refine bind_eq_of_eq_some (run_frame_some pre Tpre cnt _ _ _ _ (by
      repeat' (first
        | exact framed_setPosition pre Tpre cnt _ _ | exact framed_setUV0 pre Tpre cnt _ _
        | exact framed_setNormal pre Tpre cnt _ _ | exact framed_setTangent pre Tpre cnt _ _
        | exact framed_pushTriangle pre Tpre cnt _ | exact framed_countCapTriangle pre Tpre cnt
        | exact List.Forall₂.nil | apply List.Forall₂.cons)) (by rfl)) ?_
    refine bind_eq_of_eq_some (run_frame_some pre Tpre cnt _ _ _ _ (by
      repeat' (first
        | exact framed_setPosition pre Tpre cnt _ _ | exact framed_setUV0 pre Tpre cnt _ _
        | exact framed_setNormal pre Tpre cnt _ _ | exact framed_setTangent pre Tpre cnt _ _
        | exact framed_pushTriangle pre Tpre cnt _ | exact framed_countCapTriangle pre Tpre cnt
        | exact List.Forall₂.nil | apply List.Forall₂.cons)) (by rfl)) ?_
    rfl
  · refine (if_pos rfl).trans ?_
    refine bind_eq_of_eq_some (run_frame_some pre Tpre cnt _ _ _ _ (by
      repeat' (first
        | exact framed_setPosition pre Tpre cnt _ _ | exact framed_setUV0 pre Tpre cnt _ _
        | exact framed_setNormal pre Tpre cnt _ _ | exact framed_setTangent pre Tpre cnt _ _
        | exact framed_pushTriangle pre Tpre cnt _ | exact framed_countCapTriangle pre Tpre cnt
        | exact List.Forall₂.nil | apply List.Forall₂.cons)) (by rfl)) ?_
    refine bind_eq_of_eq_some (run_frame_some pre Tpre cnt _ _ _ _ (by
      repeat' (first
        | exact framed_setPosition pre Tpre cnt _ _ | exact framed_setUV0 pre Tpre cnt _ _
        | exact framed_setNormal pre Tpre cnt _ _ | exact framed_setTangent pre Tpre cnt _ _
        | exact framed_pushTriangle pre Tpre cnt _ | exact framed_countCapTriangle pre Tpre cnt
        | exact List.Forall₂.nil | apply List.Forall₂.cons)) (by rfl)) ?_
    rfl

theorem doubleSidedQuad_frame (E : Engine α) (VMapPerQuad : α) (QuadIndex : Int)
    (p0 p1 p2 p3 : FVector α)
    (pre post : List (FRuntimeMeshVertexSimple α)) (Tpre Tpost : List Int) (cnt : Nat)
    (a b c d : FRuntimeMeshVertexSimple α) (t1 t2 t3 t4 t5 t6 : Int) :
    doubleSidedQuad E VMapPerQuad QuadIndex p0 p1 p2 p3 (NormalCurrent E p0 p1 p2)
        (frame pre Tpre cnt ⟨a :: b :: c :: d :: post, t1 :: t2 :: t3 :: t4 :: t5 :: t6 :: Tpost, 0, 0, 0⟩)
      = some (frame pre Tpre cnt ⟨doubleSidedVertices E VMapPerQuad QuadIndex p0 p1 p2 p3 ++ post,
                doubleSidedIndices pre.length ++ Tpost, 4, 6, 0⟩) := by
  unfold doubleSidedQuad
  dsimp only [frame_nextVertex]
  exact run_frame_some pre Tpre cnt _ _ _ _ (by
      repeat' (first
        | exact framed_setPosition pre Tpre cnt _ _ | exact framed_setUV0 pre Tpre cnt _ _
        | exact framed_setNormal pre Tpre cnt _ _ | exact framed_setTangent pre Tpre cnt _ _
        | exact framed_pushTriangle pre Tpre cnt _ | exact framed_countCapTriangle pre Tpre cnt
        | exact List.Forall₂.nil | apply List.Forall₂.cons)) (by rfl)

theorem bottomCap_frame (E : Engine α) (Angle NextAngle : α)
    (p0 p1 capVertex0 capVertex1 capVertex2 : FVector α)
    (pre post : List (FRuntimeMeshVertexSimple α)) (Tpre Tpost : List Int) (cnt : Nat)
    (a b c : FRuntimeMeshVertexSimple α) (t1 t2 t3 : Int) :
    bottomCap E Angle NextAngle p0 p1 capVertex0 capVertex1 capVertex2
        (frame pre Tpre cnt ⟨a :: b :: c :: post, t1 :: t2 :: t3 :: Tpost, 0, 0, 0⟩)
      = some (frame pre Tpre cnt
          ⟨bottomCapVertices E Angle NextAngle p0 p1 capVertex0 capVertex1 capVertex2 ++ post,
            bottomCapIndices pre.length ++ Tpost, 3, 3, 1⟩) := by
  unfold bottomCap
  dsimp only [frame_nextVertex]
  refine bind_eq_of_eq_some (run_frame_some pre Tpre cnt _ _ _ _ (by
      repeat' (first
        | exact framed_setPosition pre Tpre cnt _ _ | exact framed_setUV0 pre Tpre cnt _ _
        | exact framed_setNormal pre Tpre cnt _ _ | exact framed_setTangent pre Tpre cnt _ _
        | exact framed_pushTriangle pre Tpre cnt _ | exact framed_countCapTriangle pre Tpre cnt
        | exact List.Forall₂.nil | apply List.Forall₂.cons)) (by rfl)) ?_
  refine bind_eq_of_eq_some (position_frame_some pre Tpre cnt (by rfl)) ?_
  refine bind_eq_of_eq_some (position_frame_some pre Tpre cnt (by rfl)) ?_
  refine bind_eq_of_eq_some (position_frame_some pre Tpre cnt (by rfl)) ?_
  refine bind_eq_of_eq_some (position_frame_some pre Tpre cnt (by rfl)) ?_
  exact run_frame_some pre Tpre cnt _ _ _ _ (by
      repeat' (first
        | exact framed_setPosition pre Tpre cnt _ _ | exact framed_setUV0 pre Tpre cnt _ _
        | exact framed_setNormal pre Tpre cnt _ _ | exact framed_setTangent pre Tpre cnt _ _
        | exact framed_pushTriangle pre Tpre cnt _ | exact framed_countCapTriangle pre Tpre cnt
        | exact List.Forall₂.nil | apply List.Forall₂.cons)) (by rfl)

theorem topCap_frame (E : Engine α) (Angle NextAngle : α)
    (p0 p1 capVertex0 capVertex1 capVertex2 : FVector α)
    (pre post : List (FRuntimeMeshVertexSimple α)) (Tpre Tpost : List Int) (cnt : Nat)
    (a b c : FRuntimeMeshVertexSimple α) (t1 t2 t3 : Int) :
    topCap E Angle NextAngle p0 p1 capVertex0 capVertex1 capVertex2
        (frame pre Tpre cnt ⟨a :: b :: c :: post, t1 :: t2 :: t3 :: Tpost, 0, 0, 0⟩)
      = some (frame pre Tpre cnt
          ⟨topCapVertices E Angle NextAngle p0 p1 capVertex0 capVertex1 capVertex2 ++ post,
            topCapIndices pre.length ++ Tpost, 3, 3, 1⟩) := by
  unfold topCap
  dsimp only [frame_nextVertex]
  refine bind_eq_of_eq_some (run_frame_some pre Tpre cnt _ _ _ _ (by
      repeat' (first
        | exact framed_setPosition pre Tpre cnt _ _ | exact framed_setUV0 pre Tpre cnt _ _
        | exact framed_setNormal pre Tpre cnt _ _ | exact framed_setTangent pre Tpre cnt _ _
        | exact framed_pushTriangle pre Tpre cnt _ | exact framed_countCapTriangle pre Tpre cnt
        | exact List.Forall₂.nil | apply List.Forall₂.cons)) (by rfl)) ?_
  refine bind_eq_of_eq_some (position_frame_some pre Tpre cnt (by rfl)) ?_
  refine bind_eq_of_eq_some (position_frame_some pre Tpre cnt (by rfl)) ?_
  refine bind_eq_of_eq_some (position_frame_some pre Tpre cnt (by rfl)) ?_
  refine bind_eq_of_eq_some (position_frame_some pre Tpre cnt (by rfl)) ?_
  exact run_frame_some pre Tpre cnt _ _ _ _ (by
      repeat' (first
        | exact framed_setPosition pre Tpre cnt _ _ | exact framed_setUV0 pre Tpre cnt _ _
        | exact framed_setNormal pre Tpre cnt _ _ | exact framed_setTangent pre Tpre cnt _ _
        | exact framed_pushTriangle pre Tpre cnt _ | exact framed_countCapTriangle pre Tpre cnt
        | exact List.Forall₂.nil | apply List.Forall₂.cons)) (by rfl)

/-- A run whose buffers split around the windows `w` and `tw`, with the cursors at the
windows, is the framed run on the windows. -/
theorem eq_frame_of_windows (s : CylinderRun α)
    (pre rest : List (FRuntimeMeshVertexSimple α)) (Tpre Trest : List Int)
    (hV : s.Vertices = pre ++ rest) (hT : s.Triangles = Tpre ++ Trest)
    (hvi : s.VertexIndex = pre.length) (hti : s.TriangleIndex = Tpre.length) :
    s = CylinderRun.frame pre Tpre s.CapTriangles ⟨rest, Trest, 0, 0, 0⟩ := by
  cases s
  simp only [CylinderRun.frame] at *
  simp [hV, hT, hvi, hti]

theorem sideQuad_eq (E : Engine α) (InWidth AngleBetweenQuads VMapPerQuad : α)
    (bInSmoothNormals : Bool) (QuadIndex : Int) (p0 p1 p2 p3 : FVector α)
    (s : CylinderRun α)
    (pre w post : List (FRuntimeMeshVertexSimple α)) (Tpre tw Tpost : List Int)
    (hV : s.Vertices = pre ++ (w ++ post)) (hT : s.Triangles = Tpre ++ (tw ++ Tpost))
    (hvi : s.VertexIndex = pre.length) (hti : s.TriangleIndex = Tpre.length)
    (hw : w.length = 4) (htw : tw.length = 6) :
    sideQuad E InWidth AngleBetweenQuads VMapPerQuad bInSmoothNormals QuadIndex p0 p1 p2 p3 s
      = some (⟨pre ++ (sideQuadVertices E InWidth AngleBetweenQuads VMapPerQuad
                  bInSmoothNormals QuadIndex p0 p1 p2 p3 ++ post),
                Tpre ++ (sideQuadIndices pre.length ++ Tpost),
                pre.length + 4, Tpre.length + 6, s.CapTriangles⟩,
              NormalCurrent E p0 p1 p2) := by
  obtain ⟨a, b, c, d, rfl⟩ := length_eq_four_cases w hw
  obtain ⟨t1, t2, t3, t4, t5, t6, rfl⟩ := length_eq_six_cases tw htw
  rw [eq_frame_of_windows s pre _ Tpre _ hV hT hvi hti]
  exact sideQuad_frame E InWidth AngleBetweenQuads VMapPerQuad bInSmoothNormals QuadIndex
    p0 p1 p2 p3 pre post Tpre Tpost _ a b c d t1 t2 t3 t4 t5 t6

theorem doubleSidedQuad_eq (E : Engine α) (VMapPerQuad : α) (QuadIndex : Int)
    (p0 p1 p2 p3 : FVector α) (s : CylinderRun α)
    (pre w post : List (FRuntimeMeshVertexSimple α)) (Tpre tw Tpost : List Int)
    (hV : s.Vertices = pre ++ (w ++ post)) (hT : s.Triangles = Tpre ++ (tw ++ Tpost))
    (hvi : s.VertexIndex = pre.length) (hti : s.TriangleIndex = Tpre.length)
    (hw : w.length = 4) (htw : tw.length = 6) :
    doubleSidedQuad E VMapPerQuad QuadIndex p0 p1 p2 p3 (NormalCurrent E p0 p1 p2) s
      = some ⟨pre ++ (doubleSidedVertices E VMapPerQuad QuadIndex p0 p1 p2 p3 ++ post),
                Tpre ++ (doubleSidedIndices pre.length ++ Tpost),
                pre.length + 4, Tpre.length + 6, s.CapTriangles⟩ := by
  obtain ⟨a, b, c, d, rfl⟩ := length_eq_four_cases w hw
  obtain ⟨t1, t2, t3, t4, t5, t6, rfl⟩ := length_eq_six_cases tw htw
  rw [eq_frame_of_windows s pre _ Tpre _ hV hT hvi hti]
  exact doubleSidedQuad_frame E VMapPerQuad QuadIndex
    p0 p1 p2 p3 pre post Tpre Tpost _ a b c d t1 t2 t3 t4 t5 t6

theorem bottomCap_eq (E : Engine α) (Angle NextAngle : α)
    (p0 p1 capVertex0 capVertex1 capVertex2 : FVector α) (s : CylinderRun α)
    (pre w post : List (FRuntimeMeshVertexSimple α)) (Tpre tw Tpost : List Int)
    (hV : s.Vertices = pre ++ (w ++ post)) (hT : s.Triangles = Tpre ++ (tw ++ Tpost))
    (hvi : s.VertexIndex = pre.length) (hti : s.TriangleIndex = Tpre.length)
    (hw : w.length = 3) (htw : tw.length = 3) :
    bottomCap E Angle NextAngle p0 p1 capVertex0 capVertex1 capVertex2 s
      = some ⟨pre ++ (bottomCapVertices E Angle NextAngle p0 p1 capVertex0 capVertex1 capVertex2
                  ++ post),
                Tpre ++ (bottomCapIndices pre.length ++ Tpost),
                pre.length + 3, Tpre.length + 3, s.CapTriangles + 1⟩ := by
  obtain ⟨a, b, c, rfl⟩ := length_eq_three_cases w hw
  obtain ⟨t1, t2, t3, rfl⟩ := length_eq_three_cases tw htw
  rw [eq_frame_of_windows s pre _ Tpre _ hV hT hvi hti]
  exact bottomCap_frame E Angle NextAngle p0 p1 capVertex0 capVertex1 capVertex2
    pre post Tpre Tpost _ a b c t1 t2 t3

theorem topCap_eq (E : Engine α) (Angle NextAngle : α)
    (p0 p1 capVertex0 capVertex1 capVertex2 : FVector α) (s : CylinderRun α)
    (pre w post : List (FRuntimeMeshVertexSimple α)) (Tpre tw Tpost : List Int)
    (hV : s.Vertices = pre ++ (w ++ post)) (hT : s.Triangles = Tpre ++ (tw ++ Tpost))
    (hvi : s.VertexIndex = pre.length) (hti : s.TriangleIndex = Tpre.length)
    (hw : w.length = 3) (htw : tw.length = 3) :
    topCap E Angle NextAngle p0 p1 capVertex0 capVertex1 capVertex2 s
      = some ⟨pre ++ (topCapVertices E Angle NextAngle p0 p1 capVertex0 capVertex1 capVertex2
                  ++ post),
                Tpre ++ (topCapIndices pre.length ++ Tpost),
                pre.length + 3, Tpre.length + 3, s.CapTriangles + 1⟩ := by
  obtain ⟨a, b, c, rfl⟩ := length_eq_three_cases w hw
  obtain ⟨t1, t2, t3, rfl⟩ := length_eq_three_cases tw htw
  rw [eq_frame_of_windows s pre _ Tpre _ hV hT hvi hti]
  exact topCap_frame E Angle NextAngle p0 p1 capVertex0 capVertex1 capVertex2
    pre post Tpre Tpost _ a b c t1 t2 t3

theorem exists_append_of_length {β : Type} (l : List β) (n m : Nat) (h : l.length = n + m) :
    ∃ l1 l2, l = l1 ++ l2 ∧ l1.length = n ∧ l2.length = m :=
  ⟨l.take n, l.drop n, (List.take_append_drop n l).symm, by simp [h], by simp [h]⟩

theorem emitsCaps_iff (bInCapEnds : Bool) (QuadIndex : Int) :
    emitsCaps bInCapEnds QuadIndex = true ↔ (QuadIndex ≠ 0 ∧ bInCapEnds = true) := by
  simp [emitsCaps]

/-- The double-sided step of the loop body, with an empty window when the flag is off. -/
theorem doubleSidedStep_eq (E : Engine α) (VMapPerQuad : α) (QuadIndex : Int)
    (bInDoubleSided : Bool) (p0 p1 p2 p3 : FVector α) (s : CylinderRun α)
    (pre w post : List (FRuntimeMeshVertexSimple α)) (Tpre tw Tpost : List Int)
    (hV : s.Vertices = pre ++ (w ++ post)) (hT : s.Triangles = Tpre ++ (tw ++ Tpost))
    (hvi : s.VertexIndex = pre.length) (hti : s.TriangleIndex = Tpre.length)
    (hw : w.length = if bInDoubleSided then 4 else 0)
    (htw : tw.length = if bInDoubleSided then 6 else 0) :
    (if bInDoubleSided = true then
        doubleSidedQuad E VMapPerQuad QuadIndex p0 p1 p2 p3 (NormalCurrent E p0 p1 p2) s
      else pure s)
      = some ⟨pre ++ ((if bInDoubleSided then
                    doubleSidedVertices E VMapPerQuad QuadIndex p0 p1 p2 p3 else []) ++ post),
                Tpre ++ ((if bInDoubleSided then doubleSidedIndices pre.length else []) ++ Tpost),
                pre.length + (if bInDoubleSided then 4 else 0),
                Tpre.length + (if bInDoubleSided then 6 else 0), s.CapTriangles⟩ := by
  cases bInDoubleSided
  · simp only [Bool.false_eq_true, if_false] at hw htw ⊢
    rw [List.length_eq_zero] at hw htw
    subst hw htw
    cases s
    simp only [List.nil_append, Nat.add_zero] at *
    simp [hV, hT, hvi, hti]
  · simp only [if_true] at hw htw ⊢
    exact doubleSidedQuad_eq E VMapPerQuad QuadIndex p0 p1 p2 p3 s pre w post Tpre tw Tpost
      hV hT hvi hti hw htw

/-- The cap step of the loop body, with an empty window when no cap is emitted. -/
theorem capStep_eq (E : Engine α) (InWidth : α) (Offset : FVector α) (bInCapEnds : Bool)
    (QuadIndex : Int) (Angle NextAngle : α) (p0 p1 : FVector α) (s : CylinderRun α)
    (pre w post : List (FRuntimeMeshVertexSimple α)) (Tpre tw Tpost : List Int)
    (hV : s.Vertices = pre ++ (w ++ post)) (hT : s.Triangles = Tpre ++ (tw ++ Tpost))
    (hvi : s.VertexIndex = pre.length) (hti : s.TriangleIndex = Tpre.length)
    (hw : w.length = if emitsCaps bInCapEnds QuadIndex then 6 else 0)
    (htw : tw.length = if emitsCaps bInCapEnds QuadIndex then 6 else 0) :
    (if QuadIndex ≠ 0 ∧ bInCapEnds = true then do
        let s ← bottomCap E Angle NextAngle p0 p1 (circlePoint E InWidth 0)
          (circlePoint E InWidth Angle) (circlePoint E InWidth NextAngle) s
        topCap E Angle NextAngle p0 p1 (circlePoint E InWidth 0 + Offset)
          (circlePoint E InWidth Angle + Offset) (circlePoint E InWidth NextAngle + Offset) s
      else pure s)
      = some ⟨pre ++ ((if emitsCaps bInCapEnds QuadIndex then
                    bottomCapVertices E Angle NextAngle p0 p1 (circlePoint E InWidth 0)
                      (circlePoint E InWidth Angle) (circlePoint E InWidth NextAngle)
                    ++ topCapVertices E Angle NextAngle p0 p1 (circlePoint E InWidth 0 + Offset)
                      (circlePoint E InWidth Angle + Offset)
                      (circlePoint E InWidth NextAngle + Offset)
                  else []) ++ post),
                Tpre ++ ((if emitsCaps bInCapEnds QuadIndex then
                    bottomCapIndices pre.length ++ topCapIndices (pre.length + 3) else []) ++ Tpost),
                pre.length + (if emitsCaps bInCapEnds QuadIndex then 6 else 0),
                Tpre.length + (if emitsCaps bInCapEnds QuadIndex then 6 else 0),
                s.CapTriangles + (if emitsCaps bInCapEnds QuadIndex then 2 else 0)⟩ := by
  by_cases hc : QuadIndex ≠ 0 ∧ bInCapEnds = true
  · have he : emitsCaps bInCapEnds QuadIndex = true := (emitsCaps_iff _ _).2 hc
    rw [if_pos hc]
    simp only [he, if_true] at hw htw ⊢
    obtain ⟨w1, w2, rfl, hw1, hw2⟩ := exists_append_of_length w 3 3 hw
    obtain ⟨tw1, tw2, rfl, htw1, htw2⟩ := exists_append_of_length tw 3 3 htw
    refine bind_eq_of_eq_some
      (bottomCap_eq E Angle NextAngle p0 p1 _ _ _ s pre w1 (w2 ++ post) Tpre tw1 (tw2 ++ Tpost)
        (by rw [hV]; simp) (by rw [hT]; simp) hvi hti hw1 htw1) ?_
    refine (topCap_eq E Angle NextAngle p0 p1 _ _ _ _
        (pre ++ bottomCapVertices E Angle NextAngle p0 p1 (circlePoint E InWidth 0)
          (circlePoint E InWidth Angle) (circlePoint E InWidth NextAngle))
        w2 post (Tpre ++ bottomCapIndices pre.length) tw2 Tpost
        (by simp) (by simp) (by simp [bottomCapVertices]) (by simp [bottomCapIndices])
        hw2 htw2).trans ?_
    simp [bottomCapVertices, bottomCapIndices, Nat.add_assoc]
  · have he : emitsCaps bInCapEnds QuadIndex = false := by
      rw [← Bool.not_eq_true, emitsCaps_iff]; exact hc
    rw [if_neg hc]
    simp only [he, Bool.false_eq_true, if_false] at hw htw ⊢
    rw [List.length_eq_zero] at hw htw
    subst hw htw
    cases s
    simp only [List.nil_append, Nat.add_zero] at *
    simp [hV, hT, hvi, hti]

theorem sideQuadVertices_length (E : Engine α) (InWidth AngleBetweenQuads VMapPerQuad : α)
    (bInSmoothNormals : Bool) (QuadIndex : Int) (p0 p1 p2 p3 : FVector α) :
    (sideQuadVertices E InWidth AngleBetweenQuads VMapPerQuad bInSmoothNormals QuadIndex
      p0 p1 p2 p3).length = 4 := rfl

theorem doubleSidedVertices_length (E : Engine α) (VMapPerQuad : α) (QuadIndex : Int)
    (p0 p1 p2 p3 : FVector α) :
    (doubleSidedVertices E VMapPerQuad QuadIndex p0 p1 p2 p3).length = 4 := rfl

theorem sideQuadIndices_length (v : Nat) : (sideQuadIndices v).length = 6 := rfl

theorem doubleSidedIndices_length (v : Nat) : (doubleSidedIndices v).length = 6 := rfl

theorem segmentVertices_length (E : Engine α) (InWidth AngleBetweenQuads VMapPerQuad : α)
    (Offset : FVector α) (bInCapEnds bInDoubleSided bInSmoothNormals : Bool) (QuadIndex : Int) :
    (segmentVertices E InWidth AngleBetweenQuads VMapPerQuad Offset bInCapEnds bInDoubleSided
      bInSmoothNormals QuadIndex).length = segmentVertexCount bInCapEnds bInDoubleSided QuadIndex := by
  unfold segmentVertices segmentVertexCount
  cases bInDoubleSided <;> cases emitsCaps bInCapEnds QuadIndex <;> rfl

theorem segmentIndices_length (bInCapEnds bInDoubleSided : Bool) (QuadIndex : Int) (v : Nat) :
    (segmentIndices bInCapEnds bInDoubleSided QuadIndex v).length
      = segmentIndexCount bInCapEnds bInDoubleSided QuadIndex := by
  unfold segmentIndices segmentIndexCount
  cases bInDoubleSided <;> cases emitsCaps bInCapEnds QuadIndex <;> rfl

theorem ite_bind_comm {β γ : Type} {c : Prop} [Decidable c] (x y : Option β)
    (f : β → Option γ) :
    (if c then x >>= f else y >>= f) = (if c then x else y) >>= f := by
  split <;> rfl

/-- One iteration of the loop overwrites the windows at the cursors with the segment's
vertices and indices. -/
theorem quadIteration_eq (E : Engine α) (InWidth AngleBetweenQuads VMapPerQuad : α)
    (Offset : FVector α) (bInCapEnds bInDoubleSided bInSmoothNormals : Bool) (QuadIndex : Int)
    (s : CylinderRun α)
    (pre w post : List (FRuntimeMeshVertexSimple α)) (Tpre tw Tpost : List Int)
    (hV : s.Vertices = pre ++ (w ++ post)) (hT : s.Triangles = Tpre ++ (tw ++ Tpost))
    (hvi : s.VertexIndex = pre.length) (hti : s.TriangleIndex = Tpre.length)
    (hw : w.length = segmentVertexCount bInCapEnds bInDoubleSided QuadIndex)
    (htw : tw.length = segmentIndexCount bInCapEnds bInDoubleSided QuadIndex) :
    quadIteration E InWidth AngleBetweenQuads VMapPerQuad Offset
        bInCapEnds bInDoubleSided bInSmoothNormals s QuadIndex
      = some ⟨pre ++ (segmentVertices E InWidth AngleBetweenQuads VMapPerQuad Offset
                  bInCapEnds bInDoubleSided bInSmoothNormals QuadIndex ++ post),
                Tpre ++ (segmentIndices bInCapEnds bInDoubleSided QuadIndex pre.length ++ Tpost),
                pre.length + segmentVertexCount bInCapEnds bInDoubleSided QuadIndex,
                Tpre.length + segmentIndexCount bInCapEnds bInDoubleSided QuadIndex,
                s.CapTriangles + (if emitsCaps bInCapEnds QuadIndex then 2 else 0)⟩ := by
  unfold segmentVertexCount at hw
  unfold segmentIndexCount at htw
  obtain ⟨w12, w3, rfl, hw12, hw3⟩ := exists_append_of_length w _ _ hw
  obtain ⟨w1, w2, rfl, hw1, hw2⟩ := exists_append_of_length w12 _ _ hw12
  obtain ⟨tw12, tw3, rfl, htw12, htw3⟩ := exists_append_of_length tw _ _ htw
  obtain ⟨tw1, tw2, rfl, htw1, htw2⟩ := exists_append_of_length tw12 _ _ htw12
  unfold quadIteration
  refine bind_eq_of_eq_some
    (sideQuad_eq E InWidth AngleBetweenQuads VMapPerQuad bInSmoothNormals QuadIndex
      (circlePoint E InWidth ((QuadIndex : α) * AngleBetweenQuads)) (circlePoint E InWidth (((QuadIndex + 1 : Int) : α) * AngleBetweenQuads))
      (circlePoint E InWidth (((QuadIndex + 1 : Int) : α) * AngleBetweenQuads) + Offset) (circlePoint E InWidth ((QuadIndex : α) * AngleBetweenQuads) + Offset) s
      pre w1 (w2 ++ (w3 ++ post)) Tpre tw1 (tw2 ++ (tw3 ++ Tpost))
      (by rw [hV]; simp) (by rw [hT]; simp) hvi hti hw1 htw1) ?_
  dsimp only
  refine (ite_bind_comm _ _ _).trans ?_
  refine bind_eq_of_eq_some
    (doubleSidedStep_eq E VMapPerQuad QuadIndex bInDoubleSided
      (circlePoint E InWidth ((QuadIndex : α) * AngleBetweenQuads)) (circlePoint E InWidth (((QuadIndex + 1 : Int) : α) * AngleBetweenQuads))
      (circlePoint E InWidth (((QuadIndex + 1 : Int) : α) * AngleBetweenQuads) + Offset) (circlePoint E InWidth ((QuadIndex : α) * AngleBetweenQuads) + Offset) _
      (pre ++ (sideQuadVertices E InWidth AngleBetweenQuads VMapPerQuad bInSmoothNormals QuadIndex
        (circlePoint E InWidth ((QuadIndex : α) * AngleBetweenQuads))
        (circlePoint E InWidth (((QuadIndex + 1 : Int) : α) * AngleBetweenQuads))
        (circlePoint E InWidth (((QuadIndex + 1 : Int) : α) * AngleBetweenQuads) + Offset)
        (circlePoint E InWidth ((QuadIndex : α) * AngleBetweenQuads) + Offset))) w2 (w3 ++ post) (Tpre ++ sideQuadIndices pre.length) tw2 (tw3 ++ Tpost)
      (by simp) (by simp) (by simp [sideQuadVertices_length]) (by simp [sideQuadIndices])
      hw2 htw2) ?_
  refine (capStep_eq E InWidth Offset bInCapEnds QuadIndex _ _
      (circlePoint E InWidth ((QuadIndex : α) * AngleBetweenQuads)) (circlePoint E InWidth (((QuadIndex + 1 : Int) : α) * AngleBetweenQuads)) _
      (pre ++ (sideQuadVertices E InWidth AngleBetweenQuads VMapPerQuad bInSmoothNormals QuadIndex
        (circlePoint E InWidth ((QuadIndex : α) * AngleBetweenQuads))
        (circlePoint E InWidth (((QuadIndex + 1 : Int) : α) * AngleBetweenQuads))
        (circlePoint E InWidth (((QuadIndex + 1 : Int) : α) * AngleBetweenQuads) + Offset)
        (circlePoint E InWidth ((QuadIndex : α) * AngleBetweenQuads) + Offset)) ++ (if bInDoubleSided then doubleSidedVertices E VMapPerQuad QuadIndex
        (circlePoint E InWidth ((QuadIndex : α) * AngleBetweenQuads)) (circlePoint E InWidth (((QuadIndex + 1 : Int) : α) * AngleBetweenQuads))
        (circlePoint E InWidth (((QuadIndex + 1 : Int) : α) * AngleBetweenQuads) + Offset) (circlePoint E InWidth ((QuadIndex : α) * AngleBetweenQuads) + Offset)
          else [])) w3 post
      (Tpre ++ sideQuadIndices pre.length ++
        (if bInDoubleSided then doubleSidedIndices (pre ++ (sideQuadVertices E InWidth AngleBetweenQuads VMapPerQuad bInSmoothNormals QuadIndex
        (circlePoint E InWidth ((QuadIndex : α) * AngleBetweenQuads))
        (circlePoint E InWidth (((QuadIndex + 1 : Int) : α) * AngleBetweenQuads))
        (circlePoint E InWidth (((QuadIndex + 1 : Int) : α) * AngleBetweenQuads) + Offset)
        (circlePoint E InWidth ((QuadIndex : α) * AngleBetweenQuads) + Offset))).length else []))
      tw3 Tpost
      (by simp) (by simp)
      (by cases bInDoubleSided <;> simp [sideQuadVertices_length, doubleSidedVertices_length])
      (by cases bInDoubleSided <;> simp [sideQuadIndices, doubleSidedIndices])
      hw3 htw3).trans ?_
  cases bInDoubleSided <;> cases h : emitsCaps bInCapEnds QuadIndex <;>
    simp [h, segmentVertices, segmentIndices, segmentVertexCount, segmentIndexCount,
      sideQuadVertices_length, doubleSidedVertices_length, sideQuadIndices_length,
      doubleSidedIndices_length, Nat.add_assoc]

theorem emittedVertices_length (E : Engine α) (InWidth AngleBetweenQuads VMapPerQuad : α)
    (Offset : FVector α) (bInCapEnds bInDoubleSided bInSmoothNormals : Bool) (n : Nat) :
    (emittedVertices E InWidth AngleBetweenQuads VMapPerQuad Offset bInCapEnds bInDoubleSided
      bInSmoothNormals n).length = vertexCursor bInCapEnds bInDoubleSided n := by
  induction n with
  | zero => rfl
  | succ n ih => simp [emittedVertices, vertexCursor, ih, segmentVertices_length]

theorem emittedIndices_length (bInCapEnds bInDoubleSided : Bool) (n : Nat) :
    (emittedIndices bInCapEnds bInDoubleSided n).length
      = triangleCursor bInCapEnds bInDoubleSided n := by
  induction n with
  | zero => rfl
  | succ n ih => simp [emittedIndices, triangleCursor, ih, segmentIndices_length]

theorem drop_window {β : Type} (l : List β) (a k : Nat) (h : a + k ≤ l.length) :
    ∃ w, w.length = k ∧ l.drop a = w ++ l.drop (a + k) := by
  refine ⟨(l.drop a).take k, ?_, ?_⟩
  · simp; omega
  · rw [← List.drop_drop, List.take_append_drop]

/-- The loop of `GenerateCylinder` after `n` iterations, started on buffers that are long
enough: the first slots hold what the iterations emitted, the rest is untouched. -/
theorem loop_eq (E : Engine α) (InWidth AngleBetweenQuads VMapPerQuad : α)
    (Offset : FVector α) (bInCapEnds bInDoubleSided bInSmoothNormals : Bool)
    (V : List (FRuntimeMeshVertexSimple α)) (T : List Int) (n : Nat)
    (hV : vertexCursor bInCapEnds bInDoubleSided n ≤ V.length)
    (hT : triangleCursor bInCapEnds bInDoubleSided n ≤ T.length) :
    (List.range n).foldlM
        (fun s (QuadIndex : Nat) =>
          quadIteration E InWidth AngleBetweenQuads VMapPerQuad Offset
            bInCapEnds bInDoubleSided bInSmoothNormals s (QuadIndex : Int))
        (⟨V, T, 0, 0, 0⟩ : CylinderRun α)
      = some ⟨emittedVertices E InWidth AngleBetweenQuads VMapPerQuad Offset
                bInCapEnds bInDoubleSided bInSmoothNormals n
                ++ V.drop (vertexCursor bInCapEnds bInDoubleSided n),
              emittedIndices bInCapEnds bInDoubleSided n
                ++ T.drop (triangleCursor bInCapEnds bInDoubleSided n),
              vertexCursor bInCapEnds bInDoubleSided n,
              triangleCursor bInCapEnds bInDoubleSided n,
              capTriangleCursor bInCapEnds n⟩ := by
  induction n with
  | zero => simp [emittedVertices, emittedIndices, vertexCursor, triangleCursor, capTriangleCursor]
  | succ n ih =>
    have hV1 : vertexCursor bInCapEnds bInDoubleSided n
        + segmentVertexCount bInCapEnds bInDoubleSided (n : Int) ≤ V.length := hV
    have hT1 : triangleCursor bInCapEnds bInDoubleSided n
        + segmentIndexCount bInCapEnds bInDoubleSided (n : Int) ≤ T.length := hT
    obtain ⟨w, hw, hwd⟩ := drop_window V _ _ hV1
    obtain ⟨tw, htw, htwd⟩ := drop_window T _ _ hT1
    rw [List.range_succ, List.foldlM_append, ih (by omega) (by omega)]
    simp only [List.foldlM_cons, List.foldlM_nil, Option.bind_eq_bind, Option.some_bind, bind_pure]
    rw [quadIteration_eq E InWidth AngleBetweenQuads VMapPerQuad Offset bInCapEnds bInDoubleSided
      bInSmoothNormals (n : Int) _
      (emittedVertices E InWidth AngleBetweenQuads VMapPerQuad Offset
        bInCapEnds bInDoubleSided bInSmoothNormals n) w
      (V.drop (vertexCursor bInCapEnds bInDoubleSided n
        + segmentVertexCount bInCapEnds bInDoubleSided (n : Int)))
      (emittedIndices bInCapEnds bInDoubleSided n) tw
      (T.drop (triangleCursor bInCapEnds bInDoubleSided n
        + segmentIndexCount bInCapEnds bInDoubleSided (n : Int)))
      (by simp [hwd]) (by simp [htwd])
      (by simp [emittedVertices_length]) (by simp [emittedIndices_length]) hw htw]
    simp [emittedVertices, emittedIndices, vertexCursor, triangleCursor, capTriangleCursor,
      emittedVertices_length, emittedIndices_length]

/-- `GenerateCylinder` on buffers that are long enough returns, and overwrites the first slots
of each buffer with the closed-form lists. -/
theorem GenerateCylinder_eq (E : Engine α) (V : List (FRuntimeMeshVertexSimple α)) (T : List Int)
    (InHeight InWidth : α) (N : Int) (bInCapEnds bInDoubleSided bInSmoothNormals : Bool)
    (hV : vertexCursor bInCapEnds bInDoubleSided N.toNat ≤ V.length)
    (hT : triangleCursor bInCapEnds bInDoubleSided N.toNat ≤ T.length) :
    GenerateCylinder E V T InHeight InWidth N bInCapEnds bInDoubleSided bInSmoothNormals
      = some ⟨cylinderVertices E InHeight InWidth N bInCapEnds bInDoubleSided bInSmoothNormals
                ++ V.drop (vertexCursor bInCapEnds bInDoubleSided N.toNat),
              cylinderIndices N bInCapEnds bInDoubleSided
                ++ T.drop (triangleCursor bInCapEnds bInDoubleSided N.toNat),
              vertexCursor bInCapEnds bInDoubleSided N.toNat,
              triangleCursor bInCapEnds bInDoubleSided N.toNat,
              capTriangleCursor bInCapEnds N.toNat⟩ :=
  loop_eq E InWidth _ _ _ bInCapEnds bInDoubleSided bInSmoothNormals V T N.toNat hV hT

end Blocks

section Counts

theorem emitsCaps_zero (bInCapEnds : Bool) : emitsCaps bInCapEnds ((0 : Nat) : Int) = false := by
  simp [emitsCaps]

theorem emitsCaps_succ (bInCapEnds : Bool) (n : Nat) :
    emitsCaps bInCapEnds ((n + 1 : Nat) : Int) = bInCapEnds := by
  have h : ((n + 1 : Nat) : Int) ≠ 0 := by omega
  simp only [emitsCaps, h, ne_eq, not_false_eq_true, decide_True, Bool.true_and]

/-- The cursor `VertexIndex` at the start of iteration `n`, in closed form. -/
theorem vertexCursor_eq (bInCapEnds bInDoubleSided : Bool) (n : Nat) :
    vertexCursor bInCapEnds bInDoubleSided n
      = n * (if bInDoubleSided then 8 else 4) + (if bInCapEnds then 6 * (n - 1) else 0) := by
  induction n with
  | zero => simp [vertexCursor]
  | succ n ih =>
    cases n with
    | zero =>
      simp only [vertexCursor, segmentVertexCount, emitsCaps_zero]
      cases bInDoubleSided <;> cases bInCapEnds <;> simp
    | succ n =>
      rw [vertexCursor, ih, segmentVertexCount, emitsCaps_succ]
      cases bInDoubleSided <;> cases bInCapEnds <;> simp <;> omega

/-- The cursor `TriangleIndex` at the start of iteration `n`, in closed form. -/
theorem triangleCursor_eq (bInCapEnds bInDoubleSided : Bool) (n : Nat) :
    triangleCursor bInCapEnds bInDoubleSided n
      = n * (if bInDoubleSided then 12 else 6) + (if bInCapEnds then 6 * (n - 1) else 0) := by
  induction n with
  | zero => simp [triangleCursor]
  | succ n ih =>
    cases n with
    | zero =>
      simp only [triangleCursor, segmentIndexCount, emitsCaps_zero]
      cases bInDoubleSided <;> cases bInCapEnds <;> simp
    | succ n =>
      rw [triangleCursor, ih, segmentIndexCount, emitsCaps_succ]
      cases bInDoubleSided <;> cases bInCapEnds <;> simp <;> omega

/-- The ghost counter at the start of iteration `n`, in closed form. -/
theorem capTriangleCursor_eq (bInCapEnds : Bool) (n : Nat) :
    capTriangleCursor bInCapEnds n = if bInCapEnds then 2 * (n - 1) else 0 := by
  induction n with
  | zero => simp [capTriangleCursor]
  | succ n ih =>
    cases n with
    | zero =>
      have h := emitsCaps_zero bInCapEnds
      simp only [Nat.cast_zero] at h
      simp [capTriangleCursor, h]
    | succ n =>
      rw [capTriangleCursor, ih, emitsCaps_succ]
      cases bInCapEnds <;> simp <;> omega

/-- For at least one segment, `SetupMeshBuffers` allocates as many vertices as the loop of
`GenerateCylinder` advances `VertexIndex`. -/
theorem VertexCount_eq_vertexCursor (N : Int) (hN : 1 ≤ N) (bInCapEnds bInDoubleSided : Bool) :
    SetupMeshBuffers.VertexCount N bInCapEnds bInDoubleSided
      = ((vertexCursor bInCapEnds bInDoubleSided N.toNat : Nat) : Int) := by
  obtain ⟨n, rfl⟩ : ∃ n : Nat, N = n := ⟨N.toNat, by omega⟩
  rw [vertexCursor_eq]
  simp only [SetupMeshBuffers.VertexCount, Int.toNat_ofNat]
  cases bInDoubleSided <;> cases bInCapEnds <;> simp <;> omega

/-- For at least one segment, `SetupMeshBuffers` allocates as many indices as the loop of
`GenerateCylinder` advances `TriangleIndex`. -/
theorem TriangleCount_eq_triangleCursor (N : Int) (hN : 1 ≤ N)
    (bInCapEnds bInDoubleSided : Bool) :
    SetupMeshBuffers.TriangleCount N bInCapEnds bInDoubleSided
      = ((triangleCursor bInCapEnds bInDoubleSided N.toNat : Nat) : Int) := by
  obtain ⟨n, rfl⟩ : ∃ n : Nat, N = n := ⟨N.toNat, by omega⟩
  rw [triangleCursor_eq]
  simp only [SetupMeshBuffers.TriangleCount, Int.toNat_ofNat]
  cases bInDoubleSided <;> cases bInCapEnds <;> simp <;> omega

end Counts

section Sizer

variable {α : Type}

/-- `SetupMeshBuffers` with at least one segment returns: it appends the two counts of slots
and changes nothing else. -/
theorem SetupMeshBuffers_eq (U : Uninit α) (A : ASimpleCylinderActor α)
    (hN : 1 ≤ A.RadialSegmentCount) :
    SetupMeshBuffers U A = some { A with
      Vertices := A.Vertices ++ (List.range
        (vertexCursor A.bCapEnds A.bDoubleSided A.RadialSegmentCount.toNat)).map
          (fun k => U.vertex (A.Vertices.length + k)),
      Triangles := A.Triangles ++ (List.range
        (triangleCursor A.bCapEnds A.bDoubleSided A.RadialSegmentCount.toNat)).map
          (fun k => U.index (A.Triangles.length + k)) } := by
  unfold SetupMeshBuffers AddUninitialized
  rw [VertexCount_eq_vertexCursor _ hN, TriangleCount_eq_triangleCursor _ hN]
  simp

end Sizer

section Exact

variable {α : Type} [Field α]

/-- On buffers of exactly the emitted lengths the run returns the closed-form lists and
nothing survives of the buffers' previous content. -/
theorem GenerateCylinder_exact (E : Engine α) (V : List (FRuntimeMeshVertexSimple α))
    (T : List Int) (InHeight InWidth : α) (N : Int)
    (bInCapEnds bInDoubleSided bInSmoothNormals : Bool)
    (hV : V.length = vertexCursor bInCapEnds bInDoubleSided N.toNat)
    (hT : T.length = triangleCursor bInCapEnds bInDoubleSided N.toNat) :
    GenerateCylinder E V T InHeight InWidth N bInCapEnds bInDoubleSided bInSmoothNormals
      = some ⟨cylinderVertices E InHeight InWidth N bInCapEnds bInDoubleSided bInSmoothNormals,
              cylinderIndices N bInCapEnds bInDoubleSided,
              vertexCursor bInCapEnds bInDoubleSided N.toNat,
              triangleCursor bInCapEnds bInDoubleSided N.toNat,
              capTriangleCursor bInCapEnds N.toNat⟩ := by
  rw [GenerateCylinder_eq E V T InHeight InWidth N bInCapEnds bInDoubleSided bInSmoothNormals
    (by omega) (by omega)]
  rw [← hV, ← hT]
  simp

theorem cylinderVertices_length (E : Engine α) (InHeight InWidth : α) (N : Int)
    (bInCapEnds bInDoubleSided bInSmoothNormals : Bool) :
    (cylinderVertices E InHeight InWidth N bInCapEnds bInDoubleSided bInSmoothNormals).length
      = vertexCursor bInCapEnds bInDoubleSided N.toNat :=
  emittedVertices_length _ _ _ _ _ _ _ _ _

theorem cylinderIndices_length (N : Int) (bInCapEnds bInDoubleSided : Bool) :
    (cylinderIndices N bInCapEnds bInDoubleSided).length
      = triangleCursor bInCapEnds bInDoubleSided N.toNat :=
  emittedIndices_length _ _ _

theorem segmentIndices_bounds (bInCapEnds bInDoubleSided : Bool) (QuadIndex : Int) (v : Nat)
    (t : Int) (ht : t ∈ segmentIndices bInCapEnds bInDoubleSided QuadIndex v) :
    (v : Int) ≤ t ∧ t < ((v + segmentVertexCount bInCapEnds bInDoubleSided QuadIndex : Nat) : Int) := by
  unfold segmentIndices at ht
  unfold segmentVertexCount
  cases bInDoubleSided <;> cases h : emitsCaps bInCapEnds QuadIndex <;>
    simp [h, sideQuadIndices, doubleSidedIndices, bottomCapIndices, topCapIndices] at ht ⊢ <;>
    omega

/-- Every index the first `n` iterations store points below the vertex cursor they reach. -/
theorem emittedIndices_bounds (bInCapEnds bInDoubleSided : Bool) (n : Nat) (t : Int)
    (ht : t ∈ emittedIndices bInCapEnds bInDoubleSided n) :
    0 ≤ t ∧ t < ((vertexCursor bInCapEnds bInDoubleSided n : Nat) : Int) := by
  induction n with
  | zero => simp [emittedIndices] at ht
  | succ n ih =>
    simp only [emittedIndices, List.mem_append] at ht
    simp only [vertexCursor]
    rcases ht with ht | ht
    · have := ih ht
      push_cast at this ⊢
      omega
    · have := segmentIndices_bounds _ _ _ _ _ ht
      push_cast at this ⊢
      omega

end Exact

section Mesh

variable {α : Type} [LinearOrderedField α]

/-- `GenerateMesh` with a positive height on buffers already flagged initialised and long
enough for the configuration. -/
theorem GenerateMesh_of_initialized (E : Engine α) (U : Uninit α) (A : ASimpleCylinderActor α)
    (hH : 0 < A.Height) (hF : A.bHaveBuffersBeenInitialized = true)
    (hV : vertexCursor A.bCapEnds A.bDoubleSided A.RadialSegmentCount.toNat ≤ A.Vertices.length)
    (hT : triangleCursor A.bCapEnds A.bDoubleSided A.RadialSegmentCount.toNat
      ≤ A.Triangles.length) :
    GenerateMesh E U A = some (A.generated E) := by
  unfold GenerateMesh
  rw [if_neg (not_le.mpr hH)]
  simp only [hF, not_true_eq_false, if_false]
  refine bind_eq_of_eq_some rfl ?_
  refine bind_eq_of_eq_some (GenerateCylinder_eq E _ _ _ _ _ _ _ _ hV hT) ?_
  simp [hF, ASimpleCylinderActor.generated, URuntimeMeshComponent.ClearAllMeshSections,
    URuntimeMeshComponent.CreateMeshSection, URuntimeMeshComponent.SetMaterial]

/-- `GenerateMesh` with a positive height and the flag clear first lets `SetupMeshBuffers`
append the slots and sets the flag. -/
theorem GenerateMesh_of_uninitialized (E : Engine α) (U : Uninit α)
    (A : ASimpleCylinderActor α) (hH : 0 < A.Height) (hN : 1 ≤ A.RadialSegmentCount)
    (hF : A.bHaveBuffersBeenInitialized = false) :
    GenerateMesh E U A = some ((A.allocated U).generated E) := by
  unfold GenerateMesh
  rw [if_neg (not_le.mpr hH)]
  simp only [hF, Bool.false_eq_true, not_false_eq_true, if_true]
  rw [SetupMeshBuffers_eq U A hN]
  refine bind_eq_of_eq_some rfl ?_
  refine bind_eq_of_eq_some (a := A.allocated U) rfl ?_
  refine bind_eq_of_eq_some (GenerateCylinder_eq E _ _ _ _ _ _ _ _
    (by simp [ASimpleCylinderActor.allocated]) (by simp [ASimpleCylinderActor.allocated])) ?_
  simp [ASimpleCylinderActor.generated, ASimpleCylinderActor.allocated,
    URuntimeMeshComponent.ClearAllMeshSections,
    URuntimeMeshComponent.CreateMeshSection, URuntimeMeshComponent.SetMaterial]

/-- Generating on the output of a generation changes nothing. -/
theorem generated_generated (E : Engine α) (A : ASimpleCylinderActor α) :
    (A.generated E).generated E = A.generated E := by
  simp [ASimpleCylinderActor.generated, cylinderVertices_length, cylinderIndices_length]

end Mesh

section Slots

variable {α : Type} [Field α]

theorem vertexCursor_mono (bInCapEnds bInDoubleSided : Bool) {m n : Nat} (h : m ≤ n) :
    vertexCursor bInCapEnds bInDoubleSided m ≤ vertexCursor bInCapEnds bInDoubleSided n := by
  induction n with
  | zero => simp [Nat.le_zero.mp h]
  | succ n ih =>
    rcases Nat.lt_or_ge m (n + 1) with hlt | hge
    · have := ih (by omega)
      simp only [vertexCursor]
      omega
    · have : m = n + 1 := by omega
      subst this
      exact le_refl _

/-- Slot `vertexCursor i + k` of what `n > i` iterations emitted is slot `k` of segment `i`. -/
theorem emittedVertices_slot (E : Engine α) (InWidth AngleBetweenQuads VMapPerQuad : α)
    (Offset : FVector α) (bInCapEnds bInDoubleSided bInSmoothNormals : Bool) (n i k : Nat)
    (hi : i < n) (hk : k < segmentVertexCount bInCapEnds bInDoubleSided (i : Int)) :
    (emittedVertices E InWidth AngleBetweenQuads VMapPerQuad Offset bInCapEnds bInDoubleSided
        bInSmoothNormals n)[vertexCursor bInCapEnds bInDoubleSided i + k]?
      = (segmentVertices E InWidth AngleBetweenQuads VMapPerQuad Offset bInCapEnds
          bInDoubleSided bInSmoothNormals (i : Int))[k]? := by
  induction n with
  | zero => omega
  | succ n ih =>
    simp only [emittedVertices]
    rcases Nat.lt_or_ge i n with hlt | hge
    · have h1 : vertexCursor bInCapEnds bInDoubleSided (i + 1)
          ≤ vertexCursor bInCapEnds bInDoubleSided n := vertexCursor_mono _ _ (by omega)
      simp only [vertexCursor] at h1
      rw [List.getElem?_append_left (by rw [emittedVertices_length]; omega)]
      exact ih hlt
    · have : i = n := by omega
      subst this
      rw [List.getElem?_append_right (by rw [emittedVertices_length]; omega)]
      simp [emittedVertices_length]

/-- The four slots of the primary side quad of segment `i` in the output of a run. -/
theorem run_sideQuad_slot (E : Engine α) (V : List (FRuntimeMeshVertexSimple α))
    (InHeight InWidth : α) (N : Int) (bInCapEnds bInDoubleSided bInSmoothNormals : Bool)
    (i k : Nat) (hi : (i : Int) < N) (hk : k < 4) :
    (cylinderVertices E InHeight InWidth N bInCapEnds bInDoubleSided bInSmoothNormals
        ++ V)[vertexCursor bInCapEnds bInDoubleSided i + k]?
      = (sideQuadVertices E InWidth ((2 / (N : α)) * E.PI) (1 / (N : α)) bInSmoothNormals (i : Int)
          (circlePoint E InWidth (((i : Int) : α) * ((2 / (N : α)) * E.PI)))
          (circlePoint E InWidth ((((i : Int) + 1 : Int) : α) * ((2 / (N : α)) * E.PI)))
          (circlePoint E InWidth ((((i : Int) + 1 : Int) : α) * ((2 / (N : α)) * E.PI))
            + ⟨0, 0, InHeight⟩)
          (circlePoint E InWidth (((i : Int) : α) * ((2 / (N : α)) * E.PI))
            + ⟨0, 0, InHeight⟩))[k]? := by
  have hi2 : i < N.toNat := by omega
  have hk2 : k < segmentVertexCount bInCapEnds bInDoubleSided (i : Int) := by
    unfold segmentVertexCount; omega
  have h1 : vertexCursor bInCapEnds bInDoubleSided (i + 1)
      ≤ vertexCursor bInCapEnds bInDoubleSided N.toNat := vertexCursor_mono _ _ (by omega)
  simp only [vertexCursor] at h1
  rw [List.getElem?_append_left (by rw [cylinderVertices_length]; omega)]
  unfold cylinderVertices
  rw [emittedVertices_slot E _ _ _ _ _ _ _ _ i k hi2 hk2]
  unfold segmentVertices
  rw [List.append_assoc, List.getElem?_append_left (by rw [sideQuadVertices_length]; exact hk)]

end Slots

namespace FVector

variable {α : Type} [Field α]

@[ext]
theorem ext {A B : FVector α} (hX : A.X = B.X) (hY : A.Y = B.Y) (hZ : A.Z = B.Z) : A = B := by
  cases A; cases B; simp_all

@[simp] theorem add_X (A B : FVector α) : (A + B).X = A.X + B.X := rfl

@[simp] theorem add_Y (A B : FVector α) : (A + B).Y = A.Y + B.Y := rfl

@[simp] theorem add_Z (A B : FVector α) : (A + B).Z = A.Z + B.Z := rfl

@[simp] theorem sub_X (A B : FVector α) : (A - B).X = A.X - B.X := rfl

@[simp] theorem sub_Y (A B : FVector α) : (A - B).Y = A.Y - B.Y := rfl

@[simp] theorem sub_Z (A B : FVector α) : (A - B).Z = A.Z - B.Z := rfl

theorem add_swap (A B : FVector α) : A + B = B + A := by
  ext <;> simp [add_comm]

end FVector

section RealTrigonometry

/-- One full turn: `N` steps of `2/N * π` do not move the point of the circle. -/
theorem circlePoint_add_turn (E : Engine ℝ) (hcos : E.Cos = Real.cos) (hsin : E.Sin = Real.sin)
    (hpi : E.PI = Real.pi) (N : Int) (hN : 1 ≤ N) (InWidth x : ℝ) :
    circlePoint E InWidth (x + (N : ℝ) * ((2 / (N : ℝ)) * E.PI)) = circlePoint E InWidth x := by
  have hN0 : (N : ℝ) ≠ 0 := by
    have : (1 : ℝ) ≤ (N : ℝ) := by exact_mod_cast hN
    linarith
  have h2 : (N : ℝ) * ((2 / (N : ℝ)) * E.PI) = 2 * Real.pi := by
    rw [hpi]; field_simp
  rw [h2]
  simp [circlePoint, hcos, hsin, Real.cos_add_two_pi, Real.sin_add_two_pi]

/-- The cross product behind `NormalNext` of a quad is the one behind `NormalCurrent` of the
quad that starts where this one ends. -/
theorem cross_next_eq (P1 P4 Offset : FVector ℝ) (hx : Offset.X = 0) (hy : Offset.Y = 0) :
    FVector.CrossProduct (P1 - (P1 + Offset)) (P4 - (P1 + Offset))
      = FVector.CrossProduct (P1 - (P4 + Offset)) (P4 - (P4 + Offset)) := by
  ext <;> simp [FVector.CrossProduct, hx, hy] <;> ring

/-- The cross product behind `NormalPrevious` of a quad is the one behind `NormalCurrent` of
the quad that ends where this one starts. -/
theorem cross_previous_eq (P0 PM Offset : FVector ℝ) (hx : Offset.X = 0) (hy : Offset.Y = 0) :
    FVector.CrossProduct (P0 - PM) ((P0 + Offset) - PM)
      = FVector.CrossProduct (PM - (P0 + Offset)) (P0 - (P0 + Offset)) := by
  ext <;> simp [FVector.CrossProduct, hx, hy] <;> ring

end RealTrigonometry

section SmoothNormals

/-- Over the reals the normals computed for the edge shared by quad `i` and quad
`j = (i+1) mod N` agree: `NormalNext` of `i` is `NormalCurrent` of `j`, `NormalPrevious` of `j`
is `NormalCurrent` of `i`, and so the smoothed normal on the trailing edge of `i` is the
smoothed normal on the leading edge of `j`. -/
theorem shared_edge_normals (E : Engine ℝ) (hcos : E.Cos = Real.cos) (hsin : E.Sin = Real.sin)
    (hpi : E.PI = Real.pi) (N : Int) (hN : 1 ≤ N) (InHeight InWidth : ℝ) (i : Nat)
    (hi : (i : Int) < N) (p0 p1 p2 q0 q1 q2 q3 : FVector ℝ)
    (hp0 : p0 = circlePoint E InWidth (((i : Int) : ℝ) * ((2 / (N : ℝ)) * E.PI)))
    (hp1 : p1 = circlePoint E InWidth ((((i : Int) + 1 : Int) : ℝ) * ((2 / (N : ℝ)) * E.PI)))
    (hp2 : p2 = p1 + ⟨0, 0, InHeight⟩)
    (hq0 : q0 = circlePoint E InWidth
      ((((((i + 1) % N.toNat : Nat) : Int)) : ℝ) * ((2 / (N : ℝ)) * E.PI)))
    (hq1 : q1 = circlePoint E InWidth
      ((((((i + 1) % N.toNat : Nat) : Int) + 1 : Int) : ℝ) * ((2 / (N : ℝ)) * E.PI)))
    (hq2 : q2 = q1 + ⟨0, 0, InHeight⟩) (hq3 : q3 = q0 + ⟨0, 0, InHeight⟩) :
    NormalNext E InWidth ((2 / (N : ℝ)) * E.PI) (i : Int) p1 p2 = NormalCurrent E q0 q1 q2 ∧
    NormalPrevious E InWidth ((2 / (N : ℝ)) * E.PI) (((i + 1) % N.toNat : Nat) : Int) q0 q3
      = NormalCurrent E p0 p1 p2 ∧
    rightNormal E InWidth ((2 / (N : ℝ)) * E.PI) true (i : Int) p0 p1 p2
      = leftNormal E InWidth ((2 / (N : ℝ)) * E.PI) true (((i + 1) % N.toNat : Nat) : Int)
          q0 q1 q2 q3 := by
  have hturn := circlePoint_add_turn E hcos hsin hpi N hN InWidth
  -- the three points of quad `j` and of its predecessor, in terms of quad `i`
  have hA : q0 = p1 ∧ q1 = circlePoint E InWidth
        ((((i : Int) + 2 : Int) : ℝ) * ((2 / (N : ℝ)) * E.PI)) ∧
      circlePoint E InWidth
        ((((((i + 1) % N.toNat : Nat) : Int) - 1 : Int) : ℝ) * ((2 / (N : ℝ)) * E.PI)) = p0 := by
    rcases Nat.lt_or_ge (i + 1) N.toNat with hlt | hge
    · rw [Nat.mod_eq_of_lt hlt] at hq0 hq1 ⊢
      refine ⟨?_, ?_, ?_⟩
      · rw [hq0, hp1]; push_cast; rfl
      · rw [hq1]; push_cast; ring_nf
      · rw [hp0]; push_cast; ring_nf
    · have hiN : i + 1 = N.toNat := by omega
      have hNr : (N : ℝ) = (i : ℝ) + 1 := by
        have : N = ((i + 1 : Nat) : Int) := by omega
        rw [this]; push_cast; ring
      rw [hiN, Nat.mod_self] at hq0 hq1 ⊢
      refine ⟨?_, ?_, ?_⟩
      · rw [hq0, hp1, ← hturn]
        congr 1
        push_cast
        rw [hNr]; ring
      · rw [hq1, ← hturn]
        congr 1
        push_cast
        rw [hNr]; ring
      · rw [hp0, ← hturn]
        congr 1
        push_cast
        rw [hNr]; ring
  obtain ⟨hA0, hA1, hA2⟩ := hA
  have hnext : NormalNext E InWidth ((2 / (N : ℝ)) * E.PI) (i : Int) p1 p2
      = NormalCurrent E q0 q1 q2 := by
    unfold NormalNext NormalCurrent
    rw [hq2, hA0, ← hA1, hp2]
    rw [cross_next_eq p1 q1 ⟨0, 0, InHeight⟩ rfl rfl]
  have hprev : NormalPrevious E InWidth ((2 / (N : ℝ)) * E.PI)
      (((i + 1) % N.toNat : Nat) : Int) q0 q3 = NormalCurrent E p0 p1 p2 := by
    unfold NormalPrevious NormalCurrent
    rw [hA2, hq3, hA0, hp2]
    rw [cross_previous_eq p1 p0 ⟨0, 0, InHeight⟩ rfl rfl]
  refine ⟨hnext, hprev, ?_⟩
  unfold rightNormal leftNormal
  simp only [if_true]
  rw [hnext, hprev, FVector.add_swap]

end SmoothNormals

section Outward

/-- The angle between two quads is strictly between `0` and `π` once there are three. -/
theorem angleBetweenQuads_pos_lt_pi (N : Int) (hN : 3 ≤ N) :
    0 < (2 / (N : ℝ)) * Real.pi ∧ (2 / (N : ℝ)) * Real.pi < Real.pi := by
  have h3 : (3 : ℝ) ≤ (N : ℝ) := by exact_mod_cast hN
  have hpos : (0 : ℝ) < (N : ℝ) := by linarith
  have hpi := Real.pi_pos
  constructor
  · positivity
  · have : 2 / (N : ℝ) < 1 := by
      rw [div_lt_one hpos]; linarith
    nlinarith

/-- The dot product of the side quad's cross product with the radial vector of the quad's
centre is `height * radius² * sin (angle between quads)`. -/
theorem cross_dot_radial (E : Engine ℝ) (hcos : E.Cos = Real.cos) (hsin : E.Sin = Real.sin)
    (InHeight InWidth a b : ℝ) :
    FVector.DotProduct
        (FVector.CrossProduct
          (circlePoint E InWidth a - (circlePoint E InWidth b + ⟨0, 0, InHeight⟩))
          (circlePoint E InWidth b - (circlePoint E InWidth b + ⟨0, 0, InHeight⟩)))
        ⟨((circlePoint E InWidth a + circlePoint E InWidth b).divScalar 2).X,
          ((circlePoint E InWidth a + circlePoint E InWidth b).divScalar 2).Y, 0⟩
      = InHeight * InWidth ^ 2 * Real.sin (b - a) := by
  rw [Real.sin_sub]
  simp only [FVector.DotProduct, FVector.CrossProduct, FVector.divScalar, circlePoint, hcos, hsin,
    FVector.add_X, FVector.add_Y, FVector.add_Z, FVector.sub_X, FVector.sub_Y, FVector.sub_Z]
  ring

end Outward

section Bounds

/-- A point of the circle, on the bottom rim or raised to the top rim, lies in the bounding
box of the cylinder. -/
theorem circlePoint_inside (E : Engine ℝ) (hcos : E.Cos = Real.cos) (hsin : E.Sin = Real.sin)
    (InHeight InWidth : ℝ) (hr : 0 ≤ InWidth) (hh : 0 < InHeight) (a : ℝ) :
    (BoundingBox InWidth InHeight).IsInsideOrOn (circlePoint E InWidth a) ∧
    (BoundingBox InWidth InHeight).IsInsideOrOn (circlePoint E InWidth a + ⟨0, 0, InHeight⟩) := by
  have h1 := Real.neg_one_le_cos a
  have h2 := Real.cos_le_one a
  have h3 := Real.neg_one_le_sin a
  have h4 := Real.sin_le_one a
  simp only [FBox.IsInsideOrOn, BoundingBox, circlePoint, hcos, hsin, FVector.add_X,
    FVector.add_Y, FVector.add_Z]
  refine ⟨⟨?_, ?_, ?_, ?_, ?_, ?_⟩, ⟨?_, ?_, ?_, ?_, ?_, ?_⟩⟩ <;> nlinarith

/-- Every vertex one iteration stores lies in the bounding box. -/
theorem segmentVertices_inside (E : Engine ℝ) (hcos : E.Cos = Real.cos)
    (hsin : E.Sin = Real.sin) (InHeight InWidth : ℝ) (hr : 0 ≤ InWidth) (hh : 0 < InHeight)
    (AngleBetweenQuads VMapPerQuad : ℝ) (bInCapEnds bInDoubleSided bInSmoothNormals : Bool)
    (QuadIndex : Int) :
    ∀ v ∈ segmentVertices E InWidth AngleBetweenQuads VMapPerQuad ⟨0, 0, InHeight⟩
      bInCapEnds bInDoubleSided bInSmoothNormals QuadIndex,
    (BoundingBox InWidth InHeight).IsInsideOrOn v.Position := by
  have hc := circlePoint_inside E hcos hsin InHeight InWidth hr hh
  unfold segmentVertices
  cases bInDoubleSided <;> cases h : emitsCaps bInCapEnds QuadIndex <;>
    simp only [h, sideQuadVertices, doubleSidedVertices, bottomCapVertices, topCapVertices,
      Bool.false_eq_true, if_false, if_true, List.append_nil, List.forall_mem_append,
      List.forall_mem_cons, List.not_mem_nil, IsEmpty.forall_iff, implies_true, and_true] <;>
    repeat' (first | exact (hc _).1 | exact (hc _).2 | constructor)

/-- Every vertex the first `n` iterations store lies in the bounding box. -/
theorem emittedVertices_inside (E : Engine ℝ) (hcos : E.Cos = Real.cos)
    (hsin : E.Sin = Real.sin) (InHeight InWidth : ℝ) (hr : 0 ≤ InWidth) (hh : 0 < InHeight)
    (AngleBetweenQuads VMapPerQuad : ℝ) (bInCapEnds bInDoubleSided bInSmoothNormals : Bool)
    (n : Nat) :
    ∀ v ∈ emittedVertices E InWidth AngleBetweenQuads VMapPerQuad ⟨0, 0, InHeight⟩
      bInCapEnds bInDoubleSided bInSmoothNormals n,
    (BoundingBox InWidth InHeight).IsInsideOrOn v.Position := by
  induction n with
  | zero => simp [emittedVertices]
  | succ n ih =>
    intro v hv
    simp only [emittedVertices, List.mem_append] at hv
    rcases hv with hv | hv
    · exact ih v hv
    · exact segmentVertices_inside E hcos hsin InHeight InWidth hr hh _ _ _ _ _ _ v hv

end Bounds

/-! ## Windows of the output

Where the vertices and indices of one segment, of its mirrored quad and of its cap triangles lie
in the buffers after a run, and what the flags change in them. -/

section Windows

variable {α : Type} [Field α]

theorem triangleCursor_mono (bInCapEnds bInDoubleSided : Bool) {m n : Nat} (h : m ≤ n) :
    triangleCursor bInCapEnds bInDoubleSided m ≤ triangleCursor bInCapEnds bInDoubleSided n := by
  induction n with
  | zero => simp [Nat.le_zero.mp h]
  | succ n ih =>
    rcases Nat.lt_or_ge m (n + 1) with hlt | hge
    · have := ih (by omega)
      simp only [triangleCursor]
      omega
    · have : m = n + 1 := by omega
      subst this
      exact le_refl _

/-- What `n > i` iterations emitted is what `i` iterations emitted, then the vertices of
segment `i`, then the rest. -/
theorem emittedVertices_split (E : Engine α) (InWidth AngleBetweenQuads VMapPerQuad : α)
    (Offset : FVector α) (bInCapEnds bInDoubleSided bInSmoothNormals : Bool) (n i : Nat)
    (hi : i < n) :
    ∃ rest, emittedVertices E InWidth AngleBetweenQuads VMapPerQuad Offset bInCapEnds
        bInDoubleSided bInSmoothNormals n
      = emittedVertices E InWidth AngleBetweenQuads VMapPerQuad Offset bInCapEnds
          bInDoubleSided bInSmoothNormals i
        ++ (segmentVertices E InWidth AngleBetweenQuads VMapPerQuad Offset bInCapEnds
          bInDoubleSided bInSmoothNormals (i : Int) ++ rest) := by
  induction n with
  | zero => omega
  | succ n ih =>
    rcases Nat.lt_or_ge i n with hlt | hge
    · obtain ⟨rest, h⟩ := ih hlt
      refine ⟨rest ++ segmentVertices E InWidth AngleBetweenQuads VMapPerQuad Offset bInCapEnds
        bInDoubleSided bInSmoothNormals (n : Int), ?_⟩
      rw [emittedVertices, h]
      simp only [List.append_assoc]
    · have : i = n := by omega
      subst this
      exact ⟨[], by rw [emittedVertices, List.append_nil]⟩

/-- The indices of `n > i` iterations are those of `i` iterations, then the indices of
segment `i`, then the rest. -/
theorem emittedIndices_split (bInCapEnds bInDoubleSided : Bool) (n i : Nat) (hi : i < n) :
    ∃ rest, emittedIndices bInCapEnds bInDoubleSided n
      = emittedIndices bInCapEnds bInDoubleSided i
        ++ (segmentIndices bInCapEnds bInDoubleSided (i : Int)
          (vertexCursor bInCapEnds bInDoubleSided i) ++ rest) := by
  induction n with
  | zero => omega
  | succ n ih =>
    rcases Nat.lt_or_ge i n with hlt | hge
    · obtain ⟨rest, h⟩ := ih hlt
      refine ⟨rest ++ segmentIndices bInCapEnds bInDoubleSided (n : Int)
        (vertexCursor bInCapEnds bInDoubleSided n), ?_⟩
      rw [emittedIndices, h]
      simp only [List.append_assoc]
    · have : i = n := by omega
      subst this
      exact ⟨[], by rw [emittedIndices, List.append_nil]⟩

/-- In the vertex buffer after a run, the slots from `vertexCursor i` on hold the vertices of
segment `i`, in the order the loop body stores them. -/
theorem run_segment_window (E : Engine α) (V : List (FRuntimeMeshVertexSimple α))
    (InHeight InWidth : α) (N : Int) (bInCapEnds bInDoubleSided bInSmoothNormals : Bool)
    (i : Nat) (hi : (i : Int) < N) :
    ∃ rest, (cylinderVertices E InHeight InWidth N bInCapEnds bInDoubleSided bInSmoothNormals
        ++ V).drop (vertexCursor bInCapEnds bInDoubleSided i)
      = segmentVertices E InWidth ((2 / (N : α)) * E.PI) (1 / (N : α)) ⟨0, 0, InHeight⟩
          bInCapEnds bInDoubleSided bInSmoothNormals (i : Int) ++ rest := by
  obtain ⟨rest, h⟩ := emittedVertices_split E InWidth ((2 / (N : α)) * E.PI) (1 / (N : α))
    ⟨0, 0, InHeight⟩ bInCapEnds bInDoubleSided bInSmoothNormals N.toNat i (by omega)
  refine ⟨rest ++ V, ?_⟩
  unfold cylinderVertices
  rw [h, List.append_assoc, List.drop_left' (emittedVertices_length _ _ _ _ _ _ _ _ _),
    List.append_assoc]

/-- In the index buffer after a run, the slots from `triangleCursor i` on hold the indices of
segment `i`. -/
theorem run_segment_index_window (T : List Int) (N : Int) (bInCapEnds bInDoubleSided : Bool)
    (i : Nat) (hi : (i : Int) < N) :
    ∃ rest, (cylinderIndices N bInCapEnds bInDoubleSided ++ T).drop
        (triangleCursor bInCapEnds bInDoubleSided i)
      = segmentIndices bInCapEnds bInDoubleSided (i : Int)
          (vertexCursor bInCapEnds bInDoubleSided i) ++ rest := by
  obtain ⟨rest, h⟩ := emittedIndices_split bInCapEnds bInDoubleSided N.toNat i (by omega)
  refine ⟨rest ++ T, ?_⟩
  unfold cylinderIndices
  rw [h, List.append_assoc, List.drop_left' (emittedIndices_length _ _ _), List.append_assoc]

/-- The slots of the vertices of a window: reading at `a + k` is reading the window at `k`. -/
theorem getElem?_of_drop_eq {β : Type} {l w rest : List β} {a : Nat}
    (h : l.drop a = w ++ rest) (k : Nat) (hk : k < w.length) : l[a + k]? = w[k]? := by
  rw [← List.getElem?_drop, h, List.getElem?_append_left hk]

/-- The first `k` slots of a window. -/
theorem take_of_drop_eq {β : Type} {l w rest : List β} {a : Nat}
    (h : l.drop a = w ++ rest) : (l.drop a).take w.length = w := by
  rw [h, List.take_left]

/-- A window inside a window. -/
theorem drop_add_of_drop_eq {β : Type} {l w rest : List β} {a : Nat}
    (h : l.drop a = w ++ rest) (k : Nat) : l.drop (a + k) = (w ++ rest).drop k := by
  rw [← h, List.drop_drop, Nat.add_comm]

end Windows

section ZeroRadius

variable {α : Type} [Field α]

/-- With radius `0` every point of the circle is the origin. -/
theorem circlePoint_zero_radius (E : Engine α) (a : α) : circlePoint E 0 a = ⟨0, 0, 0⟩ := by
  simp [circlePoint]

/-- The cross product of two vectors along the axis is the zero vector. -/
theorem cross_axis (a b c d : α) :
    FVector.CrossProduct ((⟨0, 0, a⟩ : FVector α) - ⟨0, 0, b⟩) ((⟨0, 0, c⟩ : FVector α) - ⟨0, 0, d⟩)
      = ⟨0, 0, 0⟩ := by
  ext <;> simp [FVector.CrossProduct]

/-- With radius `0` and a normalisation that leaves the zero vector zero, the blended normals
of the primary quad are its flat normal: the primary and the mirrored quad carry the same
normals also with `bInSmoothNormals` set. -/
theorem zero_radius_normals (E : Engine α) (hG : E.GetSafeNormal ⟨0, 0, 0⟩ = ⟨0, 0, 0⟩)
    (AngleBetweenQuads VMapPerQuad InHeight a b : α) (QuadIndex : Int) :
    (sideQuadVertices E 0 AngleBetweenQuads VMapPerQuad true QuadIndex
        (circlePoint E 0 a) (circlePoint E 0 b) (circlePoint E 0 b + ⟨0, 0, InHeight⟩)
        (circlePoint E 0 a + ⟨0, 0, InHeight⟩)).map (·.Normal)
      = (doubleSidedVertices E VMapPerQuad QuadIndex
        (circlePoint E 0 a) (circlePoint E 0 b) (circlePoint E 0 b + ⟨0, 0, InHeight⟩)
        (circlePoint E 0 a + ⟨0, 0, InHeight⟩)).map (·.Normal) := by
  have hadd : ∀ h : α, (⟨0, 0, 0⟩ : FVector α) + ⟨0, 0, h⟩ = ⟨0, 0, h⟩ := by
    intro h
    ext <;> simp
  have hcur : NormalCurrent E (⟨0, 0, 0⟩ : FVector α) ⟨0, 0, 0⟩ ⟨0, 0, InHeight⟩
      = ⟨0, 0, 0⟩ := by
    unfold NormalCurrent
    rw [cross_axis, hG]
  have hnext : NormalNext E 0 AngleBetweenQuads QuadIndex (⟨0, 0, 0⟩ : FVector α)
      ⟨0, 0, InHeight⟩ = ⟨0, 0, 0⟩ := by
    unfold NormalNext
    rw [circlePoint_zero_radius, cross_axis, hG]
  have hprev : NormalPrevious E 0 AngleBetweenQuads QuadIndex (⟨0, 0, 0⟩ : FVector α)
      ⟨0, 0, InHeight⟩ = ⟨0, 0, 0⟩ := by
    unfold NormalPrevious
    rw [circlePoint_zero_radius, cross_axis, hG]
  have havg : (⟨0, 0, 0⟩ : FVector α).divScalar 2 = ⟨0, 0, 0⟩ := by
    ext <;> simp [FVector.divScalar]
  simp only [sideQuadVertices, doubleSidedVertices, List.map_cons, List.map_nil, leftNormal,
    rightNormal, if_true, circlePoint_zero_radius, hadd, hcur, hnext, hprev, havg, hG]

end ZeroRadius

section QuadWindows

variable {α : Type} [Field α]

/-- In the vertex buffer after a double-sided run, the slots from `vertexCursor i` on hold the
four vertices of the primary quad of segment `i` and then the four of its mirrored quad. -/
theorem run_quads_window (E : Engine α) (V : List (FRuntimeMeshVertexSimple α))
    (InHeight InWidth : α) (N : Int) (bInCapEnds bInSmoothNormals : Bool)
    (i : Nat) (hi : (i : Int) < N) :
    ∃ rest, (cylinderVertices E InHeight InWidth N bInCapEnds true bInSmoothNormals
        ++ V).drop (vertexCursor bInCapEnds true i)
      = sideQuadVertices E InWidth ((2 / (N : α)) * E.PI) (1 / (N : α)) bInSmoothNormals (i : Int)
          (circlePoint E InWidth (((i : Int) : α) * ((2 / (N : α)) * E.PI)))
          (circlePoint E InWidth ((((i : Int) + 1 : Int) : α) * ((2 / (N : α)) * E.PI)))
          (circlePoint E InWidth ((((i : Int) + 1 : Int) : α) * ((2 / (N : α)) * E.PI))
            + ⟨0, 0, InHeight⟩)
          (circlePoint E InWidth (((i : Int) : α) * ((2 / (N : α)) * E.PI)) + ⟨0, 0, InHeight⟩)
        ++ (doubleSidedVertices E (1 / (N : α)) (i : Int)
          (circlePoint E InWidth (((i : Int) : α) * ((2 / (N : α)) * E.PI)))
          (circlePoint E InWidth ((((i : Int) + 1 : Int) : α) * ((2 / (N : α)) * E.PI)))
          (circlePoint E InWidth ((((i : Int) + 1 : Int) : α) * ((2 / (N : α)) * E.PI))
            + ⟨0, 0, InHeight⟩)
          (circlePoint E InWidth (((i : Int) : α) * ((2 / (N : α)) * E.PI)) + ⟨0, 0, InHeight⟩)
        ++ rest) := by
  obtain ⟨rest, h⟩ := run_segment_window E V InHeight InWidth N bInCapEnds true bInSmoothNormals
    i hi
  exact ⟨_, h.trans (by
    unfold segmentVertices
    simp only [if_true, List.append_assoc]
    rfl)⟩

end QuadWindows

section CapWindows

variable {α : Type} [Field α]

/-- In the vertex buffer after a capped run, for a segment `i ≥ 1`: after the slots of the side
quad (and of the mirrored quad) come the three vertices of the bottom cap triangle and then
the three of the top cap triangle. -/
theorem run_caps_window (E : Engine α) (V : List (FRuntimeMeshVertexSimple α))
    (InHeight InWidth : α) (N : Int) (bInDoubleSided bInSmoothNormals : Bool)
    (i : Nat) (hi : (i : Int) < N) (hi1 : 1 ≤ i) :
    ∃ rest, (cylinderVertices E InHeight InWidth N true bInDoubleSided bInSmoothNormals
        ++ V).drop (vertexCursor true bInDoubleSided i + (if bInDoubleSided then 8 else 4))
      = (bottomCapVertices E (((i : Int) : α) * ((2 / (N : α)) * E.PI))
          ((((i : Int) + 1 : Int) : α) * ((2 / (N : α)) * E.PI))
          (circlePoint E InWidth (((i : Int) : α) * ((2 / (N : α)) * E.PI)))
          (circlePoint E InWidth ((((i : Int) + 1 : Int) : α) * ((2 / (N : α)) * E.PI)))
          (circlePoint E InWidth 0)
          (circlePoint E InWidth (((i : Int) : α) * ((2 / (N : α)) * E.PI)))
          (circlePoint E InWidth ((((i : Int) + 1 : Int) : α) * ((2 / (N : α)) * E.PI)))
        ++ topCapVertices E (((i : Int) : α) * ((2 / (N : α)) * E.PI))
          ((((i : Int) + 1 : Int) : α) * ((2 / (N : α)) * E.PI))
          (circlePoint E InWidth (((i : Int) : α) * ((2 / (N : α)) * E.PI)))
          (circlePoint E InWidth ((((i : Int) + 1 : Int) : α) * ((2 / (N : α)) * E.PI)))
          (circlePoint E InWidth 0 + ⟨0, 0, InHeight⟩)
          (circlePoint E InWidth (((i : Int) : α) * ((2 / (N : α)) * E.PI)) + ⟨0, 0, InHeight⟩)
          (circlePoint E InWidth ((((i : Int) + 1 : Int) : α) * ((2 / (N : α)) * E.PI))
            + ⟨0, 0, InHeight⟩))
        ++ rest := by
  obtain ⟨rest, h⟩ := run_segment_window E V InHeight InWidth N true bInDoubleSided
    bInSmoothNormals i hi
  have hc : emitsCaps true (i : Int) = true := by
    obtain ⟨k, rfl⟩ : ∃ k, i = k + 1 := ⟨i - 1, by omega⟩
    exact emitsCaps_succ true k
  refine ⟨rest, ?_⟩
  rw [drop_add_of_drop_eq h]
  unfold segmentVertices
  rw [hc]
  cases bInDoubleSided <;> rfl

/-- In the index buffer after a capped run, for a segment `i ≥ 1`: after the indices of the
side quad (and of the mirrored quad) come the three of the bottom cap triangle and the three
of the top cap triangle. -/
theorem run_caps_index_window (T : List Int) (N : Int) (bInDoubleSided : Bool)
    (i : Nat) (hi : (i : Int) < N) (hi1 : 1 ≤ i) :
    ∃ rest, (cylinderIndices N true bInDoubleSided ++ T).drop
        (triangleCursor true bInDoubleSided i + (if bInDoubleSided then 12 else 6))
      = (bottomCapIndices (vertexCursor true bInDoubleSided i + (if bInDoubleSided then 8 else 4))
        ++ topCapIndices
          (vertexCursor true bInDoubleSided i + (if bInDoubleSided then 8 else 4) + 3))
        ++ rest := by
  obtain ⟨rest, h⟩ := run_segment_index_window T N true bInDoubleSided i hi
  have hc : emitsCaps true (i : Int) = true := by
    obtain ⟨k, rfl⟩ : ∃ k, i = k + 1 := ⟨i - 1, by omega⟩
    exact emitsCaps_succ true k
  refine ⟨rest, ?_⟩
  rw [drop_add_of_drop_eq h]
  unfold segmentIndices
  rw [hc]
  cases bInDoubleSided <;> rfl

end CapWindows

section CapNormals

variable {α : Type} [Field α]

/-- Raising the three corners of a triangle by the same offset leaves its cross product as it
is: the top cap triangle has the cross product of the bottom one. -/
theorem cross_offset (A B C Offset : FVector α) :
    FVector.CrossProduct ((A + Offset) - (C + Offset)) ((B + Offset) - (C + Offset))
      = FVector.CrossProduct (A - C) (B - C) := by
  ext <;> simp [FVector.CrossProduct]

/-- `NormalCurrent` of a triangle is that of the triangle raised by an offset. -/
theorem NormalCurrent_offset (E : Engine α) (A B C Offset : FVector α) :
    NormalCurrent E (A + Offset) (B + Offset) (C + Offset) = NormalCurrent E A B C := by
  unfold NormalCurrent
  rw [cross_offset]

/-- The cross product of a triangle whose first and third corner coincide is the zero vector. -/
theorem cross_degenerate (A B : FVector α) :
    FVector.CrossProduct (A - A) (B - A) = ⟨0, 0, 0⟩ := by
  ext <;> simp [FVector.CrossProduct]

/-- The cross product of a triangle in the plane of the circle points along the axis. -/
theorem cross_circlePoints (E : Engine α) (InWidth a b c : α) :
    (FVector.CrossProduct (circlePoint E InWidth a - circlePoint E InWidth c)
        (circlePoint E InWidth b - circlePoint E InWidth c)).X = 0 ∧
    (FVector.CrossProduct (circlePoint E InWidth a - circlePoint E InWidth c)
        (circlePoint E InWidth b - circlePoint E InWidth c)).Y = 0 := by
  constructor <;> simp [FVector.CrossProduct, circlePoint]

/-- The tangent `p0 - p1` of a segment is orthogonal to the cross product behind the flat
normal of its side quad, whatever the offset to the top rim. -/
theorem tangent_dot_side_cross (P0 P1 Offset : FVector α) :
    FVector.DotProduct (P0 - P1)
      (FVector.CrossProduct (P0 - (P1 + Offset)) (P1 - (P1 + Offset))) = 0 := by
  simp only [FVector.DotProduct, FVector.CrossProduct, FVector.sub_X, FVector.sub_Y,
    FVector.sub_Z, FVector.add_X, FVector.add_Y, FVector.add_Z]
  ring

/-- The tangent of a segment lies in the plane of the circle and is orthogonal to the cross
product of a cap triangle, which points along the axis. -/
theorem tangent_dot_cap_cross (E : Engine α) (InWidth a b c : α) :
    (circlePoint E InWidth a - circlePoint E InWidth b).Z = 0 ∧
    FVector.DotProduct (circlePoint E InWidth a - circlePoint E InWidth b)
      (FVector.CrossProduct (circlePoint E InWidth c - circlePoint E InWidth b)
        (circlePoint E InWidth a - circlePoint E InWidth b)) = 0 := by
  constructor
  · simp [circlePoint]
  · simp only [FVector.DotProduct, FVector.CrossProduct, FVector.sub_X, FVector.sub_Y,
      FVector.sub_Z, circlePoint]
    ring

/-- Every vertex of a segment carries the tangent of the segment. -/
theorem segmentVertices_tangent (E : Engine α) (InWidth AngleBetweenQuads VMapPerQuad : α)
    (Offset : FVector α) (bInCapEnds bInDoubleSided bInSmoothNormals : Bool) (QuadIndex : Int) :
    ∀ v ∈ segmentVertices E InWidth AngleBetweenQuads VMapPerQuad Offset
      bInCapEnds bInDoubleSided bInSmoothNormals QuadIndex,
    v.Tangent = E.FPackedNormal (E.GetSafeNormal
      (circlePoint E InWidth ((QuadIndex : α) * AngleBetweenQuads)
        - circlePoint E InWidth (((QuadIndex + 1 : Int) : α) * AngleBetweenQuads))) := by
  unfold segmentVertices
  cases bInDoubleSided <;> cases h : emitsCaps bInCapEnds QuadIndex <;>
    simp only [h, sideQuadVertices, doubleSidedVertices, bottomCapVertices, topCapVertices,
      Bool.false_eq_true, if_false, if_true, List.append_nil, List.forall_mem_append,
      List.forall_mem_cons, List.not_mem_nil, IsEmpty.forall_iff, implies_true, and_true] <;>
    repeat' (first | rfl | constructor)

end CapNormals

section CapTrigonometry

/-- For the angles `0`, `a`, `b`: `sin a - sin b + sin (b - a)` is
`4 sin (a/2) sin (b/2) sin ((b-a)/2)`. -/
theorem sin_fan (a b : ℝ) :
    Real.sin a - Real.sin b + Real.sin (b - a)
      = 4 * Real.sin (a / 2) * Real.sin (b / 2) * Real.sin ((b - a) / 2) := by
  have ha : a = 2 * (a / 2) := by ring
  have hb : b = 2 * (b / 2) := by ring
  have hx := Real.sin_sq_add_cos_sq (a / 2)
  have hy := Real.sin_sq_add_cos_sq (b / 2)
  have hd : (b - a) / 2 = b / 2 - a / 2 := by ring
  have hba : b - a = 2 * (b / 2 - a / 2) := by ring
  rw [hd, hba]
  nth_rewrite 1 [ha]
  nth_rewrite 1 [hb]
  rw [Real.sin_two_mul, Real.sin_two_mul, Real.sin_two_mul, Real.sin_sub, Real.cos_sub]
  linear_combination (2 * Real.sin (b / 2) * Real.cos (b / 2)) * hx
    - (2 * Real.sin (a / 2) * Real.cos (a / 2)) * hy

/-- The cross product of the cap triangle with corners at the angles `0`, `a`, `b` has the
`z` component `radius² * (sin a - sin b + sin (b - a))`. -/
theorem cap_cross_Z (E : Engine ℝ) (hcos : E.Cos = Real.cos) (hsin : E.Sin = Real.sin)
    (InWidth a b : ℝ) :
    (FVector.CrossProduct (circlePoint E InWidth 0 - circlePoint E InWidth b)
        (circlePoint E InWidth a - circlePoint E InWidth b)).Z
      = InWidth ^ 2 * (Real.sin a - Real.sin b + Real.sin (b - a)) := by
  rw [Real.sin_sub]
  simp only [FVector.CrossProduct, circlePoint, hcos, hsin, FVector.sub_X, FVector.sub_Y,
    Real.cos_zero, Real.sin_zero]
  ring

/-- For a segment `i` with `1 ≤ i ≤ N-2` the cap triangle is wound so that its cross product
points up the axis. -/
theorem cap_cross_Z_pos (E : Engine ℝ) (hcos : E.Cos = Real.cos) (hsin : E.Sin = Real.sin)
    (hpi : E.PI = Real.pi) (N : Int) (i : Nat) (hi1 : 1 ≤ i) (hi : (i : Int) ≤ N - 2)
    (InWidth : ℝ) (hr : InWidth ≠ 0) :
    0 < (FVector.CrossProduct
        (circlePoint E InWidth 0
          - circlePoint E InWidth ((((i : Int) + 1 : Int) : ℝ) * ((2 / (N : ℝ)) * E.PI)))
        (circlePoint E InWidth (((i : Int) : ℝ) * ((2 / (N : ℝ)) * E.PI))
          - circlePoint E InWidth ((((i : Int) + 1 : Int) : ℝ) * ((2 / (N : ℝ)) * E.PI)))).Z := by
  rw [cap_cross_Z E hcos hsin, sin_fan, hpi]
  have hNr : ((i : ℝ) + 2) ≤ (N : ℝ) := by
    have : ((i : Int) + 2 : Int) ≤ N := by omega
    exact_mod_cast this
  have hi0 : (1 : ℝ) ≤ (i : ℝ) := by exact_mod_cast hi1
  have hNpos : (0 : ℝ) < (N : ℝ) := by linarith
  have hpi0 := Real.pi_pos
  have ha : ((i : Int) : ℝ) * (2 / (N : ℝ) * Real.pi) / 2 = (i : ℝ) / (N : ℝ) * Real.pi := by
    push_cast; field_simp; ring
  have hb : (((i : Int) + 1 : Int) : ℝ) * (2 / (N : ℝ) * Real.pi) / 2
      = ((i : ℝ) + 1) / (N : ℝ) * Real.pi := by
    push_cast; field_simp; ring
  have hd : ((((i : Int) + 1 : Int) : ℝ) * (2 / (N : ℝ) * Real.pi)
      - ((i : Int) : ℝ) * (2 / (N : ℝ) * Real.pi)) / 2 = 1 / (N : ℝ) * Real.pi := by
    push_cast; field_simp; ring
  rw [ha, hb, hd]
  have lt1 : ∀ x : ℝ, 0 < x → x < (N : ℝ) →
      0 < x / (N : ℝ) * Real.pi ∧ x / (N : ℝ) * Real.pi < Real.pi := by
    intro x hx0 hxN
    have h1 : 0 < x / (N : ℝ) := div_pos hx0 hNpos
    have h2 : x / (N : ℝ) < 1 := by rw [div_lt_one hNpos]; exact hxN
    constructor
    · positivity
    · nlinarith
  obtain ⟨a0, a1⟩ := lt1 (i : ℝ) (by linarith) (by linarith)
  obtain ⟨b0, b1⟩ := lt1 ((i : ℝ) + 1) (by linarith) (by linarith)
  obtain ⟨d0, d1⟩ := lt1 1 (by linarith) (by linarith)
  have s1 := Real.sin_pos_of_pos_of_lt_pi a0 a1
  have s2 := Real.sin_pos_of_pos_of_lt_pi b0 b1
  have s3 := Real.sin_pos_of_pos_of_lt_pi d0 d1
  have hr2 : 0 < InWidth ^ 2 := by positivity
  positivity

end CapTrigonometry

section Smoothing

variable {α : Type} [Field α]

/-- Within one segment `bInSmoothNormals` changes nothing but the normals of the first four
vertices, those of the primary quad. -/
theorem segmentVertices_smooth (E : Engine α) (InWidth AngleBetweenQuads VMapPerQuad : α)
    (Offset : FVector α) (bInCapEnds bInDoubleSided : Bool) (QuadIndex : Int) :
    (segmentVertices E InWidth AngleBetweenQuads VMapPerQuad Offset bInCapEnds bInDoubleSided
        true QuadIndex).map (·.Position)
      = (segmentVertices E InWidth AngleBetweenQuads VMapPerQuad Offset bInCapEnds
        bInDoubleSided false QuadIndex).map (·.Position) ∧
    (segmentVertices E InWidth AngleBetweenQuads VMapPerQuad Offset bInCapEnds bInDoubleSided
        true QuadIndex).map (·.UV0)
      = (segmentVertices E InWidth AngleBetweenQuads VMapPerQuad Offset bInCapEnds
        bInDoubleSided false QuadIndex).map (·.UV0) ∧
    (segmentVertices E InWidth AngleBetweenQuads VMapPerQuad Offset bInCapEnds bInDoubleSided
        true QuadIndex).map (·.Tangent)
      = (segmentVertices E InWidth AngleBetweenQuads VMapPerQuad Offset bInCapEnds
        bInDoubleSided false QuadIndex).map (·.Tangent) ∧
    (segmentVertices E InWidth AngleBetweenQuads VMapPerQuad Offset bInCapEnds bInDoubleSided
        true QuadIndex).drop 4
      = (segmentVertices E InWidth AngleBetweenQuads VMapPerQuad Offset bInCapEnds
        bInDoubleSided false QuadIndex).drop 4 := by
  unfold segmentVertices
  cases bInDoubleSided <;> cases h : emitsCaps bInCapEnds QuadIndex <;>
    exact ⟨rfl, rfl, rfl, rfl⟩

/-- Over any number of iterations `bInSmoothNormals` changes no position, UV or tangent. -/
theorem emittedVertices_smooth (E : Engine α) (InWidth AngleBetweenQuads VMapPerQuad : α)
    (Offset : FVector α) (bInCapEnds bInDoubleSided : Bool) (n : Nat) :
    (emittedVertices E InWidth AngleBetweenQuads VMapPerQuad Offset bInCapEnds bInDoubleSided
        true n).map (·.Position)
      = (emittedVertices E InWidth AngleBetweenQuads VMapPerQuad Offset bInCapEnds
        bInDoubleSided false n).map (·.Position) ∧
    (emittedVertices E InWidth AngleBetweenQuads VMapPerQuad Offset bInCapEnds bInDoubleSided
        true n).map (·.UV0)
      = (emittedVertices E InWidth AngleBetweenQuads VMapPerQuad Offset bInCapEnds
        bInDoubleSided false n).map (·.UV0) ∧
    (emittedVertices E InWidth AngleBetweenQuads VMapPerQuad Offset bInCapEnds bInDoubleSided
        true n).map (·.Tangent)
      = (emittedVertices E InWidth AngleBetweenQuads VMapPerQuad Offset bInCapEnds
        bInDoubleSided false n).map (·.Tangent) := by
  induction n with
  | zero => exact ⟨rfl, rfl, rfl⟩
  | succ n ih =>
    obtain ⟨h1, h2, h3, -⟩ := segmentVertices_smooth E InWidth AngleBetweenQuads VMapPerQuad
      Offset bInCapEnds bInDoubleSided (n : Int)
    simp only [emittedVertices, List.map_append, ih.1, ih.2.1, ih.2.2, h1, h2, h3, and_self]

end Smoothing

section Lifecycle

variable {α : Type} [LinearOrderedField α]

/-- `OnConstruction` with at least one segment: the buffers are emptied, `SetupMeshBuffers`
appends its slots to the empty buffers, and `GenerateMesh` runs on the result, whose flag is
still the one `OnConstruction` found. -/
theorem OnConstruction_eq (E : Engine α) (U : Uninit α) (A : ASimpleCylinderActor α)
    (hN : 1 ≤ A.RadialSegmentCount) :
    OnConstruction E U A = GenerateMesh E U { A with
      Vertices := (List.range
        (vertexCursor A.bCapEnds A.bDoubleSided A.RadialSegmentCount.toNat)).map
          (fun k => U.vertex k),
      Triangles := (List.range
        (triangleCursor A.bCapEnds A.bDoubleSided A.RadialSegmentCount.toNat)).map
          (fun k => U.index k) } := by
  unfold OnConstruction
  refine bind_eq_of_eq_some
    (SetupMeshBuffers_eq U { A with Vertices := [], Triangles := [] } hN) ?_
  simp

end Lifecycle

/-! ## The counts in `int32`, the cap triangles of a run, and a rational `PI` -/

section Int32

/-- An `int32` operation whose exact result is in range returns it. -/
theorem wrapInt32_of_inRange (x : Int) (h0 : -2147483648 ≤ x) (h1 : x ≤ 2147483647) :
    wrapInt32 x = x := by
  unfold wrapInt32
  omega

/-- With at least one segment and a vertex count of at most `INT32_MAX`, no operation of the
`int32` computation of `VertexCount` overflows: it returns the count computed on `Int`. -/
theorem VertexCountInt32_eq (N : Int) (hN : 1 ≤ N) (bCapEnds bDoubleSided : Bool)
    (h : SetupMeshBuffers.VertexCount N bCapEnds bDoubleSided ≤ INT32_MAX) :
    SetupMeshBuffers.VertexCountInt32 N bCapEnds bDoubleSided
      = SetupMeshBuffers.VertexCount N bCapEnds bDoubleSided := by
  unfold SetupMeshBuffers.VertexCount INT32_MAX at h
  unfold SetupMeshBuffers.VertexCountInt32 SetupMeshBuffers.VertexCount wrapInt32
  cases bCapEnds <;> cases bDoubleSided <;>
    simp only [if_true, if_false, Bool.false_eq_true] at h ⊢ <;> omega

/-- With at least one segment and an index count of at most `INT32_MAX`, no operation of the
`int32` computation of `TriangleCount` overflows: it returns the count computed on `Int`. -/
theorem TriangleCountInt32_eq (N : Int) (hN : 1 ≤ N) (bCapEnds bDoubleSided : Bool)
    (h : SetupMeshBuffers.TriangleCount N bCapEnds bDoubleSided ≤ INT32_MAX) :
    SetupMeshBuffers.TriangleCountInt32 N bCapEnds bDoubleSided
      = SetupMeshBuffers.TriangleCount N bCapEnds bDoubleSided := by
  unfold SetupMeshBuffers.TriangleCount INT32_MAX at h
  unfold SetupMeshBuffers.TriangleCountInt32 SetupMeshBuffers.TriangleCount wrapInt32
  cases bCapEnds <;> cases bDoubleSided <;>
    simp only [if_true, if_false, Bool.false_eq_true] at h ⊢ <;> omega

/-- Beyond the range the `int32` computation wraps: `2^29` segments give a vertex count of
`-2^31`, and `357913942` segments a negative index count. -/
theorem CountInt32_overflow :
    SetupMeshBuffers.VertexCountInt32 536870912 false false = -2147483648 ∧
    SetupMeshBuffers.VertexCount 536870912 false false = 2147483648 ∧
    SetupMeshBuffers.TriangleCountInt32 357913942 false false = -2147483644 ∧
    SetupMeshBuffers.TriangleCount 357913942 false false = 2147483652 := by
  decide

end Int32

section LevelTriangles

variable {α : Type}

theorem vertexOfIndex_natCast (V : List (FRuntimeMeshVertexSimple α)) (k : Nat) :
    vertexOfIndex V ((k : Nat) : Int) = V[k]? := by
  simp [vertexOfIndex]

variable [DecidableEq α]

/-- A triangle whose corners are three vertices of the buffer is level exactly when they have
one height. -/
theorem isLevelTriangle_eq (V : List (FRuntimeMeshVertexSimple α)) (a b c : Nat)
    (x y z : FRuntimeMeshVertexSimple α)
    (ha : V[a]? = some x) (hb : V[b]? = some y) (hc : V[c]? = some z) :
    isLevelTriangle V (a : Int) (b : Int) (c : Int)
      = (decide (x.Position.Z = y.Position.Z) && decide (y.Position.Z = z.Position.Z)) := by
  simp only [isLevelTriangle, vertexOfIndex_natCast, ha, hb, hc]

/-- The two triangles of a primary side quad are not level when its two rims differ in
height. -/
theorem countLevelTriangles_sideQuad (V : List (FRuntimeMeshVertexSimple α)) (v : Nat)
    (w0 w1 w2 w3 : FRuntimeMeshVertexSimple α) (l : List Int)
    (h0 : V[v]? = some w0) (h1 : V[v + 1]? = some w1) (h2 : V[v + 2]? = some w2)
    (h3 : V[v + 3]? = some w3)
    (hz0 : w2.Position.Z ≠ w0.Position.Z) (hz1 : w2.Position.Z ≠ w1.Position.Z) :
    countLevelTriangles V (sideQuadIndices v ++ l) = countLevelTriangles V l := by
  simp only [sideQuadIndices, List.cons_append, List.nil_append, countLevelTriangles,
    isLevelTriangle_eq V _ _ _ _ _ _ h3 h2 h0, isLevelTriangle_eq V _ _ _ _ _ _ h2 h1 h0]
  simp [hz0, hz1]

/-- The two triangles of a mirrored quad are not level when its two rims differ in height. -/
theorem countLevelTriangles_doubleSided (V : List (FRuntimeMeshVertexSimple α)) (v : Nat)
    (w0 w1 w2 w3 : FRuntimeMeshVertexSimple α) (l : List Int)
    (h0 : V[v]? = some w0) (h1 : V[v + 1]? = some w1) (h2 : V[v + 2]? = some w2)
    (h3 : V[v + 3]? = some w3)
    (hz0 : w0.Position.Z ≠ w2.Position.Z) :
    countLevelTriangles V (doubleSidedIndices v ++ l) = countLevelTriangles V l := by
  simp only [doubleSidedIndices, List.cons_append, List.nil_append, countLevelTriangles,
    isLevelTriangle_eq V _ _ _ _ _ _ h3 h0 h2, isLevelTriangle_eq V _ _ _ _ _ _ h2 h0 h1]
  simp [hz0, Ne.symm hz0]

/-- The bottom and the top cap triangle of a segment are level. -/
theorem countLevelTriangles_caps (V : List (FRuntimeMeshVertexSimple α)) (v : Nat)
    (w0 w1 w2 u0 u1 u2 : FRuntimeMeshVertexSimple α) (l : List Int)
    (h0 : V[v]? = some w0) (h1 : V[v + 1]? = some w1) (h2 : V[v + 2]? = some w2)
    (g0 : V[v + 3]? = some u0) (g1 : V[v + 3 + 1]? = some u1) (g2 : V[v + 3 + 2]? = some u2)
    (hw1 : w0.Position.Z = w1.Position.Z) (hw2 : w1.Position.Z = w2.Position.Z)
    (hu1 : u2.Position.Z = u1.Position.Z) (hu2 : u1.Position.Z = u0.Position.Z) :
    countLevelTriangles V (bottomCapIndices v ++ (topCapIndices (v + 3) ++ l))
      = 2 + countLevelTriangles V l := by
  simp only [bottomCapIndices, topCapIndices, List.cons_append, List.nil_append,
    countLevelTriangles, isLevelTriangle_eq V _ _ _ _ _ _ h0 h1 h2,
    isLevelTriangle_eq V _ _ _ _ _ _ g2 g1 g0]
  simp [hw1, hw2, hu1, hu2]
  omega

end LevelTriangles

section LevelTrianglesOfARun

variable {α : Type} [Field α] [DecidableEq α]

/-- In a vertex buffer that holds the vertices of segment `i` from slot `v` on, with a height
other than `0`, the level triangles among the indices of the segment are its two cap
triangles, if it has them. -/
theorem countLevelTriangles_segment (E : Engine α) (InHeight InWidth AngleBetweenQuads
    VMapPerQuad : α) (hH : InHeight ≠ 0) (bInCapEnds bInDoubleSided bInSmoothNormals : Bool)
    (QuadIndex : Int) (Vtot rest : List (FRuntimeMeshVertexSimple α)) (v : Nat) (l : List Int)
    (hw : Vtot.drop v = segmentVertices E InWidth AngleBetweenQuads VMapPerQuad ⟨0, 0, InHeight⟩
      bInCapEnds bInDoubleSided bInSmoothNormals QuadIndex ++ rest) :
    countLevelTriangles Vtot (segmentIndices bInCapEnds bInDoubleSided QuadIndex v ++ l)
      = (if emitsCaps bInCapEnds QuadIndex then 2 else 0) + countLevelTriangles Vtot l := by
  have hz : (0 : α) + InHeight ≠ 0 := by simpa using hH
  have hz2 : (0 : α) ≠ 0 + InHeight := fun h => hz h.symm
  have hlen := segmentVertices_length E InWidth AngleBetweenQuads VMapPerQuad ⟨0, 0, InHeight⟩
    bInCapEnds bInDoubleSided bInSmoothNormals QuadIndex
  have rd : ∀ k, k < segmentVertexCount bInCapEnds bInDoubleSided QuadIndex →
      Vtot[v + k]? = (segmentVertices E InWidth AngleBetweenQuads VMapPerQuad ⟨0, 0, InHeight⟩
        bInCapEnds bInDoubleSided bInSmoothNormals QuadIndex)[k]? :=
    fun k hk => getElem?_of_drop_eq hw k (by rw [hlen]; exact hk)
  unfold segmentIndices
  unfold segmentVertices at rd
  unfold segmentVertexCount at rd
  cases bInDoubleSided <;> cases h : emitsCaps bInCapEnds QuadIndex <;>
    simp only [h, if_true, if_false, Bool.false_eq_true, List.append_nil, List.append_assoc,
      Nat.add_zero, Nat.zero_add] at rd ⊢
  · rw [countLevelTriangles_sideQuad Vtot v _ _ _ _ l ((rd 0 (by omega)).trans rfl)
      ((rd 1 (by omega)).trans rfl) ((rd 2 (by omega)).trans rfl)
      ((rd 3 (by omega)).trans rfl) hz hz]
  · rw [countLevelTriangles_sideQuad Vtot v _ _ _ _ _ ((rd 0 (by omega)).trans rfl)
      ((rd 1 (by omega)).trans rfl) ((rd 2 (by omega)).trans rfl)
      ((rd 3 (by omega)).trans rfl) hz hz,
      countLevelTriangles_caps Vtot (v + 4) _ _ _ _ _ _ l ((rd 4 (by omega)).trans rfl)
      ((rd 5 (by omega)).trans rfl) ((rd 6 (by omega)).trans rfl)
      ((rd 7 (by omega)).trans rfl) ((rd 8 (by omega)).trans rfl)
      ((rd 9 (by omega)).trans rfl) rfl rfl rfl rfl]
  · rw [countLevelTriangles_sideQuad Vtot v _ _ _ _ _ ((rd 0 (by omega)).trans rfl)
      ((rd 1 (by omega)).trans rfl) ((rd 2 (by omega)).trans rfl)
      ((rd 3 (by omega)).trans rfl) hz hz,
      countLevelTriangles_doubleSided Vtot (v + 4) _ _ _ _ l ((rd 4 (by omega)).trans rfl)
      ((rd 5 (by omega)).trans rfl) ((rd 6 (by omega)).trans rfl)
      ((rd 7 (by omega)).trans rfl) hz2]
  · rw [countLevelTriangles_sideQuad Vtot v _ _ _ _ _ ((rd 0 (by omega)).trans rfl)
      ((rd 1 (by omega)).trans rfl) ((rd 2 (by omega)).trans rfl)
      ((rd 3 (by omega)).trans rfl) hz hz,
      countLevelTriangles_doubleSided Vtot (v + 4) _ _ _ _ _ ((rd 4 (by omega)).trans rfl)
      ((rd 5 (by omega)).trans rfl) ((rd 6 (by omega)).trans rfl)
      ((rd 7 (by omega)).trans rfl) hz2,
      countLevelTriangles_caps Vtot (v + 4 + 4) _ _ _ _ _ _ l ((rd 8 (by omega)).trans rfl)
      ((rd 9 (by omega)).trans rfl) ((rd 10 (by omega)).trans rfl)
      ((rd 11 (by omega)).trans rfl) ((rd 12 (by omega)).trans rfl)
      ((rd 13 (by omega)).trans rfl) rfl rfl rfl rfl]

/-- In the vertex buffer of a run of non-zero height, the level triangles among the indices
of the first `n ≤ N` iterations are the cap triangles these iterations wrote. -/
theorem countLevelTriangles_emitted (E : Engine α) (V : List (FRuntimeMeshVertexSimple α))
    (InHeight InWidth : α) (hH : InHeight ≠ 0) (N : Int)
    (bInCapEnds bInDoubleSided bInSmoothNormals : Bool) (n : Nat) (hn : n ≤ N.toNat)
    (l : List Int) :
    countLevelTriangles
        (cylinderVertices E InHeight InWidth N bInCapEnds bInDoubleSided bInSmoothNormals ++ V)
        (emittedIndices bInCapEnds bInDoubleSided n ++ l)
      = capTriangleCursor bInCapEnds n + countLevelTriangles
        (cylinderVertices E InHeight InWidth N bInCapEnds bInDoubleSided bInSmoothNormals ++ V)
        l := by
  induction n generalizing l with
  | zero => simp [emittedIndices, capTriangleCursor]
  | succ n ih =>
    obtain ⟨rest, hw⟩ := run_segment_window E V InHeight InWidth N bInCapEnds bInDoubleSided
      bInSmoothNormals n (by omega)
    rw [emittedIndices, List.append_assoc, ih (by omega),
      countLevelTriangles_segment E InHeight InWidth _ _ hH _ _ _ _ _ rest _ l hw,
      capTriangleCursor, Nat.add_assoc]

/-- The cap triangles counted in the buffers a run of non-zero height returns are the triangles
its cap block wrote. -/
theorem capTriangleCount_run (E : Engine α) (V : List (FRuntimeMeshVertexSimple α))
    (T : List Int) (InHeight InWidth : α) (hH : InHeight ≠ 0) (N : Int)
    (bInCapEnds bInDoubleSided bInSmoothNormals : Bool) (k : Nat) :
    CylinderRun.capTriangleCount
        (⟨cylinderVertices E InHeight InWidth N bInCapEnds bInDoubleSided bInSmoothNormals ++ V,
          cylinderIndices N bInCapEnds bInDoubleSided ++ T,
          vertexCursor bInCapEnds bInDoubleSided N.toNat,
          triangleCursor bInCapEnds bInDoubleSided N.toNat, k⟩ : CylinderRun α)
      = capTriangleCursor bInCapEnds N.toNat := by
  unfold CylinderRun.capTriangleCount
  simp only
  rw [List.take_left' (cylinderIndices_length _ _ _)]
  have h := countLevelTriangles_emitted E V InHeight InWidth hH N bInCapEnds bInDoubleSided
    bInSmoothNormals N.toNat (le_refl _) []
  rw [List.append_nil] at h
  rw [cylinderIndices, h]
  simp [countLevelTriangles]

end LevelTrianglesOfARun

section RationalPi

/-- The sine of a rational number other than `0` is not `0`: `π` is irrational. -/
theorem sin_ratCast_ne_zero (q : ℚ) (hq : q ≠ 0) : Real.sin (q : ℝ) ≠ 0 := by
  intro h
  obtain ⟨n, hn⟩ := Real.sin_eq_zero_iff.mp h
  have hn0 : n ≠ 0 := by
    rintro rfl
    apply hq
    have : (q : ℝ) = 0 := by rw [← hn]; simp
    exact_mod_cast this
  have hirr : Irrational ((n : ℝ) * Real.pi) := irrational_pi.int_mul hn0
  rw [hn] at hirr
  exact Rat.not_irrational q hirr

/-- The angles of the cap triangle of the last segment, for a constant `PI` that is a rational
number `q`: the next corner lies at `2q`, and the half angles are `(N-1)/N * q`, `q`, `q/N`. -/
theorem last_cap_angles (N : Int) (hN : 2 ≤ N) (i : Nat) (hi : (i : Int) = N - 1) (q : ℚ) :
    (((i : Int) + 1 : Int) : ℝ) * (2 / (N : ℝ) * (q : ℝ)) = ((2 * q : ℚ) : ℝ) ∧
    ((i : Int) : ℝ) * (2 / (N : ℝ) * (q : ℝ)) / 2
      = (((((N - 1 : Int) : ℚ) / ((N : Int) : ℚ)) * q : ℚ) : ℝ) ∧
    (((i : Int) + 1 : Int) : ℝ) * (2 / (N : ℝ) * (q : ℝ)) / 2 = ((q : ℚ) : ℝ) ∧
    ((((i : Int) + 1 : Int) : ℝ) * (2 / (N : ℝ) * (q : ℝ))
      - ((i : Int) : ℝ) * (2 / (N : ℝ) * (q : ℝ))) / 2 = (((q / ((N : Int) : ℚ)) : ℚ) : ℝ) := by
  have hN0 : (N : ℝ) ≠ 0 := by
    have : (2 : ℝ) ≤ (N : ℝ) := by exact_mod_cast hN
    linarith
  have h1 : (((i : Int) + 1 : Int) : ℝ) = (N : ℝ) := by
    have : (i : Int) + 1 = N := by omega
    rw [this]
  have h0 : ((i : Int) : ℝ) = (N : ℝ) - 1 := by
    rw [hi]; push_cast; ring
  refine ⟨?_, ?_, ?_, ?_⟩
  · rw [h1]; push_cast; field_simp
  · rw [h0]; push_cast; field_simp; ring
  · rw [h1]; field_simp
  · rw [h1, h0]; push_cast; field_simp; ring

/-- With the real cosine and sine and a rational constant `PI` other than `0` (every
floating-point constant is rational), and a radius other than `0`: the next corner of the cap
triangles of the last segment is not the anchor corner, and their cross product is not the
zero vector. -/
theorem last_cap_not_degenerate (E : Engine ℝ) (hcos : E.Cos = Real.cos)
    (hsin : E.Sin = Real.sin) (q : ℚ) (hq : E.PI = (q : ℝ)) (hq0 : q ≠ 0)
    (N : Int) (hN : 2 ≤ N) (i : Nat) (hi : (i : Int) = N - 1) (InWidth : ℝ) (hr : InWidth ≠ 0) :
    circlePoint E InWidth ((((i : Int) + 1 : Int) : ℝ) * ((2 / (N : ℝ)) * E.PI))
      ≠ circlePoint E InWidth 0 ∧
    (FVector.CrossProduct
        (circlePoint E InWidth 0
          - circlePoint E InWidth ((((i : Int) + 1 : Int) : ℝ) * ((2 / (N : ℝ)) * E.PI)))
        (circlePoint E InWidth (((i : Int) : ℝ) * ((2 / (N : ℝ)) * E.PI))
          - circlePoint E InWidth ((((i : Int) + 1 : Int) : ℝ) * ((2 / (N : ℝ)) * E.PI)))).Z
      ≠ 0 := by
  obtain ⟨hb, ha2, hb2, hd2⟩ := last_cap_angles N hN i hi q
  have hNq : ((N : Int) : ℚ) ≠ 0 := by
    have : (2 : ℚ) ≤ ((N : Int) : ℚ) := by exact_mod_cast hN
    intro h0
    rw [h0] at this
    norm_num at this
  have hN1q : (((N - 1 : Int)) : ℚ) ≠ 0 := by
    have : (1 : ℚ) ≤ (((N - 1 : Int)) : ℚ) := by
      have h1 : (1 : Int) ≤ N - 1 := by omega
      exact_mod_cast h1
    intro h0
    rw [h0] at this
    norm_num at this
  constructor
  · intro h
    have hY := congrArg FVector.Y h
    simp only [circlePoint, hcos, hsin, Real.sin_zero, zero_mul] at hY
    rw [hq, hb] at hY
    rcases mul_eq_zero.mp hY with h0 | h0
    · exact sin_ratCast_ne_zero _ (mul_ne_zero two_ne_zero hq0) h0
    · exact hr h0
  · rw [cap_cross_Z E hcos hsin, sin_fan, hq, ha2, hb2, hd2]
    have s1 := sin_ratCast_ne_zero _ (mul_ne_zero (div_ne_zero hN1q hNq) hq0)
    have s2 := sin_ratCast_ne_zero _ hq0
    have s3 := sin_ratCast_ne_zero _ (div_ne_zero hq0 hNq)
    have hr2 : InWidth ^ 2 ≠ 0 := pow_ne_zero 2 hr
    exact mul_ne_zero hr2 (mul_ne_zero (mul_ne_zero (mul_ne_zero four_ne_zero s1) s2) s3)

end RationalPi

/-! ## The claims -/

section Claims

variable {α : Type} [Field α]

/-- C1. For every `RadialSegmentCount ≥ 1` whose counts fit `int32`, and every combination of the
three flags, `GenerateCylinder` run on the buffers `SetupMeshBuffers` allocates (from empty
ones) for the same configuration returns, its final `VertexIndex` and `TriangleIndex` equal the
allocated vertex and index counts (the `int32` values `SetupMeshBuffers` computes), which are
the lengths of the buffers, and every slot is written: the result is the same whatever the
uninitialised slots held. -/
theorem C1_GenerateCylinder_writes_exactly_the_allocated_slots
    (E : Engine α) (U U2 : Uninit α) (A : ASimpleCylinderActor α)
    (hN : 1 ≤ A.RadialSegmentCount)
    (hIV : SetupMeshBuffers.VertexCount A.RadialSegmentCount A.bCapEnds A.bDoubleSided
      ≤ INT32_MAX)
    (hIT : SetupMeshBuffers.TriangleCount A.RadialSegmentCount A.bCapEnds A.bDoubleSided
      ≤ INT32_MAX)
    (hV : A.Vertices = []) (hT : A.Triangles = []) :
    ∃ B B2 r, SetupMeshBuffers U A = some B ∧ SetupMeshBuffers U2 A = some B2 ∧
      GenerateCylinder E B.Vertices B.Triangles A.Height A.Radius A.RadialSegmentCount
        A.bCapEnds A.bDoubleSided A.bSmoothNormals = some r ∧
      (r.VertexIndex : Int)
        = SetupMeshBuffers.VertexCountInt32 A.RadialSegmentCount A.bCapEnds A.bDoubleSided ∧
      (r.TriangleIndex : Int)
        = SetupMeshBuffers.TriangleCountInt32 A.RadialSegmentCount A.bCapEnds A.bDoubleSided ∧
      (r.VertexIndex : Int)
        = SetupMeshBuffers.VertexCount A.RadialSegmentCount A.bCapEnds A.bDoubleSided ∧
      (r.TriangleIndex : Int)
        = SetupMeshBuffers.TriangleCount A.RadialSegmentCount A.bCapEnds A.bDoubleSided ∧
      r.VertexIndex = B.Vertices.length ∧ r.TriangleIndex = B.Triangles.length ∧
      r.Vertices.length = B.Vertices.length ∧ r.Triangles.length = B.Triangles.length ∧
      GenerateCylinder E B2.Vertices B2.Triangles A.Height A.Radius A.RadialSegmentCount
        A.bCapEnds A.bDoubleSided A.bSmoothNormals = some r := by
  rw [VertexCountInt32_eq _ hN _ _ hIV, TriangleCountInt32_eq _ hN _ _ hIT]
  refine ⟨_, _, _, SetupMeshBuffers_eq U A hN, SetupMeshBuffers_eq U2 A hN,
    GenerateCylinder_exact E _ _ _ _ _ _ _ _ (by simp [hV]) (by simp [hT]),
    (VertexCount_eq_vertexCursor _ hN _ _).symm, (TriangleCount_eq_triangleCursor _ hN _ _).symm,
    (VertexCount_eq_vertexCursor _ hN _ _).symm, (TriangleCount_eq_triangleCursor _ hN _ _).symm,
    by simp [hV], by simp [hT], by simp [hV, cylinderVertices_length],
    by simp [hT, cylinderIndices_length],
    GenerateCylinder_exact E _ _ _ _ _ _ _ _ (by simp [hV]) (by simp [hT])⟩

/-- C1 at 3 segments, capped, double-sided and smooth, on the rationals. -/
theorem C1_GenerateCylinder_writes_exactly_the_allocated_slots_witness :
    (1 : Int) ≤ 3 ∧ SetupMeshBuffers.VertexCount 3 true true ≤ INT32_MAX ∧
    SetupMeshBuffers.TriangleCount 3 true true ≤ INT32_MAX ∧
    ∃ B B2 r,
      SetupMeshBuffers sampleUninit (ASimpleCylinderActor.fresh 100 50 3 true true true 0)
        = some B ∧
      SetupMeshBuffers otherUninit (ASimpleCylinderActor.fresh 100 50 3 true true true 0)
        = some B2 ∧
      GenerateCylinder sampleEngine B.Vertices B.Triangles 100 50 3 true true true = some r ∧
      (r.VertexIndex : Int) = SetupMeshBuffers.VertexCountInt32 3 true true ∧
      (r.TriangleIndex : Int) = SetupMeshBuffers.TriangleCountInt32 3 true true ∧
      (r.VertexIndex : Int) = SetupMeshBuffers.VertexCount 3 true true ∧
      (r.TriangleIndex : Int) = SetupMeshBuffers.TriangleCount 3 true true ∧
      r.VertexIndex = B.Vertices.length ∧ r.TriangleIndex = B.Triangles.length ∧
      r.Vertices.length = B.Vertices.length ∧ r.Triangles.length = B.Triangles.length ∧
      GenerateCylinder sampleEngine B2.Vertices B2.Triangles 100 50 3 true true true = some r :=
  ⟨by decide, by decide, by decide,
    C1_GenerateCylinder_writes_exactly_the_allocated_slots sampleEngine sampleUninit
    otherUninit (ASimpleCylinderActor.fresh 100 50 3 true true true 0) (by decide) (by decide)
    (by decide) rfl rfl⟩

/-- C2. For every `RadialSegmentCount ≥ 1` whose counts fit `int32`, and every flag
combination, every value `GenerateCylinder` leaves in the index buffer allocated by
`SetupMeshBuffers` is a valid vertex index: it is `≥ 0` and `<` the length of the vertex
buffer allocated for the same configuration, which is the `int32` vertex count
`SetupMeshBuffers` computes. -/
theorem C2_every_stored_index_is_a_valid_vertex_index
    (E : Engine α) (U : Uninit α) (A : ASimpleCylinderActor α)
    (hN : 1 ≤ A.RadialSegmentCount)
    (hIV : SetupMeshBuffers.VertexCount A.RadialSegmentCount A.bCapEnds A.bDoubleSided
      ≤ INT32_MAX)
    (hIT : SetupMeshBuffers.TriangleCount A.RadialSegmentCount A.bCapEnds A.bDoubleSided
      ≤ INT32_MAX)
    (hV : A.Vertices = []) (hT : A.Triangles = []) :
    ∃ B r, SetupMeshBuffers U A = some B ∧
      GenerateCylinder E B.Vertices B.Triangles A.Height A.Radius A.RadialSegmentCount
        A.bCapEnds A.bDoubleSided A.bSmoothNormals = some r ∧
      (B.Vertices.length : Int)
        = SetupMeshBuffers.VertexCountInt32 A.RadialSegmentCount A.bCapEnds A.bDoubleSided ∧
      (B.Triangles.length : Int)
        = SetupMeshBuffers.TriangleCountInt32 A.RadialSegmentCount A.bCapEnds A.bDoubleSided ∧
      (B.Vertices.length : Int)
        = SetupMeshBuffers.VertexCount A.RadialSegmentCount A.bCapEnds A.bDoubleSided ∧
      (B.Vertices.length : Int) ≤ INT32_MAX ∧
      r.Triangles.length = B.Triangles.length ∧
      ∀ t ∈ r.Triangles, 0 ≤ t ∧ t < (B.Vertices.length : Int) := by
  rw [VertexCountInt32_eq _ hN _ _ hIV, TriangleCountInt32_eq _ hN _ _ hIT]
  have hlen : ((vertexCursor A.bCapEnds A.bDoubleSided A.RadialSegmentCount.toNat : Nat) : Int)
      = SetupMeshBuffers.VertexCount A.RadialSegmentCount A.bCapEnds A.bDoubleSided :=
    (VertexCount_eq_vertexCursor _ hN _ _).symm
  refine ⟨_, _, SetupMeshBuffers_eq U A hN,
    GenerateCylinder_exact E _ _ _ _ _ _ _ _ (by simp [hV]) (by simp [hT]), ?_, ?_, ?_, ?_,
    by simp [hT, cylinderIndices_length], ?_⟩
  · rw [VertexCount_eq_vertexCursor _ hN]; simp [hV]
  · rw [TriangleCount_eq_triangleCursor _ hN]; simp [hT]
  · rw [VertexCount_eq_vertexCursor _ hN]; simp [hV]
  · have : (((A.Vertices ++ (List.range
        (vertexCursor A.bCapEnds A.bDoubleSided A.RadialSegmentCount.toNat)).map
          (fun k => U.vertex (A.Vertices.length + k))).length : Nat) : Int)
        = SetupMeshBuffers.VertexCount A.RadialSegmentCount A.bCapEnds A.bDoubleSided := by
      rw [VertexCount_eq_vertexCursor _ hN]; simp [hV]
    show ((_ : Nat) : Int) ≤ INT32_MAX
    rw [this]
    exact hIV
  · intro t ht
    have := emittedIndices_bounds _ _ _ t ht
    simpa [hV] using this

/-- C2 at 8 segments, capped and single-sided, on the rationals. -/
theorem C2_every_stored_index_is_a_valid_vertex_index_witness :
    (1 : Int) ≤ 8 ∧ SetupMeshBuffers.VertexCount 8 true false ≤ INT32_MAX ∧
    SetupMeshBuffers.TriangleCount 8 true false ≤ INT32_MAX ∧
    ∃ B r,
      SetupMeshBuffers sampleUninit (ASimpleCylinderActor.fresh 100 50 8 true false false 0)
        = some B ∧
      GenerateCylinder sampleEngine B.Vertices B.Triangles 100 50 8 true false false = some r ∧
      (B.Vertices.length : Int) = SetupMeshBuffers.VertexCountInt32 8 true false ∧
      (B.Triangles.length : Int) = SetupMeshBuffers.TriangleCountInt32 8 true false ∧
      (B.Vertices.length : Int) = SetupMeshBuffers.VertexCount 8 true false ∧
      (B.Vertices.length : Int) ≤ INT32_MAX ∧
      r.Triangles.length = B.Triangles.length ∧
      ∀ t ∈ r.Triangles, 0 ≤ t ∧ t < (B.Vertices.length : Int) :=
  ⟨by decide, by decide, by decide,
    C2_every_stored_index_is_a_valid_vertex_index sampleEngine sampleUninit
    (ASimpleCylinderActor.fresh 100 50 8 true false false 0) (by decide) (by decide) (by decide)
    rfl rfl⟩

end Claims

section Claims

variable {α : Type}

/-- C3, as stated, fails for 8 segments, capped and single-sided: `SetupMeshBuffers` computes
74 vertices, not `4*8 + 2*(8-1) = 46`, and the vertex buffer it allocates has length 74. -/
theorem C3_counterexample :
    SetupMeshBuffers.VertexCountInt32 8 true false = 74 ∧
    SetupMeshBuffers.VertexCount 8 true false = 74 ∧
    SetupMeshBuffers.VertexCount 8 true false ≠ 4 * 8 + 2 * (8 - 1) ∧
    ∃ B, SetupMeshBuffers sampleUninit (ASimpleCylinderActor.fresh 100 50 8 true false false 0)
        = some B ∧ B.Vertices.length = 74 ∧ B.Vertices.length ≠ 46 := by
  refine ⟨by decide, by decide, by decide, _, SetupMeshBuffers_eq _ _ (by decide), ?_, ?_⟩ <;>
    simp [ASimpleCylinderActor.fresh, vertexCursor_eq]

/-- C3, amended. For every `RadialSegmentCount ≥ 1` whose counts fit `int32`, the vertex count
`SetupMeshBuffers` computes in `int32` is `4*N`, doubled if `bDoubleSided` is set, plus
`3 * (2*(N-1))` if `bCapEnds` is set (three vertices for each of the `2*(N-1)` cap triangles);
that many slots are appended to the vertex buffer; for `N = 8`, capped and single-sided, it
is 74. -/
theorem C3_vertex_count (U : Uninit α) (A : ASimpleCylinderActor α)
    (hN : 1 ≤ A.RadialSegmentCount)
    (hIV : SetupMeshBuffers.VertexCount A.RadialSegmentCount A.bCapEnds A.bDoubleSided
      ≤ INT32_MAX)
    (hIT : SetupMeshBuffers.TriangleCount A.RadialSegmentCount A.bCapEnds A.bDoubleSided
      ≤ INT32_MAX) :
    SetupMeshBuffers.VertexCountInt32 A.RadialSegmentCount A.bCapEnds A.bDoubleSided
      = (if A.bDoubleSided then 2 * (4 * A.RadialSegmentCount) else 4 * A.RadialSegmentCount)
        + (if A.bCapEnds then 3 * (2 * (A.RadialSegmentCount - 1)) else 0) ∧
    SetupMeshBuffers.VertexCount A.RadialSegmentCount A.bCapEnds A.bDoubleSided
      = SetupMeshBuffers.VertexCountInt32 A.RadialSegmentCount A.bCapEnds A.bDoubleSided ∧
    SetupMeshBuffers.TriangleCount A.RadialSegmentCount A.bCapEnds A.bDoubleSided
      = SetupMeshBuffers.TriangleCountInt32 A.RadialSegmentCount A.bCapEnds A.bDoubleSided ∧
    (∃ B, SetupMeshBuffers U A = some B ∧
      (B.Vertices.length : Int) = A.Vertices.length
        + SetupMeshBuffers.VertexCountInt32 A.RadialSegmentCount A.bCapEnds A.bDoubleSided) ∧
    SetupMeshBuffers.VertexCountInt32 8 true false = 74 := by
  rw [VertexCountInt32_eq _ hN _ _ hIV, TriangleCountInt32_eq _ hN _ _ hIT]
  refine ⟨?_, rfl, rfl, ⟨_, SetupMeshBuffers_eq U A hN, ?_⟩, by decide⟩
  · unfold SetupMeshBuffers.VertexCount
    cases A.bDoubleSided <;> cases A.bCapEnds <;> simp <;> ring
  · rw [VertexCount_eq_vertexCursor _ hN]; simp

/-- C3, amended, at 8 segments, capped and single-sided, on the rationals. -/
theorem C3_vertex_count_witness :
    (1 : Int) ≤ 8 ∧ SetupMeshBuffers.VertexCount 8 true false ≤ INT32_MAX ∧
    SetupMeshBuffers.TriangleCount 8 true false ≤ INT32_MAX ∧
    SetupMeshBuffers.VertexCountInt32 8 true false
      = (if false then 2 * (4 * 8) else 4 * 8) + (if true then 3 * (2 * (8 - 1)) else 0) ∧
    SetupMeshBuffers.VertexCount 8 true false = SetupMeshBuffers.VertexCountInt32 8 true false ∧
    SetupMeshBuffers.TriangleCount 8 true false
      = SetupMeshBuffers.TriangleCountInt32 8 true false ∧
    (∃ B, SetupMeshBuffers sampleUninit (ASimpleCylinderActor.fresh 100 50 8 true false false 0)
        = some B ∧
      (B.Vertices.length : Int) = (([] : List (FRuntimeMeshVertexSimple ℚ)).length : Int)
        + SetupMeshBuffers.VertexCountInt32 8 true false) ∧
    SetupMeshBuffers.VertexCountInt32 8 true false = 74 :=
  ⟨by decide, by decide, by decide, C3_vertex_count sampleUninit
    (ASimpleCylinderActor.fresh 100 50 8 true false false 0) (by decide) (by decide)
    (by decide)⟩

/-- C4. For every `RadialSegmentCount ≥ 1` whose counts fit `int32`, the number of index slots
`SetupMeshBuffers` computes in `int32` and appends is `3 * triangleCount`, where
`triangleCount` is `2*N`, doubled if `bDoubleSided` is set, plus `2*(N-1)` if `bCapEnds` is
set; for `N = 8` single-sided it is 48 without caps and 90 with caps. -/
theorem C4_index_count (U : Uninit α) (A : ASimpleCylinderActor α)
    (hN : 1 ≤ A.RadialSegmentCount)
    (hIV : SetupMeshBuffers.VertexCount A.RadialSegmentCount A.bCapEnds A.bDoubleSided
      ≤ INT32_MAX)
    (hIT : SetupMeshBuffers.TriangleCount A.RadialSegmentCount A.bCapEnds A.bDoubleSided
      ≤ INT32_MAX) :
    SetupMeshBuffers.TriangleCountInt32 A.RadialSegmentCount A.bCapEnds A.bDoubleSided
      = 3 * ((if A.bDoubleSided then 2 * (2 * A.RadialSegmentCount)
              else 2 * A.RadialSegmentCount)
          + (if A.bCapEnds then 2 * (A.RadialSegmentCount - 1) else 0)) ∧
    SetupMeshBuffers.TriangleCount A.RadialSegmentCount A.bCapEnds A.bDoubleSided
      = SetupMeshBuffers.TriangleCountInt32 A.RadialSegmentCount A.bCapEnds A.bDoubleSided ∧
    SetupMeshBuffers.VertexCount A.RadialSegmentCount A.bCapEnds A.bDoubleSided
      = SetupMeshBuffers.VertexCountInt32 A.RadialSegmentCount A.bCapEnds A.bDoubleSided ∧
    (∃ B, SetupMeshBuffers U A = some B ∧
      (B.Triangles.length : Int) = A.Triangles.length
        + SetupMeshBuffers.TriangleCountInt32 A.RadialSegmentCount A.bCapEnds A.bDoubleSided) ∧
    SetupMeshBuffers.TriangleCountInt32 8 false false = 48 ∧
    SetupMeshBuffers.TriangleCountInt32 8 true false = 90 := by
  rw [VertexCountInt32_eq _ hN _ _ hIV, TriangleCountInt32_eq _ hN _ _ hIT]
  refine ⟨?_, rfl, rfl, ⟨_, SetupMeshBuffers_eq U A hN, ?_⟩, by decide, by decide⟩
  · unfold SetupMeshBuffers.TriangleCount
    cases A.bDoubleSided <;> cases A.bCapEnds <;> simp <;> ring
  · rw [TriangleCount_eq_triangleCursor _ hN]; simp

/-- C4 at 8 segments, capped and single-sided, on the rationals. -/
theorem C4_index_count_witness :
    (1 : Int) ≤ 8 ∧ SetupMeshBuffers.VertexCount 8 true false ≤ INT32_MAX ∧
    SetupMeshBuffers.TriangleCount 8 true false ≤ INT32_MAX ∧
    SetupMeshBuffers.TriangleCountInt32 8 true false
      = 3 * ((if false then 2 * (2 * 8) else 2 * 8) + (if true then 2 * (8 - 1) else 0)) ∧
    SetupMeshBuffers.TriangleCount 8 true false
      = SetupMeshBuffers.TriangleCountInt32 8 true false ∧
    SetupMeshBuffers.VertexCount 8 true false = SetupMeshBuffers.VertexCountInt32 8 true false ∧
    (∃ B, SetupMeshBuffers sampleUninit (ASimpleCylinderActor.fresh 100 50 8 true false false 0)
        = some B ∧
      (B.Triangles.length : Int) = (([] : List Int).length : Int)
        + SetupMeshBuffers.TriangleCountInt32 8 true false) ∧
    SetupMeshBuffers.TriangleCountInt32 8 false false = 48 ∧
    SetupMeshBuffers.TriangleCountInt32 8 true false = 90 :=
  ⟨by decide, by decide, by decide, C4_index_count sampleUninit
    (ASimpleCylinderActor.fresh 100 50 8 true false false 0) (by decide) (by decide)
    (by decide)⟩

end Claims

section Claims

variable {α : Type} [Field α] [DecidableEq α]

/-- C5. For every `N ≥ 1` and a height other than `0`, the number of cap triangles in the
buffers `GenerateCylinder` returns (the triangles of the index buffer whose three corners lie
at one height) is `2*(N-1)` when `bInCapEnds` is set and `N ≥ 2`, and zero when `N = 1` or
`bInCapEnds` is false; so cap triangles are there if and only if `bInCapEnds` is set and
`N ≥ 2`, and for `N ≥ 2` their number is `2*(N-1)` if and only if `bInCapEnds` is set. A run
with other values of `bInDoubleSided` and `bInSmoothNormals` returns the same number. They are
the triangles written inside the cap block of the loop, which the ghost counter counts. -/
theorem C5_cap_triangle_count (E : Engine α) (InHeight InWidth : α) (hH : InHeight ≠ 0)
    (N : Int) (hN : 1 ≤ N)
    (bInCapEnds bInDoubleSided bInSmoothNormals bInDoubleSided2 bInSmoothNormals2 : Bool)
    (V V2 : List (FRuntimeMeshVertexSimple α)) (T T2 : List Int)
    (hV : SetupMeshBuffers.VertexCount N bInCapEnds bInDoubleSided ≤ (V.length : Int))
    (hT : SetupMeshBuffers.TriangleCount N bInCapEnds bInDoubleSided ≤ (T.length : Int))
    (hV2 : SetupMeshBuffers.VertexCount N bInCapEnds bInDoubleSided2 ≤ (V2.length : Int))
    (hT2 : SetupMeshBuffers.TriangleCount N bInCapEnds bInDoubleSided2 ≤ (T2.length : Int)) :
    ∃ r r2,
      GenerateCylinder E V T InHeight InWidth N bInCapEnds bInDoubleSided bInSmoothNormals
        = some r ∧
      GenerateCylinder E V2 T2 InHeight InWidth N bInCapEnds bInDoubleSided2 bInSmoothNormals2
        = some r2 ∧
      (r.capTriangleCount : Int) = (if bInCapEnds = true ∧ 2 ≤ N then 2 * (N - 1) else 0) ∧
      (bInCapEnds = true ∧ 2 ≤ N → (r.capTriangleCount : Int) = 2 * (N - 1)) ∧
      (0 < r.capTriangleCount ↔ bInCapEnds = true ∧ 2 ≤ N) ∧
      (2 ≤ N → ((r.capTriangleCount : Int) = 2 * (N - 1) ↔ bInCapEnds = true)) ∧
      (N = 1 ∨ bInCapEnds = false → r.capTriangleCount = 0) ∧
      r2.capTriangleCount = r.capTriangleCount ∧
      r.CapTriangles = r.capTriangleCount := by
  rw [VertexCount_eq_vertexCursor _ hN] at hV hV2
  rw [TriangleCount_eq_triangleCursor _ hN] at hT hT2
  have hc := capTriangleCount_run E (V.drop (vertexCursor bInCapEnds bInDoubleSided N.toNat))
    (T.drop (triangleCursor bInCapEnds bInDoubleSided N.toNat)) InHeight InWidth hH N
    bInCapEnds bInDoubleSided bInSmoothNormals (capTriangleCursor bInCapEnds N.toNat)
  have hc2 := capTriangleCount_run E (V2.drop (vertexCursor bInCapEnds bInDoubleSided2 N.toNat))
    (T2.drop (triangleCursor bInCapEnds bInDoubleSided2 N.toNat)) InHeight InWidth hH N
    bInCapEnds bInDoubleSided2 bInSmoothNormals2 (capTriangleCursor bInCapEnds N.toNat)
  refine ⟨_, _, GenerateCylinder_eq E V T _ _ N _ _ _ (by omega) (by omega),
    GenerateCylinder_eq E V2 T2 _ _ N _ _ _ (by omega) (by omega), ?_, ?_, ?_, ?_, ?_, ?_, ?_⟩
  · rw [hc, capTriangleCursor_eq]
    cases bInCapEnds <;> simp
    split <;> omega
  · intro h
    rw [hc, capTriangleCursor_eq]
    cases bInCapEnds <;> simp at h ⊢
    omega
  · rw [hc, capTriangleCursor_eq]
    cases bInCapEnds <;> simp
    omega
  · intro h2
    rw [hc, capTriangleCursor_eq]
    cases bInCapEnds <;> simp <;> omega
  · intro h
    rw [hc, capTriangleCursor_eq]
    cases bInCapEnds <;> simp at h ⊢
    omega
  · rw [hc, hc2]
  · rw [hc]

/-- C5 at 8 segments with caps, height 100, compared across the other two flags, on the
rationals. -/
theorem C5_cap_triangle_count_witness :
    (100 : ℚ) ≠ 0 ∧ (1 : Int) ≤ 8 ∧
    ∃ r r2,
      GenerateCylinder sampleEngine (List.replicate 74 (sampleUninit.vertex 0))
        (List.replicate 90 0) 100 50 8 true false false = some r ∧
      GenerateCylinder sampleEngine (List.replicate 106 (sampleUninit.vertex 0))
        (List.replicate 138 0) 100 50 8 true true true = some r2 ∧
      (r.capTriangleCount : Int) = (if true = true ∧ (2 : Int) ≤ 8 then 2 * (8 - 1) else 0) ∧
      (true = true ∧ (2 : Int) ≤ 8 → (r.capTriangleCount : Int) = 2 * (8 - 1)) ∧
      (0 < r.capTriangleCount ↔ true = true ∧ (2 : Int) ≤ 8) ∧
      ((2 : Int) ≤ 8 → ((r.capTriangleCount : Int) = 2 * (8 - 1) ↔ true = true)) ∧
      ((8 : Int) = 1 ∨ true = false → r.capTriangleCount = 0) ∧
      r2.capTriangleCount = r.capTriangleCount ∧
      r.CapTriangles = r.capTriangleCount :=
  ⟨by norm_num, by decide, C5_cap_triangle_count sampleEngine 100 50 (by norm_num) 8 (by decide)
    true false false true true
    _ _ _ _ (by decide) (by decide) (by decide) (by decide)⟩

end Claims

section RealClaims

/-- C6. With `bInSmoothNormals` set and trigonometry over the reals, for every `N ≥ 3` and
every segment `i < N`, in the output of `GenerateCylinder`: the normal stored on the two
trailing-edge vertices `p1`, `p2` of primary side quad `i` (slots `+1` and `+2` of the quad,
which starts at slot `vertexCursor i`) equals the normal stored on the two leading-edge
vertices `p0`, `p3` of primary side quad `j = (i+1) mod N` (slots `+0` and `+3`), the pair
`N-1`, `0` included; `NormalNext` computed in quad `i` is the flat normal of quad `j` and
`NormalPrevious` computed in quad `j` is the flat normal of quad `i`. -/
theorem C6_smooth_normals_agree_on_shared_edges (E : Engine ℝ)
    (hcos : E.Cos = Real.cos) (hsin : E.Sin = Real.sin) (hpi : E.PI = Real.pi)
    (N : Int) (hN : 3 ≤ N) (bInCapEnds bInDoubleSided : Bool) (InHeight InWidth : ℝ)
    (V : List (FRuntimeMeshVertexSimple ℝ)) (T : List Int)
    (hV : SetupMeshBuffers.VertexCount N bInCapEnds bInDoubleSided ≤ (V.length : Int))
    (hT : SetupMeshBuffers.TriangleCount N bInCapEnds bInDoubleSided ≤ (T.length : Int))
    (i : Nat) (hi : (i : Int) < N) (p0 p1 p2 q0 q1 q2 q3 : FVector ℝ)
    (hp0 : p0 = circlePoint E InWidth (((i : Int) : ℝ) * ((2 / (N : ℝ)) * E.PI)))
    (hp1 : p1 = circlePoint E InWidth ((((i : Int) + 1 : Int) : ℝ) * ((2 / (N : ℝ)) * E.PI)))
    (hp2 : p2 = p1 + ⟨0, 0, InHeight⟩)
    (hq0 : q0 = circlePoint E InWidth
      ((((((i + 1) % N.toNat : Nat) : Int)) : ℝ) * ((2 / (N : ℝ)) * E.PI)))
    (hq1 : q1 = circlePoint E InWidth
      ((((((i + 1) % N.toNat : Nat) : Int) + 1 : Int) : ℝ) * ((2 / (N : ℝ)) * E.PI)))
    (hq2 : q2 = q1 + ⟨0, 0, InHeight⟩) (hq3 : q3 = q0 + ⟨0, 0, InHeight⟩) :
    ∃ r v1 v2 u0 u3,
      GenerateCylinder E V T InHeight InWidth N bInCapEnds bInDoubleSided true = some r ∧
      r.Vertices[vertexCursor bInCapEnds bInDoubleSided i + 1]? = some v1 ∧
      r.Vertices[vertexCursor bInCapEnds bInDoubleSided i + 2]? = some v2 ∧
      r.Vertices[vertexCursor bInCapEnds bInDoubleSided ((i + 1) % N.toNat) + 0]? = some u0 ∧
      r.Vertices[vertexCursor bInCapEnds bInDoubleSided ((i + 1) % N.toNat) + 3]? = some u3 ∧
      v1.Position = p1 ∧ v2.Position = p2 ∧ u0.Position = q0 ∧ u3.Position = q3 ∧
      v1.Normal = u0.Normal ∧ v2.Normal = u3.Normal ∧
      v1.Normal = v2.Normal ∧ u0.Normal = u3.Normal ∧
      NormalNext E InWidth ((2 / (N : ℝ)) * E.PI) (i : Int) p1 p2 = NormalCurrent E q0 q1 q2 ∧
      NormalPrevious E InWidth ((2 / (N : ℝ)) * E.PI) (((i + 1) % N.toNat : Nat) : Int) q0 q3
        = NormalCurrent E p0 p1 p2 := by
  have hN1 : 1 ≤ N := by omega
  have hj : ((((i + 1) % N.toNat : Nat)) : Int) < N := by
    have : (i + 1) % N.toNat < N.toNat := Nat.mod_lt _ (by omega)
    omega
  obtain ⟨hnext, hprev, hshare⟩ := shared_edge_normals E hcos hsin hpi N hN1 InHeight InWidth i hi
    p0 p1 p2 q0 q1 q2 q3 hp0 hp1 hp2 hq0 hq1 hq2 hq3
  rw [VertexCount_eq_vertexCursor _ hN1] at hV
  rw [TriangleCount_eq_triangleCursor _ hN1] at hT
  refine ⟨_, _, _, _, _, GenerateCylinder_eq E V T _ _ N _ _ _ (by omega) (by omega),
    (run_sideQuad_slot E _ InHeight InWidth N _ _ true i 1 hi (by omega)).trans rfl,
    (run_sideQuad_slot E _ InHeight InWidth N _ _ true i 2 hi (by omega)).trans rfl,
    (run_sideQuad_slot E _ InHeight InWidth N _ _ true _ 0 hj (by omega)).trans rfl,
    (run_sideQuad_slot E _ InHeight InWidth N _ _ true _ 3 hj (by omega)).trans rfl,
    hp1.symm, ?_, hq0.symm, ?_, ?_, ?_, rfl, rfl, hnext, hprev⟩
  · rw [hp2, hp1]; rfl
  · rw [hq3, hq0]; rfl
  · subst hp0 hp1 hp2 hq0 hq1 hq2 hq3
    exact hshare
  · subst hp0 hp1 hp2 hq0 hq1 hq2 hq3
    exact hshare

/-- C6 at 3 segments, uncapped and single-sided, for the wrap-around pair of quad 2 and
quad 0, with the real cosine and sine and no rescaling in the two normalisations. -/
theorem C6_smooth_normals_agree_on_shared_edges_witness :
    (3 : Int) ≤ 3 ∧ ((2 : Nat) : Int) < 3 ∧
    ∃ r v1 v2 u0 u3,
      GenerateCylinder (⟨Real.cos, Real.sin, Real.pi, fun v => v, fun v => v⟩ : Engine ℝ)
        (List.replicate 12 ⟨⟨0, 0, 0⟩, ⟨0, 0⟩, ⟨0, 0, 0⟩, ⟨0, 0, 0⟩⟩) (List.replicate 18 0)
        100 50 3 false false true = some r ∧
      r.Vertices[vertexCursor false false 2 + 1]? = some v1 ∧
      r.Vertices[vertexCursor false false 2 + 2]? = some v2 ∧
      r.Vertices[vertexCursor false false ((2 + 1) % (3 : Int).toNat) + 0]? = some u0 ∧
      r.Vertices[vertexCursor false false ((2 + 1) % (3 : Int).toNat) + 3]? = some u3 ∧
      v1.Normal = u0.Normal ∧ v2.Normal = u3.Normal ∧
      v1.Normal = v2.Normal ∧ u0.Normal = u3.Normal := by
  obtain ⟨r, v1, v2, u0, u3, h1, h2, h3, h4, h5, -, -, -, -, h6, h7, h8, h9, -, -⟩ :=
    C6_smooth_normals_agree_on_shared_edges
      (⟨Real.cos, Real.sin, Real.pi, fun v => v, fun v => v⟩ : Engine ℝ) rfl rfl rfl
      3 (by decide) false false 100 50
      (List.replicate 12 ⟨⟨0, 0, 0⟩, ⟨0, 0⟩, ⟨0, 0, 0⟩, ⟨0, 0, 0⟩⟩) (List.replicate 18 0)
      (by simp [SetupMeshBuffers.VertexCount]) (by simp [SetupMeshBuffers.TriangleCount])
      2 (by decide) _ _ _ _ _ _ _ rfl rfl rfl rfl rfl rfl rfl
  exact ⟨by decide, by decide, r, v1, v2, u0, u3, h1, h2, h3, h4, h5, h6, h7, h8, h9⟩

end RealClaims

section RealClaims

/-- C7. For every `N ≥ 3`, `radius > 0`, `height > 0` and every segment `i < N`, with
trigonometry over the reals: the cross product `(p0 - p2) × (p1 - p2)` has a strictly positive
dot product with the vector from the cylinder axis to the midpoint of `p0` and `p1`; and it is
the vector the flat normal of the primary side quad is obtained from: in the output of a
flat-shaded run the vertex in the quad's first slot has position `p0` and normal
`FPackedNormal (GetSafeNormal ((p0 - p2) × (p1 - p2)))`. -/
theorem C7_flat_normal_points_away_from_the_axis (E : Engine ℝ)
    (hcos : E.Cos = Real.cos) (hsin : E.Sin = Real.sin) (hpi : E.PI = Real.pi)
    (N : Int) (hN : 3 ≤ N) (bInCapEnds bInDoubleSided : Bool) (InHeight InWidth : ℝ)
    (hr : 0 < InWidth) (hh : 0 < InHeight)
    (V : List (FRuntimeMeshVertexSimple ℝ)) (T : List Int)
    (hV : SetupMeshBuffers.VertexCount N bInCapEnds bInDoubleSided ≤ (V.length : Int))
    (hT : SetupMeshBuffers.TriangleCount N bInCapEnds bInDoubleSided ≤ (T.length : Int))
    (i : Nat) (hi : (i : Int) < N) (p0 p1 p2 : FVector ℝ)
    (hp0 : p0 = circlePoint E InWidth (((i : Int) : ℝ) * ((2 / (N : ℝ)) * E.PI)))
    (hp1 : p1 = circlePoint E InWidth ((((i : Int) + 1 : Int) : ℝ) * ((2 / (N : ℝ)) * E.PI)))
    (hp2 : p2 = p1 + ⟨0, 0, InHeight⟩) :
    0 < FVector.DotProduct (FVector.CrossProduct (p0 - p2) (p1 - p2))
        ⟨((p0 + p1).divScalar 2).X, ((p0 + p1).divScalar 2).Y, 0⟩ ∧
    ∃ r v, GenerateCylinder E V T InHeight InWidth N bInCapEnds bInDoubleSided false = some r ∧
      r.Vertices[vertexCursor bInCapEnds bInDoubleSided i + 0]? = some v ∧
      v.Position = p0 ∧
      v.Normal = E.FPackedNormal (E.GetSafeNormal (FVector.CrossProduct (p0 - p2) (p1 - p2))) := by
  have hN1 : 1 ≤ N := by omega
  constructor
  · rw [hp2, hp1, hp0, cross_dot_radial E hcos hsin]
    have hstep : (((i : Int) + 1 : Int) : ℝ) * ((2 / (N : ℝ)) * E.PI)
        - ((i : Int) : ℝ) * ((2 / (N : ℝ)) * E.PI) = (2 / (N : ℝ)) * Real.pi := by
      rw [hpi]; push_cast; ring
    rw [hstep]
    obtain ⟨h0, h1⟩ := angleBetweenQuads_pos_lt_pi N hN
    have hs := Real.sin_pos_of_pos_of_lt_pi h0 h1
    positivity
  · rw [VertexCount_eq_vertexCursor _ hN1] at hV
    rw [TriangleCount_eq_triangleCursor _ hN1] at hT
    refine ⟨_, _, GenerateCylinder_eq E V T _ _ N _ _ _ (by omega) (by omega),
      (run_sideQuad_slot E _ InHeight InWidth N _ _ false i 0 hi (by omega)).trans rfl,
      hp0.symm, ?_⟩
    subst hp0 hp1 hp2
    rfl

/-- C7 at 3 segments, radius 50 and height 100, for quad 0 of an uncapped single-sided
cylinder, with the real cosine and sine. -/
theorem C7_flat_normal_points_away_from_the_axis_witness :
    (3 : Int) ≤ 3 ∧ (0 : ℝ) < 50 ∧ (0 : ℝ) < 100 ∧ ((0 : Nat) : Int) < 3 ∧
    0 < FVector.DotProduct
        (FVector.CrossProduct
          (circlePoint (⟨Real.cos, Real.sin, Real.pi, fun v => v, fun v => v⟩ : Engine ℝ) 50
              ((((0 : Nat) : Int) : ℝ) * ((2 / ((3 : Int) : ℝ)) * Real.pi))
            - (circlePoint (⟨Real.cos, Real.sin, Real.pi, fun v => v, fun v => v⟩ : Engine ℝ) 50
              (((((0 : Nat) : Int) + 1 : Int) : ℝ) * ((2 / ((3 : Int) : ℝ)) * Real.pi))
              + ⟨0, 0, 100⟩))
          (circlePoint (⟨Real.cos, Real.sin, Real.pi, fun v => v, fun v => v⟩ : Engine ℝ) 50
              (((((0 : Nat) : Int) + 1 : Int) : ℝ) * ((2 / ((3 : Int) : ℝ)) * Real.pi))
            - (circlePoint (⟨Real.cos, Real.sin, Real.pi, fun v => v, fun v => v⟩ : Engine ℝ) 50
              (((((0 : Nat) : Int) + 1 : Int) : ℝ) * ((2 / ((3 : Int) : ℝ)) * Real.pi))
              + ⟨0, 0, 100⟩)))
        ⟨((circlePoint (⟨Real.cos, Real.sin, Real.pi, fun v => v, fun v => v⟩ : Engine ℝ) 50
              ((((0 : Nat) : Int) : ℝ) * ((2 / ((3 : Int) : ℝ)) * Real.pi))
            + circlePoint (⟨Real.cos, Real.sin, Real.pi, fun v => v, fun v => v⟩ : Engine ℝ) 50
              (((((0 : Nat) : Int) + 1 : Int) : ℝ) * ((2 / ((3 : Int) : ℝ)) * Real.pi))).divScalar
            2).X,
          ((circlePoint (⟨Real.cos, Real.sin, Real.pi, fun v => v, fun v => v⟩ : Engine ℝ) 50
              ((((0 : Nat) : Int) : ℝ) * ((2 / ((3 : Int) : ℝ)) * Real.pi))
            + circlePoint (⟨Real.cos, Real.sin, Real.pi, fun v => v, fun v => v⟩ : Engine ℝ) 50
              (((((0 : Nat) : Int) + 1 : Int) : ℝ) * ((2 / ((3 : Int) : ℝ)) * Real.pi))).divScalar
            2).Y, 0⟩ :=
  ⟨by decide, by norm_num, by norm_num, by decide,
    (C7_flat_normal_points_away_from_the_axis
      (⟨Real.cos, Real.sin, Real.pi, fun v => v, fun v => v⟩ : Engine ℝ) rfl rfl rfl
      3 (by decide) false false 100 50 (by norm_num) (by norm_num)
      (List.replicate 12 ⟨⟨0, 0, 0⟩, ⟨0, 0⟩, ⟨0, 0, 0⟩, ⟨0, 0, 0⟩⟩) (List.replicate 18 0)
      (by simp [SetupMeshBuffers.VertexCount]) (by simp [SetupMeshBuffers.TriangleCount])
      0 (by decide) _ _ _ rfl rfl rfl).1⟩

end RealClaims

section MeshClaims

variable {α : Type} [LinearOrderedField α]

/-- C9. For every state with `Height ≤ 0`, `GenerateMesh` returns, leaves the vertex buffer,
the index buffer and `bHaveBuffersBeenInitialized` unchanged, and its only effect is that the
sink has no mesh section any more: the rest of the actor, the sink's materials included, is
as before. Neither `SetupMeshBuffers` nor `GenerateCylinder` has a part in the result: it is
the same for every engine and every content of uninitialised memory, also where the two
would fail. -/
theorem C9_nonpositive_height_only_clears_the_sink (E E2 : Engine α) (U U2 : Uninit α)
    (A : ASimpleCylinderActor α) (hH : A.Height ≤ 0) :
    ∃ B, GenerateMesh E U A = some B ∧
      B.Vertices = A.Vertices ∧ B.Triangles = A.Triangles ∧
      B.bHaveBuffersBeenInitialized = A.bHaveBuffersBeenInitialized ∧
      B.MeshComponent.Sections = [] ∧
      B = { A with MeshComponent := { A.MeshComponent with Sections := [] } } ∧
      GenerateMesh E2 U2 A = some B := by
  refine ⟨{ A with MeshComponent := { A.MeshComponent with Sections := [] } },
    ?_, rfl, rfl, rfl, rfl, rfl, ?_⟩ <;>
  · unfold GenerateMesh
    rw [if_pos hH]
    rfl

/-- C9 at height `0` on the rationals, for a state whose flag is set although its buffers are
empty (so `GenerateCylinder` would fail) and whose sink holds a section. -/
theorem C9_nonpositive_height_only_clears_the_sink_witness :
    (0 : ℚ) ≤ 0 ∧
    ∃ B, GenerateMesh sampleEngine sampleUninit
        (⟨0, 50, 8, true, false, false, 7, ⟨[(0, ⟨[], [], BoundingBox 50 100, false⟩)], [(0, 7)]⟩,
          [], [], true⟩ : ASimpleCylinderActor ℚ) = some B ∧
      B.Vertices = [] ∧ B.Triangles = [] ∧
      B.bHaveBuffersBeenInitialized = true ∧
      B.MeshComponent.Sections = [] ∧
      B = (⟨0, 50, 8, true, false, false, 7, ⟨[], [(0, 7)]⟩, [], [], true⟩ :
              ASimpleCylinderActor ℚ) ∧
      GenerateMesh sampleEngine otherUninit
        (⟨0, 50, 8, true, false, false, 7, ⟨[(0, ⟨[], [], BoundingBox 50 100, false⟩)], [(0, 7)]⟩,
          [], [], true⟩ : ASimpleCylinderActor ℚ) = some B :=
  ⟨le_refl 0, C9_nonpositive_height_only_clears_the_sink sampleEngine sampleEngine
    sampleUninit otherUninit _ (le_refl 0)⟩

end MeshClaims

section RealClaims

end RealClaims

section LayoutClaims

variable {α : Type} [Field α]

/-- C11. For every `N ≥ 1` and every segment `i < N`, in the output of `GenerateCylinder`: the
primary side quad of segment `i` occupies the four consecutive vertex slots `v0 .. v0+3`, where
`v0` is the value of `VertexIndex` when iteration `i` starts; the slots of every other segment
lie entirely below `v0` or from `v0+4` on; the four slots hold the positions
`p0 = (cos(i*step)*r, sin(i*step)*r, 0)`, `p1 = (cos((i+1)*step)*r, sin((i+1)*step)*r, 0)`,
`p2 = p1 + (0,0,height)`, `p3 = p0 + (0,0,height)` with `step = 2*PI/N`; and the six index
slots from `TriangleIndex` of that moment on hold `(v0+3, v0+2, v0, v0+2, v0+1, v0)`. -/
theorem C11_side_quad_layout (E : Engine α) (N : Int) (hN : 1 ≤ N)
    (bInCapEnds bInDoubleSided bInSmoothNormals : Bool) (InHeight InWidth : α)
    (V : List (FRuntimeMeshVertexSimple α)) (T : List Int)
    (hV : SetupMeshBuffers.VertexCount N bInCapEnds bInDoubleSided ≤ (V.length : Int))
    (hT : SetupMeshBuffers.TriangleCount N bInCapEnds bInDoubleSided ≤ (T.length : Int))
    (i : Nat) (hi : (i : Int) < N) (step : α) (hstep : step = 2 * E.PI / (N : α))
    (p0 p1 p2 p3 : FVector α)
    (hp0 : p0 = ⟨E.Cos (((i : Int) : α) * step) * InWidth,
      E.Sin (((i : Int) : α) * step) * InWidth, 0⟩)
    (hp1 : p1 = ⟨E.Cos ((((i : Int) + 1 : Int) : α) * step) * InWidth,
      E.Sin ((((i : Int) + 1 : Int) : α) * step) * InWidth, 0⟩)
    (hp2 : p2 = p1 + ⟨0, 0, InHeight⟩) (hp3 : p3 = p0 + ⟨0, 0, InHeight⟩)
    (v0 t0 : Nat) (hv0 : v0 = vertexCursor bInCapEnds bInDoubleSided i)
    (ht0 : t0 = triangleCursor bInCapEnds bInDoubleSided i) :
    ∃ r, GenerateCylinder E V T InHeight InWidth N bInCapEnds bInDoubleSided bInSmoothNormals
        = some r ∧
      v0 + 4 ≤ r.VertexIndex ∧ t0 + 6 ≤ r.TriangleIndex ∧
      (∀ j : Nat, j ≠ i →
        vertexCursor bInCapEnds bInDoubleSided (j + 1) ≤ v0 ∨
        v0 + 4 ≤ vertexCursor bInCapEnds bInDoubleSided j) ∧
      ((r.Vertices.drop v0).take 4).map (·.Position) = [p0, p1, p2, p3] ∧
      (r.Triangles.drop t0).take 6
        = [((v0 + 3 : Nat) : Int), ((v0 + 2 : Nat) : Int), (v0 : Int),
           ((v0 + 2 : Nat) : Int), ((v0 + 1 : Nat) : Int), (v0 : Int)] := by
  have hs : step = (2 / (N : α)) * E.PI := by rw [hstep]; ring
  rw [VertexCount_eq_vertexCursor _ hN] at hV
  rw [TriangleCount_eq_triangleCursor _ hN] at hT
  obtain ⟨rest, hw⟩ := run_segment_window E
    (V.drop (vertexCursor bInCapEnds bInDoubleSided N.toNat)) InHeight InWidth N
    bInCapEnds bInDoubleSided bInSmoothNormals i hi
  obtain ⟨trest, htw⟩ := run_segment_index_window
    (T.drop (triangleCursor bInCapEnds bInDoubleSided N.toNat)) N bInCapEnds bInDoubleSided i hi
  have hv1 : vertexCursor bInCapEnds bInDoubleSided (i + 1)
      ≤ vertexCursor bInCapEnds bInDoubleSided N.toNat := vertexCursor_mono _ _ (by omega)
  have ht1 : triangleCursor bInCapEnds bInDoubleSided (i + 1)
      ≤ triangleCursor bInCapEnds bInDoubleSided N.toNat := triangleCursor_mono _ _ (by omega)
  simp only [vertexCursor, segmentVertexCount] at hv1
  simp only [triangleCursor, segmentIndexCount] at ht1
  subst hv0 ht0
  refine ⟨_, GenerateCylinder_eq E V T _ _ N _ _ _ (by omega) (by omega), ?_, ?_, ?_, ?_, ?_⟩
  · show _ ≤ vertexCursor bInCapEnds bInDoubleSided N.toNat
    omega
  · show _ ≤ triangleCursor bInCapEnds bInDoubleSided N.toNat
    omega
  · intro j hj
    rcases Nat.lt_or_ge j i with hlt | hge
    · exact Or.inl (vertexCursor_mono _ _ (by omega))
    · have h := vertexCursor_mono bInCapEnds bInDoubleSided (show i + 1 ≤ j by omega)
      simp only [vertexCursor, segmentVertexCount] at h
      exact Or.inr (by omega)
  · show ((List.drop _ (_ ++ _)).take 4).map _ = _
    rw [hw, hp3, hp2, hp1, hp0, hs]
    rfl
  · show (List.drop _ (_ ++ _)).take 6 = _
    rw [htw]
    rfl

/-- C11 at 3 segments, capped, double-sided and smooth, for segment 1, on the rationals. -/
theorem C11_side_quad_layout_witness :
    (1 : Int) ≤ 3 ∧ ((1 : Nat) : Int) < 3 ∧
    ∃ r, GenerateCylinder sampleEngine (List.replicate 36 (sampleUninit.vertex 0))
        (List.replicate 48 0) 100 50 3 true true true = some r ∧
      8 + 4 ≤ r.VertexIndex ∧ 12 + 6 ≤ r.TriangleIndex ∧
      (∀ j : Nat, j ≠ 1 → vertexCursor true true (j + 1) ≤ 8 ∨ 8 + 4 ≤ vertexCursor true true j) ∧
      ((r.Vertices.drop 8).take 4).map (·.Position)
        = [⟨-50, 100, 0⟩, ⟨-350, 200, 0⟩, ⟨-350, 200, 100⟩, ⟨-50, 100, 100⟩] ∧
      (r.Triangles.drop 12).take 6 = [11, 10, 8, 10, 9, 8] := by
  refine ⟨by decide, by decide, ?_⟩
  have h := C11_side_quad_layout sampleEngine 3 (by decide) true true true 100 50
    (List.replicate 36 (sampleUninit.vertex 0)) (List.replicate 48 0) (by decide) (by decide)
    1 (by decide) 2 (by norm_num [sampleEngine])
    ⟨-50, 100, 0⟩ ⟨-350, 200, 0⟩ ⟨-350, 200, 100⟩ ⟨-50, 100, 100⟩
    (by norm_num [sampleEngine]) (by norm_num [sampleEngine])
    (by
      show _ = FVector.add _ _
      norm_num [FVector.add])
    (by
      show _ = FVector.add _ _
      norm_num [FVector.add]) 8 12 (by decide) (by decide)
  exact h

end LayoutClaims

section LayoutClaims

variable {α : Type} [Field α]

/-- C12, as stated, fails for radius `0` (3 segments, height 100, double-sided, smooth): every
cross product is the zero vector, which the normalisation leaves zero, so the blended normals of
the primary quad of segment 0 are the flat normal and equal the normals of the mirrored quad
although `bInSmoothNormals` is set. -/
theorem C12_counterexample :
    ∃ r, GenerateCylinder sampleEngine (List.replicate 24 (sampleUninit.vertex 0))
        (List.replicate 36 0) 100 0 3 false true true = some r ∧
      ((r.Vertices.drop 4).take 4).map (·.Normal) = ((r.Vertices.drop 0).take 4).map (·.Normal) ∧
      ¬ (((r.Vertices.drop 4).take 4).map (·.Normal) = ((r.Vertices.drop 0).take 4).map (·.Normal)
          ↔ (true : Bool) = false) := by
  obtain ⟨rest, hw⟩ := run_quads_window sampleEngine [] 100 0 3 false true 0 (by decide)
  rw [List.append_nil] at hw
  have hcyl : cylinderVertices sampleEngine 100 0 3 false true true = _ := hw
  have h : ((((cylinderVertices sampleEngine 100 0 3 false true true).drop 4).take 4).map
      (·.Normal) = (((cylinderVertices sampleEngine 100 0 3 false true true).drop 0).take 4).map
      (·.Normal)) := by
    rw [hcyl, List.drop_left' (sideQuadVertices_length _ _ _ _ _ _ _ _ _ _),
      List.take_left' (doubleSidedVertices_length _ _ _ _ _ _ _), List.drop_zero,
      List.take_left' (sideQuadVertices_length _ _ _ _ _ _ _ _ _ _)]
    exact (zero_radius_normals sampleEngine rfl _ _ _ _ _ _).symm
  refine ⟨_, GenerateCylinder_exact sampleEngine _ _ _ _ _ _ _ _ (by decide) (by decide), h, ?_⟩
  intro hiff
  exact Bool.noConfusion (hiff.mp h)

/-- C12, amended. With `bInDoubleSided` set, for every segment `i < N`, in the output of
`GenerateCylinder`: the mirrored quad occupies the four vertex slots right after the four of the
primary quad; each mirrored vertex has the position, the UV and the tangent of the primary
vertex it mirrors and carries the flat normal `FPackedNormal (GetSafeNormal ((p0-p2) × (p1-p2)))`;
with `bInSmoothNormals` off the mirrored vertices equal the primary ones, normal included; with
`bInSmoothNormals` on the primary vertices carry the blended normals of the smoothing branch
instead (the normalised average of the flat normal with `NormalPrevious` on `p0`, `p3` and with
`NormalNext` on `p1`, `p2`), which coincide with the flat normal when the radius is `0` and the
normalisation leaves the zero vector zero; the six indices of the mirrored quad follow the six
of the primary quad and are `(m3, m0, m2, m2, m0, m1)`: each primary triangle with its last two
corners exchanged. -/
theorem C12_mirrored_quad (E : Engine α) (N : Int) (hN : 1 ≤ N)
    (bInCapEnds bInSmoothNormals : Bool) (InHeight InWidth : α)
    (V : List (FRuntimeMeshVertexSimple α)) (T : List Int)
    (hV : SetupMeshBuffers.VertexCount N bInCapEnds true ≤ (V.length : Int))
    (hT : SetupMeshBuffers.TriangleCount N bInCapEnds true ≤ (T.length : Int))
    (i : Nat) (hi : (i : Int) < N) (p0 p1 p2 p3 p4 pMinus1 : FVector α)
    (hp0 : p0 = circlePoint E InWidth (((i : Int) : α) * ((2 / (N : α)) * E.PI)))
    (hp1 : p1 = circlePoint E InWidth ((((i : Int) + 1 : Int) : α) * ((2 / (N : α)) * E.PI)))
    (hp2 : p2 = p1 + ⟨0, 0, InHeight⟩) (hp3 : p3 = p0 + ⟨0, 0, InHeight⟩)
    (hp4 : p4 = circlePoint E InWidth ((((i : Int) + 2 : Int) : α) * ((2 / (N : α)) * E.PI)))
    (hpM : pMinus1
      = circlePoint E InWidth ((((i : Int) - 1 : Int) : α) * ((2 / (N : α)) * E.PI)))
    (NormalCurrent NormalNext NormalPrevious : FVector α)
    (hNC : NormalCurrent = E.GetSafeNormal (FVector.CrossProduct (p0 - p2) (p1 - p2)))
    (hNN : NormalNext = E.GetSafeNormal (FVector.CrossProduct (p1 - p2) (p4 - p2)))
    (hNP : NormalPrevious
      = E.GetSafeNormal (FVector.CrossProduct (p0 - pMinus1) (p3 - pMinus1)))
    (v0 t0 m0 : Nat) (hv0 : v0 = vertexCursor bInCapEnds true i)
    (ht0 : t0 = triangleCursor bInCapEnds true i) (hm0 : m0 = v0 + 4) :
    ∃ r P M, GenerateCylinder E V T InHeight InWidth N bInCapEnds true bInSmoothNormals
        = some r ∧
      m0 + 4 ≤ r.VertexIndex ∧ t0 + 12 ≤ r.TriangleIndex ∧
      (r.Vertices.drop v0).take 4 = P ∧ (r.Vertices.drop m0).take 4 = M ∧
      P.length = 4 ∧ M.length = 4 ∧
      M.map (·.Position) = P.map (·.Position) ∧ M.map (·.UV0) = P.map (·.UV0) ∧
      M.map (·.Tangent) = P.map (·.Tangent) ∧
      (∀ m ∈ M, m.Normal
        = E.FPackedNormal (E.GetSafeNormal (FVector.CrossProduct (p0 - p2) (p1 - p2)))) ∧
      (bInSmoothNormals = false → M = P) ∧
      (bInSmoothNormals = true → P.map (·.Normal)
        = [E.FPackedNormal (E.GetSafeNormal ((NormalCurrent + NormalPrevious).divScalar 2)),
           E.FPackedNormal (E.GetSafeNormal ((NormalCurrent + NormalNext).divScalar 2)),
           E.FPackedNormal (E.GetSafeNormal ((NormalCurrent + NormalNext).divScalar 2)),
           E.FPackedNormal (E.GetSafeNormal ((NormalCurrent + NormalPrevious).divScalar 2))]) ∧
      (InWidth = 0 → E.GetSafeNormal ⟨0, 0, 0⟩ = ⟨0, 0, 0⟩ →
        M.map (·.Normal) = P.map (·.Normal)) ∧
      (r.Triangles.drop t0).take 6
        = [((v0 + 3 : Nat) : Int), ((v0 + 2 : Nat) : Int), (v0 : Int),
           ((v0 + 2 : Nat) : Int), ((v0 + 1 : Nat) : Int), (v0 : Int)] ∧
      (r.Triangles.drop (t0 + 6)).take 6
        = [((m0 + 3 : Nat) : Int), (m0 : Int), ((m0 + 2 : Nat) : Int),
           ((m0 + 2 : Nat) : Int), (m0 : Int), ((m0 + 1 : Nat) : Int)] := by
  rw [VertexCount_eq_vertexCursor _ hN] at hV
  rw [TriangleCount_eq_triangleCursor _ hN] at hT
  obtain ⟨rest, hw⟩ := run_segment_window E
    (V.drop (vertexCursor bInCapEnds true N.toNat)) InHeight InWidth N
    bInCapEnds true bInSmoothNormals i hi
  obtain ⟨trest, htw⟩ := run_segment_index_window
    (T.drop (triangleCursor bInCapEnds true N.toNat)) N bInCapEnds true i hi
  have hv1 : vertexCursor bInCapEnds true (i + 1) ≤ vertexCursor bInCapEnds true N.toNat :=
    vertexCursor_mono _ _ (by omega)
  have ht1 : triangleCursor bInCapEnds true (i + 1) ≤ triangleCursor bInCapEnds true N.toNat :=
    triangleCursor_mono _ _ (by omega)
  simp only [vertexCursor, segmentVertexCount, if_true] at hv1
  simp only [triangleCursor, segmentIndexCount, if_true] at ht1
  subst hm0 hv0 ht0 hNC hNN hNP hpM hp4 hp3 hp2 hp1 hp0
  refine ⟨_,
    sideQuadVertices E InWidth ((2 / (N : α)) * E.PI) (1 / (N : α)) bInSmoothNormals (i : Int)
      (circlePoint E InWidth (((i : Int) : α) * ((2 / (N : α)) * E.PI)))
      (circlePoint E InWidth ((((i : Int) + 1 : Int) : α) * ((2 / (N : α)) * E.PI)))
      (circlePoint E InWidth ((((i : Int) + 1 : Int) : α) * ((2 / (N : α)) * E.PI))
        + ⟨0, 0, InHeight⟩)
      (circlePoint E InWidth (((i : Int) : α) * ((2 / (N : α)) * E.PI)) + ⟨0, 0, InHeight⟩),
    doubleSidedVertices E (1 / (N : α)) (i : Int)
      (circlePoint E InWidth (((i : Int) : α) * ((2 / (N : α)) * E.PI)))
      (circlePoint E InWidth ((((i : Int) + 1 : Int) : α) * ((2 / (N : α)) * E.PI)))
      (circlePoint E InWidth ((((i : Int) + 1 : Int) : α) * ((2 / (N : α)) * E.PI))
        + ⟨0, 0, InHeight⟩)
      (circlePoint E InWidth (((i : Int) : α) * ((2 / (N : α)) * E.PI)) + ⟨0, 0, InHeight⟩),
    GenerateCylinder_eq E V T _ _ N _ _ _ (by omega) (by omega), ?_, ?_,
    ?_, ?_, ?_, ?_, ?_, ?_, ?_, ?_, ?_, ?_, ?_, ?_, ?_⟩
  · show _ ≤ vertexCursor bInCapEnds true N.toNat
    omega
  · show _ ≤ triangleCursor bInCapEnds true N.toNat
    omega
  · show (List.drop _ (_ ++ _)).take 4 = _
    rw [hw]
    rfl
  · show (List.drop _ (_ ++ _)).take 4 = _
    rw [drop_add_of_drop_eq hw]
    rfl
  · rfl
  · rfl
  · rfl
  · rfl
  · rfl
  · intro m hm
    simp only [doubleSidedVertices, List.mem_cons, List.mem_singleton, List.not_mem_nil,
      or_false] at hm
    rcases hm with rfl | rfl | rfl | rfl <;> rfl
  · intro hs
    subst hs
    rfl
  · intro hs
    subst hs
    rfl
  · intro hr hG
    subst hr
    cases bInSmoothNormals
    · rfl
    · exact (zero_radius_normals E hG _ _ _ _ _ _).symm
  · show (List.drop _ (_ ++ _)).take 6 = _
    rw [htw]
    rfl
  · show (List.drop _ (_ ++ _)).take 6 = _
    rw [drop_add_of_drop_eq htw]
    rfl

/-- C12, amended, at 3 segments, capped and flat-shaded, for segment 1, on the rationals. -/
theorem C12_mirrored_quad_witness :
    (1 : Int) ≤ 3 ∧ ((1 : Nat) : Int) < 3 ∧
    ∃ r P M, GenerateCylinder sampleEngine (List.replicate 36 (sampleUninit.vertex 0))
        (List.replicate 48 0) 100 50 3 true true false = some r ∧
      12 + 4 ≤ r.VertexIndex ∧ 12 + 12 ≤ r.TriangleIndex ∧
      (r.Vertices.drop 8).take 4 = P ∧ (r.Vertices.drop 12).take 4 = M ∧
      P.length = 4 ∧ M.length = 4 ∧
      M.map (·.Position) = P.map (·.Position) ∧ M.map (·.UV0) = P.map (·.UV0) ∧
      M.map (·.Tangent) = P.map (·.Tangent) ∧
      (∀ m ∈ M, m.Normal
        = sampleEngine.FPackedNormal (sampleEngine.GetSafeNormal (FVector.CrossProduct
            ((⟨-50, 100, 0⟩ : FVector ℚ) - ⟨-350, 200, 100⟩)
            ((⟨-350, 200, 0⟩ : FVector ℚ) - ⟨-350, 200, 100⟩)))) ∧
      ((false : Bool) = false → M = P) ∧
      (r.Triangles.drop 12).take 6 = [((8 + 3 : Nat) : Int), ((8 + 2 : Nat) : Int), ((8 : Nat) : Int),
        ((8 + 2 : Nat) : Int), ((8 + 1 : Nat) : Int), ((8 : Nat) : Int)] ∧
      (r.Triangles.drop (12 + 6)).take 6
        = [((12 + 3 : Nat) : Int), ((12 : Nat) : Int), ((12 + 2 : Nat) : Int),
           ((12 + 2 : Nat) : Int), ((12 : Nat) : Int), ((12 + 1 : Nat) : Int)] := by
  obtain ⟨r, P, M, h1, h2, h3, h4, h5, h6, h7, h8, h9, h10, h11, h12, -, -, h13, h14⟩ :=
    C12_mirrored_quad sampleEngine 3 (by decide) true false 100 50
      (List.replicate 36 (sampleUninit.vertex 0)) (List.replicate 48 0) (by decide) (by decide)
      1 (by decide) ⟨-50, 100, 0⟩ ⟨-350, 200, 0⟩ ⟨-350, 200, 100⟩ _ _ _
      (by norm_num [circlePoint, sampleEngine]) (by norm_num [circlePoint, sampleEngine])
      (by
        show _ = FVector.add _ _
        norm_num [FVector.add])
      rfl rfl rfl _ _ _ rfl rfl rfl
      8 12 12 (by decide) (by decide) (by decide)
  exact ⟨by decide, by decide, r, P, M, h1, h2, h3, h4, h5, h6, h7, h8, h9, h10, h11, h12, h13,
    h14⟩

end LayoutClaims

section UVClaims

/-- C13. In exact rational arithmetic, for every `N ≥ 1` and every segment `i < N`, in the
output of `GenerateCylinder`: the primary side-quad vertices of the leading edge (`p0`, `p3`,
slots `+0` and `+3`) have horizontal UV coordinate `1 - i/N`, those of the trailing edge (`p1`,
`p2`, slots `+1` and `+2`) have `1 - (i+1)/N`; the vertical coordinate is `1` on the bottom rim
(`p0`, `p1`) and `0` on the top rim (`p2`, `p3`); the horizontal coordinate is `1` on the
leading edge of segment `0` and `0` on the trailing edge of segment `N-1`; and the
trailing-edge value of segment `i` is the leading-edge value of segment `i+1`. -/
theorem C13_side_uv (E : Engine ℚ) (N : Int) (hN : 1 ≤ N)
    (bInCapEnds bInDoubleSided bInSmoothNormals : Bool) (InHeight InWidth : ℚ)
    (V : List (FRuntimeMeshVertexSimple ℚ)) (T : List Int)
    (hV : SetupMeshBuffers.VertexCount N bInCapEnds bInDoubleSided ≤ (V.length : Int))
    (hT : SetupMeshBuffers.TriangleCount N bInCapEnds bInDoubleSided ≤ (T.length : Int))
    (i : Nat) (hi : (i : Int) < N) (v0 : Nat) (hv0 : v0 = vertexCursor bInCapEnds bInDoubleSided i) :
    ∃ r w0 w1 w2 w3,
      GenerateCylinder E V T InHeight InWidth N bInCapEnds bInDoubleSided bInSmoothNormals
        = some r ∧
      r.Vertices[v0 + 0]? = some w0 ∧ r.Vertices[v0 + 1]? = some w1 ∧
      r.Vertices[v0 + 2]? = some w2 ∧ r.Vertices[v0 + 3]? = some w3 ∧
      w0.UV0 = ⟨1 - (i : ℚ) / (N : ℚ), 1⟩ ∧ w1.UV0 = ⟨1 - ((i : ℚ) + 1) / (N : ℚ), 1⟩ ∧
      w2.UV0 = ⟨1 - ((i : ℚ) + 1) / (N : ℚ), 0⟩ ∧ w3.UV0 = ⟨1 - (i : ℚ) / (N : ℚ), 0⟩ ∧
      (i = 0 → w0.UV0.X = 1 ∧ w3.UV0.X = 1) ∧
      ((i : Int) = N - 1 → w1.UV0.X = 0 ∧ w2.UV0.X = 0) ∧
      ((i : Int) + 1 < N → ∃ u0 u3,
        r.Vertices[vertexCursor bInCapEnds bInDoubleSided (i + 1) + 0]? = some u0 ∧
        r.Vertices[vertexCursor bInCapEnds bInDoubleSided (i + 1) + 3]? = some u3 ∧
        u0.UV0.X = w1.UV0.X ∧ u3.UV0.X = w2.UV0.X) := by
  have hN0 : (N : ℚ) ≠ 0 := by
    have : (1 : ℚ) ≤ (N : ℚ) := by exact_mod_cast hN
    linarith
  have hlead : 1 - 1 / (N : ℚ) * (((i : Int) : ℚ)) = 1 - (i : ℚ) / (N : ℚ) := by
    push_cast; ring
  have htrail : 1 - 1 / (N : ℚ) * ((((i : Int) + 1 : Int) : ℚ)) = 1 - ((i : ℚ) + 1) / (N : ℚ) := by
    push_cast; ring
  rw [VertexCount_eq_vertexCursor _ hN] at hV
  rw [TriangleCount_eq_triangleCursor _ hN] at hT
  subst hv0
  refine ⟨_, _, _, _, _, GenerateCylinder_eq E V T _ _ N _ _ _ (by omega) (by omega),
    (run_sideQuad_slot E _ InHeight InWidth N _ _ bInSmoothNormals i 0 hi (by omega)).trans rfl,
    (run_sideQuad_slot E _ InHeight InWidth N _ _ bInSmoothNormals i 1 hi (by omega)).trans rfl,
    (run_sideQuad_slot E _ InHeight InWidth N _ _ bInSmoothNormals i 2 hi (by omega)).trans rfl,
    (run_sideQuad_slot E _ InHeight InWidth N _ _ bInSmoothNormals i 3 hi (by omega)).trans rfl,
    ?_, ?_, ?_, ?_, ?_, ?_, ?_⟩
  · show (⟨_, _⟩ : FVector2D ℚ) = _
    rw [hlead]
  · show (⟨_, _⟩ : FVector2D ℚ) = _
    rw [htrail]
  · show (⟨_, _⟩ : FVector2D ℚ) = _
    rw [htrail]
  · show (⟨_, _⟩ : FVector2D ℚ) = _
    rw [hlead]
  · intro h0
    subst h0
    constructor <;>
    · show 1 - 1 / (N : ℚ) * ((((0 : Nat) : Int)) : ℚ) = 1
      simp
  · intro hlast
    have hc : ((((i : Int) + 1 : Int)) : ℚ) = (N : ℚ) := by
      have : (i : Int) + 1 = N := by omega
      rw [this]
    constructor <;>
    · show 1 - 1 / (N : ℚ) * ((((i : Int) + 1 : Int)) : ℚ) = 0
      rw [hc]
      field_simp
  · intro hnext
    have hi1 : (((i + 1 : Nat)) : Int) < N := by omega
    refine ⟨_, _,
      (run_sideQuad_slot E _ InHeight InWidth N _ _ bInSmoothNormals (i + 1) 0 hi1
        (by omega)).trans rfl,
      (run_sideQuad_slot E _ InHeight InWidth N _ _ bInSmoothNormals (i + 1) 3 hi1
        (by omega)).trans rfl, ?_, ?_⟩ <;>
    · show 1 - 1 / (N : ℚ) * ((((i + 1 : Nat) : Int)) : ℚ)
        = 1 - 1 / (N : ℚ) * ((((i : Int) + 1 : Int)) : ℚ)
      push_cast
      rfl

/-- C13 at 4 segments, capped and single-sided, for segment 1, on the rationals. -/
theorem C13_side_uv_witness :
    (1 : Int) ≤ 4 ∧ ((1 : Nat) : Int) < 4 ∧
    ∃ r w0 w1 w2 w3,
      GenerateCylinder sampleEngine (List.replicate 34 (sampleUninit.vertex 0))
        (List.replicate 42 0) 100 50 4 true false false = some r ∧
      r.Vertices[4 + 0]? = some w0 ∧ r.Vertices[4 + 1]? = some w1 ∧
      r.Vertices[4 + 2]? = some w2 ∧ r.Vertices[4 + 3]? = some w3 ∧
      w0.UV0 = ⟨1 - ((1 : Nat) : ℚ) / ((4 : Int) : ℚ), 1⟩ ∧
      w1.UV0 = ⟨1 - (((1 : Nat) : ℚ) + 1) / ((4 : Int) : ℚ), 1⟩ ∧
      w2.UV0 = ⟨1 - (((1 : Nat) : ℚ) + 1) / ((4 : Int) : ℚ), 0⟩ ∧
      w3.UV0 = ⟨1 - ((1 : Nat) : ℚ) / ((4 : Int) : ℚ), 0⟩ := by
  obtain ⟨r, w0, w1, w2, w3, h, h0, h1, h2, h3, e0, e1, e2, e3, -⟩ :=
    C13_side_uv sampleEngine 4 (by decide) true false false 100 50
      (List.replicate 34 (sampleUninit.vertex 0)) (List.replicate 42 0) (by decide) (by decide)
      1 (by decide) 4 (by decide)
  exact ⟨by decide, by decide, r, w0, w1, w2, w3, h, h0, h1, h2, h3, e0, e1, e2, e3⟩

end UVClaims

section CapUVClaims

variable {α : Type} [Field α]

/-- C14, as stated, fails for the top cap: with 4 segments and the real cosine and sine, the
current corner of the top cap triangle of segment 1 (slot 12, at angle `π/2`, raised to the top)
gets the UV `(0.5 - cos(π/2)/2, 0.5 - sin(π/2)/2) = (0.5, 0)`, whereas the negated angle would
give `(0.5, 1)`. -/
theorem C14_counterexample :
    ∃ r w, GenerateCylinder (⟨Real.cos, Real.sin, Real.pi, fun v => v, fun v => v⟩ : Engine ℝ)
        (List.replicate 34 ⟨⟨0, 0, 0⟩, ⟨0, 0⟩, ⟨0, 0, 0⟩, ⟨0, 0, 0⟩⟩) (List.replicate 42 0)
        100 50 4 true false false = some r ∧
      r.Vertices[12]? = some w ∧
      w.Position = ⟨Real.cos (1 * (2 * Real.pi / 4)) * 50, Real.sin (1 * (2 * Real.pi / 4)) * 50,
        100⟩ ∧
      w.UV0 = ⟨1 / 2, 0⟩ ∧
      w.UV0 ≠ ⟨1 / 2 - Real.cos (-(1 * (2 * Real.pi / 4))) / 2,
        1 / 2 - Real.sin (-(1 * (2 * Real.pi / 4))) / 2⟩ := by
  obtain ⟨rest, hw⟩ := run_caps_window
    (⟨Real.cos, Real.sin, Real.pi, fun v => v, fun v => v⟩ : Engine ℝ)
    ((List.replicate 34 ⟨⟨0, 0, 0⟩, ⟨0, 0⟩, ⟨0, 0, 0⟩, ⟨0, 0, 0⟩⟩).drop
      (vertexCursor true false (4 : Int).toNat)) 100 50 4 false false 1 (by decide) (by decide)
  have ha : (((1 : Nat) : Int) : ℝ) * (2 / ((4 : Int) : ℝ) * Real.pi) = Real.pi / 2 := by
    push_cast; ring
  have hb : (1 : ℝ) * (2 * Real.pi / 4) = Real.pi / 2 := by ring
  refine ⟨_, _, GenerateCylinder_eq _ _ _ _ _ 4 _ _ _ (by decide) (by decide),
    (getElem?_of_drop_eq hw 4 (by decide)).trans rfl, ?_, ?_, ?_⟩
  · show circlePoint _ _ _ + _ = _
    rw [ha, hb]
    ext <;> simp [circlePoint]
  · show capUV _ _ = _
    rw [ha]
    simp [capUV]
  · show capUV _ _ ≠ _
    rw [ha, hb]
    simp [capUV]
    norm_num

/-- C14, amended. With `bInCapEnds` set, for every segment `i` with `1 ≤ i < N`, in the output
of `GenerateCylinder` the six cap vertices of the segment (anchor, current, next of the bottom
cap triangle, then anchor, current, next of the top cap triangle) carry the UVs
`uv(t) = (0.5 - cos(t)/2, 0.5 - sin(t)/2)` with `t = 0` for the anchor corner; the bottom cap
takes the negated angles `t = -(i*step)` and `t = -((i+1)*step)` for its current and next
corner, the top cap the angles themselves, `t = i*step` and `t = (i+1)*step`. -/
theorem C14_cap_uv (E : Engine α) (N : Int) (hN : 1 ≤ N)
    (bInDoubleSided bInSmoothNormals : Bool) (InHeight InWidth : α)
    (V : List (FRuntimeMeshVertexSimple α)) (T : List Int)
    (hV : SetupMeshBuffers.VertexCount N true bInDoubleSided ≤ (V.length : Int))
    (hT : SetupMeshBuffers.TriangleCount N true bInDoubleSided ≤ (T.length : Int))
    (i : Nat) (hi1 : 1 ≤ i) (hi : (i : Int) < N) (step : α) (hstep : step = 2 * E.PI / (N : α))
    (uv : α → FVector2D α) (huv : uv = fun t => ⟨1 / 2 - E.Cos t / 2, 1 / 2 - E.Sin t / 2⟩)
    (b0 tb : Nat)
    (hb0 : b0 = vertexCursor true bInDoubleSided i + (if bInDoubleSided then 8 else 4))
    (htb : tb = triangleCursor true bInDoubleSided i + (if bInDoubleSided then 12 else 6)) :
    ∃ r, GenerateCylinder E V T InHeight InWidth N true bInDoubleSided bInSmoothNormals
        = some r ∧
      b0 + 6 ≤ r.VertexIndex ∧ tb + 6 ≤ r.TriangleIndex ∧
      (r.Triangles.drop tb).take 6
        = [(b0 : Int), ((b0 + 1 : Nat) : Int), ((b0 + 2 : Nat) : Int),
           ((b0 + 3 + 2 : Nat) : Int), ((b0 + 3 + 1 : Nat) : Int), ((b0 + 3 : Nat) : Int)] ∧
      ((r.Vertices.drop b0).take 6).map (·.Position)
        = [circlePoint E InWidth 0,
           circlePoint E InWidth (((i : Int) : α) * step),
           circlePoint E InWidth ((((i : Int) + 1 : Int) : α) * step),
           circlePoint E InWidth 0 + ⟨0, 0, InHeight⟩,
           circlePoint E InWidth (((i : Int) : α) * step) + ⟨0, 0, InHeight⟩,
           circlePoint E InWidth ((((i : Int) + 1 : Int) : α) * step) + ⟨0, 0, InHeight⟩] ∧
      ((r.Vertices.drop b0).take 6).map (·.UV0)
        = [uv 0, uv (-(((i : Int) : α) * step)), uv (-((((i : Int) + 1 : Int) : α) * step)),
           uv 0, uv (((i : Int) : α) * step), uv ((((i : Int) + 1 : Int) : α) * step)] := by
  have hs : step = (2 / (N : α)) * E.PI := by rw [hstep]; ring
  rw [VertexCount_eq_vertexCursor _ hN] at hV
  rw [TriangleCount_eq_triangleCursor _ hN] at hT
  obtain ⟨rest, hw⟩ := run_caps_window E
    (V.drop (vertexCursor true bInDoubleSided N.toNat)) InHeight InWidth N
    bInDoubleSided bInSmoothNormals i hi hi1
  obtain ⟨trest, htw⟩ := run_caps_index_window
    (T.drop (triangleCursor true bInDoubleSided N.toNat)) N bInDoubleSided i hi hi1
  have hc : emitsCaps true (i : Int) = true := by
    obtain ⟨k, rfl⟩ : ∃ k, i = k + 1 := ⟨i - 1, by omega⟩
    exact emitsCaps_succ true k
  have hv1 : vertexCursor true bInDoubleSided (i + 1)
      ≤ vertexCursor true bInDoubleSided N.toNat := vertexCursor_mono _ _ (by omega)
  have ht1 : triangleCursor true bInDoubleSided (i + 1)
      ≤ triangleCursor true bInDoubleSided N.toNat := triangleCursor_mono _ _ (by omega)
  simp only [vertexCursor, segmentVertexCount, hc, if_true] at hv1
  simp only [triangleCursor, segmentIndexCount, hc, if_true] at ht1
  subst hb0 htb huv hs
  refine ⟨_, GenerateCylinder_eq E V T _ _ N _ _ _ (by omega) (by omega), ?_, ?_, ?_, ?_, ?_⟩
  · show _ ≤ vertexCursor true bInDoubleSided N.toNat
    cases bInDoubleSided <;> simp at hv1 ⊢ <;> omega
  · show _ ≤ triangleCursor true bInDoubleSided N.toNat
    cases bInDoubleSided <;> simp at ht1 ⊢ <;> omega
  · show (List.drop _ (_ ++ _)).take 6 = _
    rw [htw]
    rfl
  · show ((List.drop _ (_ ++ _)).take 6).map _ = _
    rw [hw]
    rfl
  · show ((List.drop _ (_ ++ _)).take 6).map _ = _
    rw [hw]
    rfl

/-- C14, amended, at 3 segments, single-sided and flat-shaded, for segment 1, on the
rationals (with the stand-in cosine `1 - t²/2` and sine `t`, `PI = 3`, so `step = 2`). -/
theorem C14_cap_uv_witness :
    (1 : Int) ≤ 3 ∧ 1 ≤ 1 ∧ ((1 : Nat) : Int) < 3 ∧
    ∃ r, GenerateCylinder sampleEngine (List.replicate 24 (sampleUninit.vertex 0))
        (List.replicate 30 0) 100 50 3 true false false = some r ∧
      8 + 6 ≤ r.VertexIndex ∧ 12 + 6 ≤ r.TriangleIndex ∧
      (r.Triangles.drop 12).take 6 = [8, 9, 10, 13, 12, 11] ∧
      ((r.Vertices.drop 8).take 6).map (·.UV0)
        = [⟨0, 1 / 2⟩, ⟨1, 3 / 2⟩, ⟨4, 5 / 2⟩, ⟨0, 1 / 2⟩, ⟨1, -1 / 2⟩, ⟨4, -3 / 2⟩] := by
  obtain ⟨r, h, h1, h2, h3, -, h5⟩ :=
    C14_cap_uv sampleEngine 3 (by decide) false false 100 50
      (List.replicate 24 (sampleUninit.vertex 0)) (List.replicate 30 0) (by decide) (by decide)
      1 (by decide) (by decide) 2 (by norm_num [sampleEngine])
      (fun t => ⟨1 / 2 - sampleEngine.Cos t / 2, 1 / 2 - sampleEngine.Sin t / 2⟩) rfl
      8 12 (by decide) (by decide)
  refine ⟨by decide, by decide, by decide, r, h, h1, h2, h3, ?_⟩
  rw [h5]
  norm_num [sampleEngine]

end CapUVClaims

section SmoothingClaims

variable {α : Type} [Field α]

/-- C15. For every `N ≥ 1`, height, radius, `bInCapEnds` and `bInDoubleSided`, the runs of
`GenerateCylinder` with `bInSmoothNormals` set and clear, on the same buffers, return the same
index buffer and the same cursors, the same position, UV and tangent in every vertex slot, and
the very same vertex, normal included, in every slot that is not one of the first four of a
segment: the slots of the mirrored quads and of the cap triangles. -/
theorem C15_smoothing_only_changes_primary_normals (E : Engine α) (N : Int) (hN : 1 ≤ N)
    (bInCapEnds bInDoubleSided : Bool) (InHeight InWidth : α)
    (V : List (FRuntimeMeshVertexSimple α)) (T : List Int)
    (hV : SetupMeshBuffers.VertexCount N bInCapEnds bInDoubleSided ≤ (V.length : Int))
    (hT : SetupMeshBuffers.TriangleCount N bInCapEnds bInDoubleSided ≤ (T.length : Int)) :
    ∃ r1 r2,
      GenerateCylinder E V T InHeight InWidth N bInCapEnds bInDoubleSided true = some r1 ∧
      GenerateCylinder E V T InHeight InWidth N bInCapEnds bInDoubleSided false = some r2 ∧
      r1.Triangles = r2.Triangles ∧
      r1.VertexIndex = r2.VertexIndex ∧ r1.TriangleIndex = r2.TriangleIndex ∧
      r1.Vertices.map (·.Position) = r2.Vertices.map (·.Position) ∧
      r1.Vertices.map (·.UV0) = r2.Vertices.map (·.UV0) ∧
      r1.Vertices.map (·.Tangent) = r2.Vertices.map (·.Tangent) ∧
      ∀ i k : Nat, (i : Int) < N → 4 ≤ k →
        k < segmentVertexCount bInCapEnds bInDoubleSided (i : Int) →
        vertexCursor bInCapEnds bInDoubleSided i + k < r1.VertexIndex ∧
        ∃ w, r1.Vertices[vertexCursor bInCapEnds bInDoubleSided i + k]? = some w ∧
          r2.Vertices[vertexCursor bInCapEnds bInDoubleSided i + k]? = some w := by
  rw [VertexCount_eq_vertexCursor _ hN] at hV
  rw [TriangleCount_eq_triangleCursor _ hN] at hT
  obtain ⟨e1, e2, e3⟩ := emittedVertices_smooth E InWidth ((2 / (N : α)) * E.PI) (1 / (N : α))
    ⟨0, 0, InHeight⟩ bInCapEnds bInDoubleSided N.toNat
  refine ⟨_, _, GenerateCylinder_eq E V T _ _ N _ _ _ (by omega) (by omega),
    GenerateCylinder_eq E V T _ _ N _ _ _ (by omega) (by omega), rfl, rfl, rfl, ?_, ?_, ?_, ?_⟩
  · show List.map _ (cylinderVertices _ _ _ _ _ _ _ ++ _) = List.map _ (cylinderVertices _ _ _ _ _ _ _ ++ _)
    unfold cylinderVertices
    rw [List.map_append, List.map_append, e1]
  · show List.map _ (cylinderVertices _ _ _ _ _ _ _ ++ _) = List.map _ (cylinderVertices _ _ _ _ _ _ _ ++ _)
    unfold cylinderVertices
    rw [List.map_append, List.map_append, e2]
  · show List.map _ (cylinderVertices _ _ _ _ _ _ _ ++ _) = List.map _ (cylinderVertices _ _ _ _ _ _ _ ++ _)
    unfold cylinderVertices
    rw [List.map_append, List.map_append, e3]
  · intro i k hi hk4 hk
    obtain ⟨rest1, hw1⟩ := run_segment_window E
      (V.drop (vertexCursor bInCapEnds bInDoubleSided N.toNat)) InHeight InWidth N
      bInCapEnds bInDoubleSided true i hi
    obtain ⟨rest2, hw2⟩ := run_segment_window E
      (V.drop (vertexCursor bInCapEnds bInDoubleSided N.toNat)) InHeight InWidth N
      bInCapEnds bInDoubleSided false i hi
    obtain ⟨-, -, -, hd⟩ := segmentVertices_smooth E InWidth ((2 / (N : α)) * E.PI)
      (1 / (N : α)) ⟨0, 0, InHeight⟩ bInCapEnds bInDoubleSided (i : Int)
    have hv1 : vertexCursor bInCapEnds bInDoubleSided (i + 1)
        ≤ vertexCursor bInCapEnds bInDoubleSided N.toNat := vertexCursor_mono _ _ (by omega)
    simp only [vertexCursor] at hv1
    have hl1 := segmentVertices_length E InWidth ((2 / (N : α)) * E.PI) (1 / (N : α))
      ⟨0, 0, InHeight⟩ bInCapEnds bInDoubleSided true (i : Int)
    have hl2 := segmentVertices_length E InWidth ((2 / (N : α)) * E.PI) (1 / (N : α))
      ⟨0, 0, InHeight⟩ bInCapEnds bInDoubleSided false (i : Int)
    have hk1 : k < (segmentVertices E InWidth ((2 / (N : α)) * E.PI) (1 / (N : α))
        ⟨0, 0, InHeight⟩ bInCapEnds bInDoubleSided true (i : Int)).length := by
      rw [hl1]; exact hk
    have hk2 : k < (segmentVertices E InWidth ((2 / (N : α)) * E.PI) (1 / (N : α))
        ⟨0, 0, InHeight⟩ bInCapEnds bInDoubleSided false (i : Int)).length := by
      rw [hl2]; exact hk
    refine ⟨?_, (segmentVertices E InWidth ((2 / (N : α)) * E.PI) (1 / (N : α))
        ⟨0, 0, InHeight⟩ bInCapEnds bInDoubleSided true (i : Int))[k], ?_, ?_⟩
    · show _ < vertexCursor bInCapEnds bInDoubleSided N.toNat
      omega
    · show (_ ++ _)[_]? = _
      rw [getElem?_of_drop_eq hw1 k hk1, List.getElem?_eq_getElem hk1]
    · show (_ ++ _)[_]? = _
      rw [getElem?_of_drop_eq hw2 k hk2, ← List.getElem?_eq_getElem hk1]
      have hk' : k = 4 + (k - 4) := by omega
      rw [hk', ← List.getElem?_drop, ← List.getElem?_drop, hd]

/-- C15 at 3 segments, capped and double-sided, on the rationals. -/
theorem C15_smoothing_only_changes_primary_normals_witness :
    (1 : Int) ≤ 3 ∧
    ∃ r1 r2,
      GenerateCylinder sampleEngine (List.replicate 36 (sampleUninit.vertex 0))
        (List.replicate 48 0) 100 50 3 true true true = some r1 ∧
      GenerateCylinder sampleEngine (List.replicate 36 (sampleUninit.vertex 0))
        (List.replicate 48 0) 100 50 3 true true false = some r2 ∧
      r1.Triangles = r2.Triangles ∧
      r1.VertexIndex = r2.VertexIndex ∧ r1.TriangleIndex = r2.TriangleIndex ∧
      r1.Vertices.map (·.Position) = r2.Vertices.map (·.Position) ∧
      r1.Vertices.map (·.UV0) = r2.Vertices.map (·.UV0) ∧
      r1.Vertices.map (·.Tangent) = r2.Vertices.map (·.Tangent) ∧
      ∀ i k : Nat, (i : Int) < 3 → 4 ≤ k → k < segmentVertexCount true true (i : Int) →
        vertexCursor true true i + k < r1.VertexIndex ∧
        ∃ w, r1.Vertices[vertexCursor true true i + k]? = some w ∧
          r2.Vertices[vertexCursor true true i + k]? = some w :=
  ⟨by decide, C15_smoothing_only_changes_primary_normals sampleEngine 3 (by decide) true true
    100 50 (List.replicate 36 (sampleUninit.vertex 0)) (List.replicate 48 0)
    (by decide) (by decide)⟩

end SmoothingClaims

section LifecycleClaims

variable {α : Type} [LinearOrderedField α]

/-- C16, evaluated on the code: from the freshly constructed actor with `Height > 0` and
`RadialSegmentCount ≥ 1`, the first `OnConstruction` returns with buffers of twice the counts
`SetupMeshBuffers` computes, not the counts themselves: `OnConstruction` allocates and leaves
`bHaveBuffersBeenInitialized` clear, so `GenerateMesh` allocates again. The upper half of the
vertex buffer is uninitialised memory and is handed to the sink with the rest. A `BeginPlay`
after it keeps these buffers. The sibling paths allocate exactly the counts: `BeginPlay` on
the fresh actor, and an `OnConstruction` that finds the flag set. -/
theorem C16_first_OnConstruction_allocates_twice (E : Engine α) (U : Uninit α)
    (Height Radius : α) (N : Int) (bCapEnds bDoubleSided bSmoothNormals : Bool) (Material : Nat)
    (hH : 0 < Height) (hN : 1 ≤ N) :
    ∃ B, OnConstruction E U (ASimpleCylinderActor.fresh Height Radius N bCapEnds bDoubleSided
          bSmoothNormals Material) = some B ∧
      (B.Vertices.length : Int) = 2 * SetupMeshBuffers.VertexCount N bCapEnds bDoubleSided ∧
      (B.Triangles.length : Int) = 2 * SetupMeshBuffers.TriangleCount N bCapEnds bDoubleSided ∧
      (B.Vertices.length : Int) ≠ SetupMeshBuffers.VertexCount N bCapEnds bDoubleSided ∧
      (B.Triangles.length : Int) ≠ SetupMeshBuffers.TriangleCount N bCapEnds bDoubleSided ∧
      B.bHaveBuffersBeenInitialized = true ∧
      B.MeshComponent.Sections
        = [(0, ⟨B.Vertices, B.Triangles, BoundingBox Radius Height, false⟩)] ∧
      B.Vertices.drop (SetupMeshBuffers.VertexCount N bCapEnds bDoubleSided).toNat
        = (List.range (SetupMeshBuffers.VertexCount N bCapEnds bDoubleSided).toNat).map
            (fun k => U.vertex
              ((SetupMeshBuffers.VertexCount N bCapEnds bDoubleSided).toNat + k)) ∧
      BeginPlay E U B = some B ∧
      (∃ B2, OnConstruction E U B = some B2 ∧
        (B2.Vertices.length : Int) = SetupMeshBuffers.VertexCount N bCapEnds bDoubleSided ∧
        (B2.Triangles.length : Int) = SetupMeshBuffers.TriangleCount N bCapEnds bDoubleSided) ∧
      (∃ B1, BeginPlay E U (ASimpleCylinderActor.fresh Height Radius N bCapEnds bDoubleSided
          bSmoothNormals Material) = some B1 ∧
        (B1.Vertices.length : Int) = SetupMeshBuffers.VertexCount N bCapEnds bDoubleSided ∧
        (B1.Triangles.length : Int) = SetupMeshBuffers.TriangleCount N bCapEnds bDoubleSided) := by
  have hvpos : 0 < vertexCursor bCapEnds bDoubleSided N.toNat := by
    have h := vertexCursor_mono bCapEnds bDoubleSided (show 1 ≤ N.toNat by omega)
    simp only [vertexCursor, segmentVertexCount] at h
    omega
  have htpos : 0 < triangleCursor bCapEnds bDoubleSided N.toNat := by
    have h := triangleCursor_mono bCapEnds bDoubleSided (show 1 ≤ N.toNat by omega)
    simp only [triangleCursor, segmentIndexCount] at h
    omega
  rw [VertexCount_eq_vertexCursor _ hN, TriangleCount_eq_triangleCursor _ hN]
  have h1 := OnConstruction_eq E U (ASimpleCylinderActor.fresh Height Radius N bCapEnds
    bDoubleSided bSmoothNormals Material) hN
  rw [GenerateMesh_of_uninitialized E U _ hH hN rfl] at h1
  refine ⟨_, h1, ?_, ?_, ?_, ?_, rfl, rfl, ?_, ?_, ?_, ?_⟩
  · simp [ASimpleCylinderActor.generated, ASimpleCylinderActor.allocated,
      ASimpleCylinderActor.fresh, cylinderVertices_length]
    omega
  · simp [ASimpleCylinderActor.generated, ASimpleCylinderActor.allocated,
      ASimpleCylinderActor.fresh, cylinderIndices_length]
    omega
  · simp [ASimpleCylinderActor.generated, ASimpleCylinderActor.allocated,
      ASimpleCylinderActor.fresh, cylinderVertices_length]
    omega
  · simp [ASimpleCylinderActor.generated, ASimpleCylinderActor.allocated,
      ASimpleCylinderActor.fresh, cylinderIndices_length]
    omega
  · simp [ASimpleCylinderActor.generated, ASimpleCylinderActor.allocated,
      ASimpleCylinderActor.fresh, cylinderVertices_length]
  · unfold BeginPlay
    rw [GenerateMesh_of_initialized E U _ hH rfl
      (by simp [ASimpleCylinderActor.generated, ASimpleCylinderActor.fresh,
        cylinderVertices_length])
      (by simp [ASimpleCylinderActor.generated, ASimpleCylinderActor.fresh,
        cylinderIndices_length]), generated_generated]
  · rw [OnConstruction_eq E U _ hN, GenerateMesh_of_initialized E U _ hH rfl
      (by simp [ASimpleCylinderActor.generated, ASimpleCylinderActor.allocated,
        ASimpleCylinderActor.fresh])
      (by simp [ASimpleCylinderActor.generated, ASimpleCylinderActor.allocated,
        ASimpleCylinderActor.fresh])]
    refine ⟨_, rfl, ?_, ?_⟩
    · simp [ASimpleCylinderActor.generated, ASimpleCylinderActor.allocated,
        ASimpleCylinderActor.fresh, cylinderVertices_length]
    · simp [ASimpleCylinderActor.generated, ASimpleCylinderActor.allocated,
        ASimpleCylinderActor.fresh, cylinderIndices_length]
  · unfold BeginPlay
    rw [GenerateMesh_of_uninitialized E U _ hH hN rfl]
    refine ⟨_, rfl, ?_, ?_⟩
    · simp [ASimpleCylinderActor.generated, ASimpleCylinderActor.allocated,
        ASimpleCylinderActor.fresh, cylinderVertices_length]
    · simp [ASimpleCylinderActor.generated, ASimpleCylinderActor.allocated,
        ASimpleCylinderActor.fresh, cylinderIndices_length]

/-- C16 at the failing input: 8 segments, no caps, single-sided, height 100, radius 50, on the
rationals: 64 vertices and 96 indices after the first `OnConstruction`, where `SetupMeshBuffers`
computes 32 and 48. -/
theorem C16_first_OnConstruction_allocates_twice_witness :
    (0 : ℚ) < 100 ∧ (1 : Int) ≤ 8 ∧
    ∃ B, OnConstruction sampleEngine sampleUninit
          (ASimpleCylinderActor.fresh 100 50 8 false false false 0) = some B ∧
      (B.Vertices.length : Int) = 64 ∧ (B.Triangles.length : Int) = 96 ∧
      SetupMeshBuffers.VertexCount 8 false false = 32 ∧
      SetupMeshBuffers.TriangleCount 8 false false = 48 ∧
      B.Vertices.drop 32 = (List.range 32).map (fun k => sampleUninit.vertex (32 + k)) := by
  obtain ⟨B, h, h1, h2, -, -, -, -, h3, -⟩ :=
    C16_first_OnConstruction_allocates_twice sampleEngine sampleUninit 100 50 8 false false false
      0 (by norm_num) (by decide)
  exact ⟨by norm_num, by decide, B, h, h1, h2, by decide, by decide, h3⟩

end LifecycleClaims

section CapNormalClaims

/-- C17. With `bInCapEnds` set, a radius other than `0` and trigonometry over the reals, for
every `N ≥ 3` and every segment `i` with `1 ≤ i ≤ N-2`, in the output of `GenerateCylinder`:
the three vertices of the bottom cap triangle and the three of the top cap triangle of segment
`i` all store the same normal, `FPackedNormal (GetSafeNormal ((c0-c2) × (c1-c2)))` for the
corners `c0`, `c1`, `c2` at the angles `0`, `i*step`, `(i+1)*step`; the top triangle's own cross
product is that very vector, whose `x` and `y` components are `0` and whose `z` component is
strictly positive. -/
theorem C17_cap_normals_point_up (E : Engine ℝ)
    (hcos : E.Cos = Real.cos) (hsin : E.Sin = Real.sin) (hpi : E.PI = Real.pi)
    (N : Int) (hN : 3 ≤ N) (bInDoubleSided bInSmoothNormals : Bool) (InHeight InWidth : ℝ)
    (hr : InWidth ≠ 0)
    (V : List (FRuntimeMeshVertexSimple ℝ)) (T : List Int)
    (hV : SetupMeshBuffers.VertexCount N true bInDoubleSided ≤ (V.length : Int))
    (hT : SetupMeshBuffers.TriangleCount N true bInDoubleSided ≤ (T.length : Int))
    (i : Nat) (hi1 : 1 ≤ i) (hi : (i : Int) ≤ N - 2) (c0 c1 c2 : FVector ℝ)
    (hc0 : c0 = circlePoint E InWidth 0)
    (hc1 : c1 = circlePoint E InWidth (((i : Int) : ℝ) * ((2 / (N : ℝ)) * E.PI)))
    (hc2 : c2 = circlePoint E InWidth ((((i : Int) + 1 : Int) : ℝ) * ((2 / (N : ℝ)) * E.PI)))
    (b0 : Nat)
    (hb0 : b0 = vertexCursor true bInDoubleSided i + (if bInDoubleSided then 8 else 4)) :
    ∃ r n, GenerateCylinder E V T InHeight InWidth N true bInDoubleSided bInSmoothNormals
        = some r ∧
      ((r.Vertices.drop b0).take 6).map (·.Position)
        = [c0, c1, c2, c0 + ⟨0, 0, InHeight⟩, c1 + ⟨0, 0, InHeight⟩, c2 + ⟨0, 0, InHeight⟩] ∧
      ((r.Vertices.drop b0).take 6).map (·.Normal) = [n, n, n, n, n, n] ∧
      n = E.FPackedNormal (E.GetSafeNormal (FVector.CrossProduct (c0 - c2) (c1 - c2))) ∧
      FVector.CrossProduct ((c0 + ⟨0, 0, InHeight⟩) - (c2 + ⟨0, 0, InHeight⟩))
          ((c1 + ⟨0, 0, InHeight⟩) - (c2 + ⟨0, 0, InHeight⟩))
        = FVector.CrossProduct (c0 - c2) (c1 - c2) ∧
      (FVector.CrossProduct (c0 - c2) (c1 - c2)).X = 0 ∧
      (FVector.CrossProduct (c0 - c2) (c1 - c2)).Y = 0 ∧
      0 < (FVector.CrossProduct (c0 - c2) (c1 - c2)).Z := by
  have hN1 : 1 ≤ N := by omega
  have hiN : (i : Int) < N := by omega
  rw [VertexCount_eq_vertexCursor _ hN1] at hV
  rw [TriangleCount_eq_triangleCursor _ hN1] at hT
  obtain ⟨rest, hw⟩ := run_caps_window E
    (V.drop (vertexCursor true bInDoubleSided N.toNat)) InHeight InWidth N
    bInDoubleSided bInSmoothNormals i hiN hi1
  subst hb0 hc0 hc1 hc2
  refine ⟨_, _, GenerateCylinder_eq E V T _ _ N _ _ _ (by omega) (by omega), ?_, ?_, rfl,
    cross_offset _ _ _ _, (cross_circlePoints E InWidth _ _ _).1,
    (cross_circlePoints E InWidth _ _ _).2,
    cap_cross_Z_pos E hcos hsin hpi N i hi1 hi InWidth hr⟩
  · show ((List.drop _ (_ ++ _)).take 6).map _ = _
    rw [hw]
    rfl
  · show ((List.drop _ (_ ++ _)).take 6).map _ = _
    rw [hw]
    show [E.FPackedNormal (NormalCurrent E _ _ _), E.FPackedNormal (NormalCurrent E _ _ _),
      E.FPackedNormal (NormalCurrent E _ _ _),
      E.FPackedNormal (NormalCurrent E (_ + _) (_ + _) (_ + _)),
      E.FPackedNormal (NormalCurrent E (_ + _) (_ + _) (_ + _)),
      E.FPackedNormal (NormalCurrent E (_ + _) (_ + _) (_ + _))] = _
    rw [NormalCurrent_offset]
    rfl

/-- C17 at 4 segments, single-sided, radius 50 and height 100, for segment 1, with the real
cosine and sine. -/
theorem C17_cap_normals_point_up_witness :
    (3 : Int) ≤ 4 ∧ (50 : ℝ) ≠ 0 ∧ 1 ≤ 1 ∧ ((1 : Nat) : Int) ≤ 4 - 2 ∧
    ∃ r n, GenerateCylinder (⟨Real.cos, Real.sin, Real.pi, fun v => v, fun v => v⟩ : Engine ℝ)
        (List.replicate 34 ⟨⟨0, 0, 0⟩, ⟨0, 0⟩, ⟨0, 0, 0⟩, ⟨0, 0, 0⟩⟩) (List.replicate 42 0)
        100 50 4 true false false = some r ∧
      ((r.Vertices.drop 8).take 6).map (·.Normal) = [n, n, n, n, n, n] ∧
      n.X = 0 ∧ n.Y = 0 ∧ 0 < n.Z := by
  obtain ⟨r, n, h, -, hn, he, -, hx, hy, hz⟩ :=
    C17_cap_normals_point_up
      (⟨Real.cos, Real.sin, Real.pi, fun v => v, fun v => v⟩ : Engine ℝ) rfl rfl rfl
      4 (by decide) false false 100 50 (by norm_num)
      (List.replicate 34 ⟨⟨0, 0, 0⟩, ⟨0, 0⟩, ⟨0, 0, 0⟩, ⟨0, 0, 0⟩⟩) (List.replicate 42 0)
      (by simp [SetupMeshBuffers.VertexCount]) (by simp [SetupMeshBuffers.TriangleCount])
      1 (by decide) (by decide) _ _ _ rfl rfl rfl 8 (by decide)
  refine ⟨by decide, by norm_num, by decide, by decide, r, n, h, hn, ?_, ?_, ?_⟩
  · rw [he]; exact hx
  · rw [he]; exact hy
  · rw [he]; exact hz

end CapNormalClaims

section DegenerateCapClaims

end DegenerateCapClaims

section TangentClaims

variable {α : Type} [Field α]

/-- C19. For every `N ≥ 1`, radius, height and segment `i < N`, in every field and so over the
reals: the vector `p0 - p1`, whose normalisation is the tangent stored on every vertex of the
segment, has dot product `0` with the cross product `(p0 - p2) × (p1 - p2)` behind the flat
normal of the side quad (the normal stored on the primary quad of a flat-shaded run), and with
the cross products behind the cap normals of the segment, bottom and top: the tangent has
`z` component `0` and the cap cross products have `x` and `y` components `0`. -/
theorem C19_tangent_is_orthogonal_to_normals (E : Engine α) (N : Int) (hN : 1 ≤ N)
    (bInCapEnds bInDoubleSided bInSmoothNormals : Bool) (InHeight InWidth : α)
    (V : List (FRuntimeMeshVertexSimple α)) (T : List Int)
    (hV : SetupMeshBuffers.VertexCount N bInCapEnds bInDoubleSided ≤ (V.length : Int))
    (hT : SetupMeshBuffers.TriangleCount N bInCapEnds bInDoubleSided ≤ (T.length : Int))
    (i : Nat) (hi : (i : Int) < N) (p0 p1 p2 c0 : FVector α)
    (hp0 : p0 = circlePoint E InWidth (((i : Int) : α) * ((2 / (N : α)) * E.PI)))
    (hp1 : p1 = circlePoint E InWidth ((((i : Int) + 1 : Int) : α) * ((2 / (N : α)) * E.PI)))
    (hp2 : p2 = p1 + ⟨0, 0, InHeight⟩) (hc0 : c0 = circlePoint E InWidth 0)
    (v0 : Nat) (hv0 : v0 = vertexCursor bInCapEnds bInDoubleSided i) :
    FVector.DotProduct (p0 - p1) (FVector.CrossProduct (p0 - p2) (p1 - p2)) = 0 ∧
    (p0 - p1).Z = 0 ∧
    (FVector.CrossProduct (c0 - p1) (p0 - p1)).X = 0 ∧
    (FVector.CrossProduct (c0 - p1) (p0 - p1)).Y = 0 ∧
    FVector.DotProduct (p0 - p1) (FVector.CrossProduct (c0 - p1) (p0 - p1)) = 0 ∧
    FVector.CrossProduct ((c0 + ⟨0, 0, InHeight⟩) - (p1 + ⟨0, 0, InHeight⟩))
        ((p0 + ⟨0, 0, InHeight⟩) - (p1 + ⟨0, 0, InHeight⟩))
      = FVector.CrossProduct (c0 - p1) (p0 - p1) ∧
    ∃ r, GenerateCylinder E V T InHeight InWidth N bInCapEnds bInDoubleSided bInSmoothNormals
        = some r ∧
      (∀ v ∈ (r.Vertices.drop v0).take (segmentVertexCount bInCapEnds bInDoubleSided (i : Int)),
        v.Tangent = E.FPackedNormal (E.GetSafeNormal (p0 - p1))) ∧
      (bInSmoothNormals = false →
        ((r.Vertices.drop v0).take 4).map (·.Normal) = List.replicate 4
          (E.FPackedNormal (E.GetSafeNormal (FVector.CrossProduct (p0 - p2) (p1 - p2))))) ∧
      (bInCapEnds = true → 1 ≤ i →
        ((r.Vertices.drop (v0 + (if bInDoubleSided then 8 else 4))).take 6).map (·.Normal)
          = List.replicate 6
            (E.FPackedNormal (E.GetSafeNormal (FVector.CrossProduct (c0 - p1) (p0 - p1))))) := by
  rw [VertexCount_eq_vertexCursor _ hN] at hV
  rw [TriangleCount_eq_triangleCursor _ hN] at hT
  obtain ⟨rest, hw⟩ := run_segment_window E
    (V.drop (vertexCursor bInCapEnds bInDoubleSided N.toNat)) InHeight InWidth N
    bInCapEnds bInDoubleSided bInSmoothNormals i hi
  subst hv0 hp2 hp1 hp0 hc0
  refine ⟨tangent_dot_side_cross _ _ _, (tangent_dot_cap_cross E InWidth _ _ 0).1,
    (cross_circlePoints E InWidth _ _ _).1, (cross_circlePoints E InWidth _ _ _).2,
    (tangent_dot_cap_cross E InWidth _ _ 0).2, cross_offset _ _ _ _,
    _, GenerateCylinder_eq E V T _ _ N _ _ _ (by omega) (by omega), ?_, ?_, ?_⟩
  · intro v hv
    have hv2 : v ∈ (List.drop (vertexCursor bInCapEnds bInDoubleSided i)
        (cylinderVertices E InHeight InWidth N bInCapEnds bInDoubleSided bInSmoothNormals
          ++ V.drop (vertexCursor bInCapEnds bInDoubleSided N.toNat))).take
        (segmentVertexCount bInCapEnds bInDoubleSided (i : Int)) := hv
    rw [hw, List.take_left' (segmentVertices_length _ _ _ _ _ _ _ _ _)] at hv2
    exact segmentVertices_tangent E InWidth _ _ _ _ _ _ _ v hv2
  · intro hs
    subst hs
    show ((List.drop _ (_ ++ _)).take 4).map _ = _
    rw [hw]
    rfl
  · intro hc hi1
    subst hc
    obtain ⟨rest2, hw2⟩ := run_caps_window E
      (V.drop (vertexCursor true bInDoubleSided N.toNat)) InHeight InWidth N
      bInDoubleSided bInSmoothNormals i hi hi1
    show ((List.drop _ (_ ++ _)).take 6).map _ = _
    rw [hw2]
    show [E.FPackedNormal (NormalCurrent E _ _ _), E.FPackedNormal (NormalCurrent E _ _ _),
      E.FPackedNormal (NormalCurrent E _ _ _),
      E.FPackedNormal (NormalCurrent E (_ + _) (_ + _) (_ + _)),
      E.FPackedNormal (NormalCurrent E (_ + _) (_ + _) (_ + _)),
      E.FPackedNormal (NormalCurrent E (_ + _) (_ + _) (_ + _))] = _
    rw [NormalCurrent_offset]
    rfl

/-- C19 at 4 segments, capped and single-sided, radius 50 and height 100, for segment 1, with
the real cosine and sine. -/
theorem C19_tangent_is_orthogonal_to_normals_witness :
    (1 : Int) ≤ 4 ∧ ((1 : Nat) : Int) < 4 ∧
    ∃ p0 p1 p2 c0 : FVector ℝ,
      p0 = ⟨Real.cos ((((1 : Nat) : Int) : ℝ) * ((2 / ((4 : Int) : ℝ)) * Real.pi)) * 50,
        Real.sin ((((1 : Nat) : Int) : ℝ) * ((2 / ((4 : Int) : ℝ)) * Real.pi)) * 50, 0⟩ ∧
      p1 = ⟨Real.cos (((((1 : Nat) : Int) + 1 : Int) : ℝ) * ((2 / ((4 : Int) : ℝ)) * Real.pi)) * 50,
        Real.sin (((((1 : Nat) : Int) + 1 : Int) : ℝ) * ((2 / ((4 : Int) : ℝ)) * Real.pi)) * 50,
        0⟩ ∧
      p2 = p1 + ⟨0, 0, 100⟩ ∧ c0 = ⟨Real.cos 0 * 50, Real.sin 0 * 50, 0⟩ ∧
      FVector.DotProduct (p0 - p1) (FVector.CrossProduct (p0 - p2) (p1 - p2)) = 0 ∧
      FVector.DotProduct (p0 - p1) (FVector.CrossProduct (c0 - p1) (p0 - p1)) = 0 ∧
      ∃ r, GenerateCylinder (⟨Real.cos, Real.sin, Real.pi, fun v => v, fun v => v⟩ : Engine ℝ)
          (List.replicate 34 ⟨⟨0, 0, 0⟩, ⟨0, 0⟩, ⟨0, 0, 0⟩, ⟨0, 0, 0⟩⟩) (List.replicate 42 0)
          100 50 4 true false false = some r ∧
        (∀ v ∈ (r.Vertices.drop 4).take (segmentVertexCount true false ((1 : Nat) : Int)),
          v.Tangent = p0 - p1) := by
  obtain ⟨h1, -, -, -, h5, -, r, hr, ht, -, -⟩ :=
    C19_tangent_is_orthogonal_to_normals
      (⟨Real.cos, Real.sin, Real.pi, fun v => v, fun v => v⟩ : Engine ℝ)
      4 (by decide) true false false 100 50
      (List.replicate 34 ⟨⟨0, 0, 0⟩, ⟨0, 0⟩, ⟨0, 0, 0⟩, ⟨0, 0, 0⟩⟩) (List.replicate 42 0)
      (by simp [SetupMeshBuffers.VertexCount]) (by simp [SetupMeshBuffers.TriangleCount])
      1 (by decide) _ _ _ _ rfl rfl rfl rfl 4 (by decide)
  exact ⟨by decide, by decide, _, _, _, _, rfl, rfl, rfl, rfl, h1, h5, r, hr, ht⟩

end TangentClaims

end ProceduralMeshes
